import Mathlib

/-!
# Causal-survival prediction harnesses of `grf`: a verification development

The sources are the scratch programs under `scratches/`.  They exercise
`CausalSurvivalPredictionStrategy::predict`, simulate it
(`predict_causal_survival_effect`), and drive forest training and prediction.

## Numbers

A C++ `double` has two embeddings.

`F64` (section "Binary64 arithmetic") is the binary64 format with rounding to
nearest, signed zeros, subnormal numbers and overflow.  Whatever depends on the
digits of a computed value is settled on it: the arithmetic identities of
`predict_causal_survival_effect` and of the simple averages, division by zero,
and the standard deviations.

`Dbl` keeps a finite value as an exact rational and follows IEEE 754 for the
special values `+inf`, `-inf` and `NaN`; a decimal literal such as `0.1` stands
for `1/10`.  It carries the statements that do not depend on rounding (which
rows are read, how many values a vector holds, where `NaN` goes) and the forest
core, which is written from the spec.
-/

namespace Grf

/-! ## The embedding of `double` -/

/-- A `double`: an exact finite value, or one of the IEEE special values. -/
inductive Dbl where
  | fin (q : ℚ)
  | pinf
  | ninf
  | nan
  deriving DecidableEq

namespace Dbl

/-- The C++ `a + b` on doubles. -/
def add : Dbl → Dbl → Dbl
  | nan, _ => nan
  | _, nan => nan
  | fin a, fin b => fin (a + b)
  | pinf, ninf => nan
  | ninf, pinf => nan
  | pinf, _ => pinf
  | _, pinf => pinf
  | ninf, _ => ninf
  | _, ninf => ninf

/-- The C++ `a / b` on doubles: a finite nonzero value over zero is an infinity
with the sign of the dividend, `0 / 0` and `inf / inf` are `NaN`. -/
def div : Dbl → Dbl → Dbl
  | nan, _ => nan
  | _, nan => nan
  | fin a, fin b =>
      if b = 0 then (if a = 0 then nan else if 0 < a then pinf else ninf)
      else fin (a / b)
  | fin _, pinf => fin 0
  | fin _, ninf => fin 0
  | pinf, fin b => if 0 ≤ b then pinf else ninf
  | ninf, fin b => if 0 ≤ b then ninf else pinf
  | pinf, pinf => nan
  | pinf, ninf => nan
  | ninf, pinf => nan
  | ninf, ninf => nan

/-- The C++ `a * b` on doubles: `0 * inf` is `NaN`. -/
def mul : Dbl → Dbl → Dbl
  | nan, _ => nan
  | _, nan => nan
  | fin a, fin b => fin (a * b)
  | fin a, pinf => if a = 0 then nan else if 0 < a then pinf else ninf
  | fin a, ninf => if a = 0 then nan else if 0 < a then ninf else pinf
  | pinf, fin b => if b = 0 then nan else if 0 < b then pinf else ninf
  | ninf, fin b => if b = 0 then nan else if 0 < b then ninf else pinf
  | pinf, pinf => pinf
  | ninf, ninf => pinf
  | pinf, ninf => ninf
  | ninf, pinf => ninf

instance : Add Dbl := ⟨add⟩

instance : Mul Dbl := ⟨mul⟩

instance : Div Dbl := ⟨div⟩

/-- The C++ `a != b` on doubles: `NaN` differs from everything, itself included. -/
def ne : Dbl → Dbl → Bool
  | nan, _ => true
  | _, nan => true
  | a, b => decide (a ≠ b)

/-- The C++ `std::isnan`. -/
def isnan : Dbl → Bool
  | nan => true
  | _ => false

/-- The conversion of a `size_t` to `double`. -/
def ofNat (n : Nat) : Dbl := fin (n : ℚ)

/-- The conversion of a non-negative `double` to `size_t`, which truncates
toward zero.  It is undefined for a value that is negative, infinite or `NaN`;
such a value reads as 0 here. -/
def toNat : Dbl → Nat
  | fin q => ⌊q⌋.toNat
  | _ => 0

/-- A double that is neither an infinity nor `NaN`. -/
def isFinite : Dbl → Bool
  | fin _ => true
  | _ => false

end Dbl

/-! ## `CausalSurvivalPredictionStrategy` -/

/-- Modelled from the spec: the constant `CausalSurvivalPredictionStrategy::NUMERATOR`,
whose header is not among the sources.  The spec's `average = [2.5, 1.0]` puts
the numerator first, and `scratch_simple_demo.cpp` prints "NUMERATOR index = 0". -/
def NUMERATOR : Nat := 0

/-- Modelled from the spec: the constant
`CausalSurvivalPredictionStrategy::DENOMINATOR`, whose header is not among the
sources; `scratch_simple_demo.cpp` prints "DENOMINATOR index = 1". -/
def DENOMINATOR : Nat := 1

/-- Modelled from the spec: `CausalSurvivalPredictionStrategy::predict`, whose
translation unit is not among the sources.  The spec gives the point estimate
as `avg_numerator / avg_denominator`; the scratches document the body as
`return { average.at(NUMERATOR) / average.at(DENOMINATOR) };`.  `at` raises
`std::out_of_range` on a short vector, which is `none` here. -/
def CausalSurvivalPredictionStrategy.predict (average : List Dbl) : Option (List Dbl) :=
  match average[NUMERATOR]?, average[DENOMINATOR]? with
  | some n, some d => some [n / d]
  | _, _ => none

/-- The loop body of `scratch_simple_demo.cpp`, lines 37-38:
`double effect = test.numerator / test.denominator;`. -/
def simple_demo_effect (numerator denominator : Dbl) : Dbl :=
  numerator / denominator

/-! ## `predict_causal_survival_effect` (`scratch_final_demo.cpp`) -/

/-- The conditional expression of lines 33-34:
`(denominators[i] != 0.0) ? numerators[i] / denominators[i] : 0.0`. -/
def individual_effect (n d : Dbl) : Dbl :=
  if Dbl.ne d (Dbl.fin 0) then n / d else Dbl.fin 0

/-- The variables the loop of lines 29-40 updates: the two accumulators and the
printed column of individual effects. -/
structure EffectState where
  numerator_sum : Dbl
  denominator_sum : Dbl
  individual_effects : List Dbl
  deriving DecidableEq

/-- The loop of lines 29-40, `for (i = 0; i < numerators.size(); ++i)`, run on
what is left of the two vectors from index `i` on.  Reading `denominators[i]`
past the end of a shorter vector is undefined behaviour: `none`. -/
def effect_loop : List Dbl → List Dbl → EffectState → Option EffectState
  | [], _, s => some s
  | _ :: _, [], _ => none
  | n :: ns, d :: ds, s =>
      effect_loop ns ds
        { numerator_sum := s.numerator_sum + n
          denominator_sum := s.denominator_sum + d
          individual_effects := s.individual_effects ++ [individual_effect n d] }

/-- What one call of `predict_causal_survival_effect` computes and prints. -/
structure EffectRun where
  individual_effects : List Dbl
  avg_numerator : Dbl
  avg_denominator : Dbl
  treatment_effect : Dbl
  deriving DecidableEq

/-- The body of `predict_causal_survival_effect`, lines 22-55, with everything
it prints. -/
def predict_causal_survival_effect_run (numerators denominators : List Dbl) :
    Option EffectRun :=
  match effect_loop numerators denominators ⟨Dbl.fin 0, Dbl.fin 0, []⟩ with
  | none => none
  | some s =>
      let avg_numerator := s.numerator_sum / Dbl.ofNat numerators.length
      let avg_denominator := s.denominator_sum / Dbl.ofNat denominators.length
      let treatment_effect := avg_numerator / avg_denominator
      some
        { individual_effects := s.individual_effects
          avg_numerator := avg_numerator
          avg_denominator := avg_denominator
          treatment_effect := treatment_effect }

/-- The function `predict_causal_survival_effect`: `return {treatment_effect};`. -/
def predict_causal_survival_effect (numerators denominators : List Dbl) :
    Option (List Dbl) :=
  (predict_causal_survival_effect_run numerators denominators).map
    fun r => [r.treatment_effect]

/-- The sum of a vector of doubles, accumulated from `0.0` left to right. -/
def Dbl.sum (xs : List Dbl) : Dbl := xs.foldl (· + ·) (Dbl.fin 0)

/-- The average of the per-contribution effects: what the function would
return if it averaged the printed column instead of dividing the averages. -/
def average_of_individual_effects (numerators denominators : List Dbl) : Dbl :=
  Dbl.sum (List.zipWith individual_effect numerators denominators)
    / Dbl.ofNat numerators.length

/-! ## The simple averages of the inspection harnesses -/

/-- The struct `DataRow` of `scratch_simple_data_inspection.cpp`. -/
structure DataRow where
  features : List Dbl
  treatment : Dbl
  censor : Dbl
  numerator : Dbl
  denominator : Dbl
  deriving DecidableEq

/-- The accumulators `total_num` and `total_den` after the loop of
`scratch_predict_simple.cpp`, lines 108-122, over the rows
`i < std::min(10UL, data.get_num_rows())`.  The accessors of `Data` are
parameters. -/
def simple_average_totals (get_causal_survival_numerator
    get_causal_survival_denominator : Nat → Dbl) (num_rows : Nat) : Dbl × Dbl :=
  (List.range (min 10 num_rows)).foldl
    (fun acc i =>
      (acc.1 + get_causal_survival_numerator i, acc.2 + get_causal_survival_denominator i))
    (Dbl.fin 0, Dbl.fin 0)

/-- The three numbers of the line "Simple average approach"
(`scratch_predict_simple.cpp`, lines 124-125): `total_num/10`, `total_den/10`
and `total_num/total_den`. -/
def simple_average_approach (get_causal_survival_numerator
    get_causal_survival_denominator : Nat → Dbl) (num_rows : Nat) : Dbl × Dbl × Dbl :=
  let t := simple_average_totals get_causal_survival_numerator
    get_causal_survival_denominator num_rows
  (t.1 / Dbl.fin 10, t.2 / Dbl.fin 10, t.1 / t.2)

/-! ## The forest core, as the spec describes it

`commons/Data.h`, `forest/ForestTrainers.h` and `forest/ForestPredictors.h` are
included by the harnesses but are not among the sources; what follows is
written from the spec (sections 3, 4 and 6). -/

/-- The C++ `a <= b` on doubles: false as soon as one side is `NaN`. -/
def Dbl.le : Dbl → Dbl → Bool
  | Dbl.nan, _ => false
  | _, Dbl.nan => false
  | Dbl.fin a, Dbl.fin b => decide (a ≤ b)
  | Dbl.ninf, _ => true
  | _, Dbl.pinf => true
  | _, _ => false

/-- Modelled from the spec: the Data View of section 4.1 (class `Data`, absent
from the sources), "a flat numeric buffer (or row-major matrix) and dimensions"
with the configured role indices. -/
structure Data where
  values : List Dbl
  num_rows : Nat
  num_cols : Nat
  treatment_index : Option Nat
  instrument_index : Option Nat
  censor_index : Option Nat
  causal_survival_numerator_index : Option Nat
  causal_survival_denominator_index : Option Nat
  deriving DecidableEq

/-- Modelled from the spec: `get(row, col)` of the Data View, absent from the
sources; the matrix is row-major (section 3).  A cell outside the buffer reads
as `NaN`. -/
def Data.get (data : Data) (row col : Nat) : Dbl :=
  data.values.getD (row * data.num_cols + col) Dbl.nan

/-- Modelled from the spec: the nodes of a Tree (section 3; absent from the
sources).  An internal node owns a split variable, a threshold and its two
children; a leaf owns its estimation-set rows and the cached statistics
`(numerator_sum, denominator_sum, count)`. -/
inductive Node where
  | leaf (rows : List Nat) (numerator_sum denominator_sum : Dbl) (count : Nat)
  | node (split_var : Nat) (threshold : Dbl) (left right : Node)
  deriving DecidableEq

/-- Modelled from the spec: what the Honest Sampler of section 4.2 (absent
from the sources) produces for one tree: the subsample, its split-set and
estimation-set, and the out-of-bag complement. -/
structure TreeSample where
  subsample : List Nat
  split_set : List Nat
  estimation_set : List Nat
  oob : List Nat
  deriving DecidableEq

/-- Modelled from the spec: the Tree of section 3 (absent from the sources):
its nodes, with the draw of the Honest Sampler it was built from.  The spec
records the out-of-bag complement per tree; the split-set and the
estimation-set are kept beside it. -/
structure Tree where
  root : Node
  sample : TreeSample
  deriving DecidableEq

/-- Modelled from the spec: the Forest of section 3 (absent from the sources),
an ordered sequence of trees with its metadata. -/
structure Forest where
  trees : List Tree
  random_seed : Nat
  honesty : Bool
  ci_group_size : Nat
  deriving DecidableEq

/-- Modelled from the spec: the Prediction record of section 3 (class
`Prediction`, absent from the sources), read by the harnesses through
`get_predictions()`, `get_variance_estimates()` and `get_error_estimates()`;
an empty vector of variance estimates marks an unavailable variance. -/
structure Prediction where
  predictions : List Dbl
  variance_estimates : List Dbl
  error_estimates : List Dbl
  deriving DecidableEq

/-- Modelled from the spec: the accessor `Prediction::get_predictions` (absent
from the sources), the vector of point estimates. -/
def Prediction.get_predictions (p : Prediction) : List Dbl := p.predictions

/-- Modelled from the spec: the accessor `Prediction::get_variance_estimates`
(absent from the sources), empty when the variance is unavailable. -/
def Prediction.get_variance_estimates (p : Prediction) : List Dbl := p.variance_estimates

/-- Modelled from the spec: the descent of section 4.6, "descend the tree's
decision boundaries (using the row's feature values) to a single leaf; collect
that leaf's `(numerator_sum, denominator_sum, count)`".  The spec leaves the
side of a value equal to the threshold open; it goes left here. -/
def Node.find_leaf (data : Data) (row : Nat) : Node → Dbl × Dbl × Nat
  | Node.leaf _ numerator_sum denominator_sum count => (numerator_sum, denominator_sum, count)
  | Node.node split_var threshold left right =>
      if Dbl.le (data.get row split_var) threshold then left.find_leaf data row
      else right.find_leaf data row

/-- Modelled from the spec: the per-tree leaf means of section 4.6,
`numerator_sum/count` and `denominator_sum/count`, for one query row. -/
def leaf_means (forest : Forest) (data : Data) (row : Nat) : List (Dbl × Dbl) :=
  forest.trees.map fun tree =>
    let s := tree.root.find_leaf data row
    (s.1 / Dbl.ofNat s.2.2, s.2.1 / Dbl.ofNat s.2.2)

/-- Modelled from the spec: the average vector of section 4.6,
`[avg_numerator, avg_denominator]`, each the mean over the trees of the leaf
means (every tree has the same weight). -/
def average_value (forest : Forest) (data : Data) (row : Nat) : List Dbl :=
  let means := leaf_means forest data row
  [Dbl.sum (means.map Prod.fst) / Dbl.ofNat means.length,
   Dbl.sum (means.map Prod.snd) / Dbl.ofNat means.length]

/-- Modelled from the spec: the Prediction of one query row (section 4.6).
The point estimate is `predict` applied to the average vector.  The spec names
the variance estimator without giving its formula; it is the parameter
`compute_variance`, applied to `ci_group_size` and the per-tree leaf means, and
used only when a variance is asked for and `ci_group_size ≥ 2` ("otherwise
variance is reported as unavailable"). -/
def predict_row (compute_variance : Nat → List (Dbl × Dbl) → Dbl) (forest : Forest)
    (data : Data) (estimate_variance : Bool) (row : Nat) : Prediction :=
  { predictions :=
      match CausalSurvivalPredictionStrategy.predict (average_value forest data row) with
      | some p => p
      | none => []
    variance_estimates :=
      if estimate_variance && decide (2 ≤ forest.ci_group_size) then
        [compute_variance forest.ci_group_size (leaf_means forest data row)]
      else []
    error_estimates := [] }

/-- Modelled from the spec: the prediction call of section 6,
`predict(forest, trainDataView, testDataView, estimateVariance)` (class
`ForestPredictor`, absent from the sources): "one Prediction per row of
`testDataView`, in row order". -/
def ForestPredictor.predict (compute_variance : Nat → List (Dbl × Dbl) → Dbl)
    (forest : Forest) (_train_data data : Data) (estimate_variance : Bool) :
    List Prediction :=
  (List.range data.num_rows).map (predict_row compute_variance forest data estimate_variance)

/-- The C++ `a < b` on doubles: false as soon as one side is `NaN`. -/
def Dbl.lt : Dbl → Dbl → Bool
  | Dbl.nan, _ => false
  | _, Dbl.nan => false
  | Dbl.fin a, Dbl.fin b => decide (a < b)
  | Dbl.pinf, _ => false
  | _, Dbl.ninf => false
  | _, _ => true

/-- Modelled from the spec: ForestOptions (sections 3 and 6; the class is
absent from the sources), with the fields in the order of the constructor
calls of the harnesses. -/
structure ForestOptions where
  num_trees : Nat
  ci_group_size : Nat
  sample_fraction : Dbl
  mtry : Nat
  min_node_size : Nat
  honesty : Bool
  honesty_fraction : Dbl
  honesty_prune_leaves : Bool
  alpha : Dbl
  imbalance_penalty : Dbl
  num_threads : Nat
  random_seed : Nat
  legacy_seed : Bool
  sample_clusters : List Nat
  samples_per_cluster : Nat
  deriving DecidableEq

/-- Modelled from the spec: the derived accessor `causalSurvivalNumerator(row)`
of section 4.1 (absent from the sources), resolved through the role index. -/
def Data.get_causal_survival_numerator (data : Data) (row : Nat) : Dbl :=
  match data.causal_survival_numerator_index with
  | some col => data.get row col
  | none => Dbl.nan

/-- Modelled from the spec: the derived accessor `causalSurvivalDenominator(row)`
of section 4.1 (absent from the sources), resolved through the role index. -/
def Data.get_causal_survival_denominator (data : Data) (row : Nat) : Dbl :=
  match data.causal_survival_denominator_index with
  | some col => data.get row col
  | none => Dbl.nan

/-- Modelled from the spec: the columns that carry a semantic role (section
3), each listed once; treatment and instrument may coincide. -/
def Data.role_columns (data : Data) : List Nat :=
  ([data.treatment_index, data.instrument_index, data.censor_index,
    data.causal_survival_numerator_index, data.causal_survival_denominator_index].filterMap
      id).dedup

/-- Modelled from the spec: the number of feature columns (section 3), the
columns that carry no role. -/
def Data.num_features (data : Data) : Nat :=
  data.num_cols - data.role_columns.length

/-- Modelled from the spec: the precondition of the training call on the Data
View (sections 4.1 and 6): every role index that is set lies in
`[0, numCols())`, and the numerator, denominator, treatment and censor roles
are configured. -/
def Data.roles_configured (data : Data) : Bool :=
  data.role_columns.all (fun col => decide (col < data.num_cols))
    && data.causal_survival_numerator_index.isSome
    && data.causal_survival_denominator_index.isSome
    && data.treatment_index.isSome
    && data.censor_index.isSome

/-- Modelled from the spec: the constraints of the configuration surface
(section 6), checked once at the entry of training (section 4.5). -/
def ForestOptions.valid (options : ForestOptions) (num_features : Nat) : Bool :=
  decide (1 ≤ options.num_trees)
    && decide (options.ci_group_size ∣ options.num_trees)
    && Dbl.lt (Dbl.fin 0) options.sample_fraction
    && Dbl.le options.sample_fraction (Dbl.fin 1)
    && decide (1 ≤ options.mtry) && decide (options.mtry ≤ num_features)
    && decide (1 ≤ options.min_node_size)
    && (!options.honesty
        || (Dbl.lt (Dbl.fin 0) options.honesty_fraction
            && Dbl.lt options.honesty_fraction (Dbl.fin 1)))
    && Dbl.le (Dbl.fin 0) options.imbalance_penalty
    && decide (1 ≤ options.num_threads)

/-- Modelled from the spec: the three ingredients of training that the spec
names without fixing them.  `derive_seed master_seed index` is the derivation
of a random stream from `(master_seed, tree_index)` (section 4.5);
`draw_subsample seed num_rows size` is the random subsample of `size` rows that
the stream `seed` draws (section 4.2); `find_split data options rows seed` is
the choice of the Splitting Rule at a node with row-set `rows` (section 4.3,
whose objective section 9 leaves open): a split variable and a threshold, or
nothing. -/
structure TrainerParts where
  derive_seed : Nat → Nat → Nat
  draw_subsample : Nat → Nat → Nat → List Nat
  find_split : Data → ForestOptions → List Nat → Nat → Option (Nat × Dbl)

/-- Modelled from the spec: the Honest Sampler of section 4.2 (absent from the
sources).  The subsample has `sample_fraction × num_rows` rows; with honesty
its first `honesty_fraction` share is the split-set and the remainder the
estimation-set, without honesty both are the whole subsample; the out-of-bag
complement is the rows not in the subsample. -/
def honest_sampler (parts : TrainerParts) (options : ForestOptions) (num_rows seed : Nat) :
    TreeSample :=
  let subsample := parts.draw_subsample seed num_rows
    (Dbl.toNat (options.sample_fraction * Dbl.ofNat num_rows))
  let share := Dbl.toNat (options.honesty_fraction * Dbl.ofNat subsample.length)
  { subsample := subsample
    split_set := if options.honesty then subsample.take share else subsample
    estimation_set := if options.honesty then subsample.drop share else subsample
    oob := (List.range num_rows).filter fun row => decide (row ∉ subsample) }

/-- A leaf that no estimation-set row has reached yet. -/
def Node.empty_leaf : Node := Node.leaf [] (Dbl.fin 0) (Dbl.fin 0) 0

/-- Modelled from the spec: the first pass of the Tree Builder (section 4.4,
absent from the sources) at a node covering `rows`: invoke the Splitting Rule;
on success, unless a child violates `min_node_size`, create the two children
and record the split variable and threshold; otherwise finalize a leaf.  The
first argument bounds the depth; the number of rows of the root is enough,
since a child is strictly smaller than its parent. -/
def grow (parts : TrainerParts) (data : Data) (options : ForestOptions) (seed : Nat) :
    Nat → List Nat → Node
  | 0, _ => Node.empty_leaf
  | fuel + 1, rows =>
      match parts.find_split data options rows seed with
      | none => Node.empty_leaf
      | some (split_var, threshold) =>
          let left := rows.filter fun row => Dbl.le (data.get row split_var) threshold
          let right := rows.filter fun row => !Dbl.le (data.get row split_var) threshold
          if left.length < options.min_node_size || right.length < options.min_node_size then
            Node.empty_leaf
          else
            Node.node split_var threshold (grow parts data options seed fuel left)
              (grow parts data options seed fuel right)

/-- Modelled from the spec: one step of the second pass of the Tree Builder
(section 4.4): route an estimation-set row "through the same decision
boundaries down to its leaf" and accumulate it into that leaf's
`(numerator_sum, denominator_sum, count)`. -/
def Node.add_row (data : Data) (row : Nat) : Node → Node
  | Node.leaf rows numerator_sum denominator_sum count =>
      Node.leaf (rows ++ [row]) (numerator_sum + data.get_causal_survival_numerator row)
        (denominator_sum + data.get_causal_survival_denominator row) (count + 1)
  | Node.node split_var threshold left right =>
      if Dbl.le (data.get row split_var) threshold then
        Node.node split_var threshold (left.add_row data row) right
      else Node.node split_var threshold left (right.add_row data row)

/-- Modelled from the spec: the second pass of the Tree Builder (section 4.4)
over the whole estimation-set. -/
def Node.populate (data : Data) (root : Node) (estimation_set : List Nat) : Node :=
  estimation_set.foldl (fun node row => node.add_row data row) root

/-- A leaf that received no estimation-set row. -/
def Node.is_empty_leaf : Node → Bool
  | Node.leaf _ _ _ count => count == 0
  | Node.node _ _ _ _ => false

/-- Modelled from the spec: the pruning of section 4.4: a leaf that received
no estimation-set row is collapsed with its sibling into the parent (the
parent becomes what the sibling was), repeated upward. -/
def Node.prune : Node → Node
  | Node.leaf rows numerator_sum denominator_sum count =>
      Node.leaf rows numerator_sum denominator_sum count
  | Node.node split_var threshold left right =>
      if left.prune.is_empty_leaf then right.prune
      else if right.prune.is_empty_leaf then left.prune
      else Node.node split_var threshold left.prune right.prune

/-- Modelled from the spec: the construction of tree `tree_index` (sections
4.4 and 4.5).  The trees of one group of `ci_group_size` share the draw of the
Honest Sampler; the stream of the Splitting Rule is derived from
`(random_seed, tree_index)`.  The structure is grown from the split-set only,
then the estimation-set is routed to the leaves, then empty leaves are pruned
if `honesty_prune_leaves` is set. -/
def train_tree (parts : TrainerParts) (data : Data) (options : ForestOptions)
    (tree_index : Nat) : Tree :=
  let sample := honest_sampler parts options data.num_rows
    (parts.derive_seed options.random_seed (tree_index / options.ci_group_size))
  let grown := grow parts data options (parts.derive_seed options.random_seed tree_index)
    sample.split_set.length sample.split_set
  let populated := grown.populate data sample.estimation_set
  { root := if options.honesty_prune_leaves then populated.prune else populated
    sample := sample }

/-- Modelled from the spec: the error taxonomy of section 7, as far as it
reaches the caller of `train`. -/
inductive TrainError where
  | ConfigurationError
  deriving DecidableEq

/-- Modelled from the spec: the training call of section 6,
`train(dataView, options)` (class `ForestTrainer`, absent from the sources):
it fails with `ConfigurationError` before any work if the roles or the options
violate their constraints, and otherwise builds `num_trees` trees into an
ordered collection. -/
def ForestTrainer.train (parts : TrainerParts) (data : Data) (options : ForestOptions) :
    Except TrainError Forest :=
  if data.roles_configured && options.valid data.num_features then
    Except.ok
      { trees := (List.range options.num_trees).map (train_tree parts data options)
        random_seed := options.random_seed
        honesty := options.honesty
        ci_group_size := options.ci_group_size }
  else Except.error TrainError.ConfigurationError

/-- The options built by `minimal_options()` (`scratch_predict_simple.cpp`,
lines 45-67). -/
def minimal_options : ForestOptions :=
  { num_trees := 10
    ci_group_size := 1
    sample_fraction := Dbl.fin (6/10)
    mtry := 2
    min_node_size := 10
    honesty := true
    honesty_fraction := Dbl.fin (5/10)
    honesty_prune_leaves := true
    alpha := Dbl.fin (5/100)
    imbalance_penalty := Dbl.fin 0
    num_threads := 1
    random_seed := 42
    legacy_seed := false
    sample_clusters := []
    samples_per_cluster := 0 }

/-- A four-row matrix in the nine-column layout of the test data, with the
role indices the harnesses set (treatment and instrument 5, censor 6,
numerator 7, denominator 8).  Its first row is the example row printed by
`scratch_explain_indices.cpp`, line 23. -/
def example_data : Data :=
  { values := ([91/100, 14/100, 85/100, 5/100, 99/100, 0, 1, 50/1000, 329/1000,
      12/100, 70/100, 33/100, 58/100, 21/100, 1, 0, -37/1000, 0,
      47/100, 26/100, 64/100, 90/100, 8/100, 1, 1, 285/1000, 334/1000,
      75/100, 52/100, 11/100, 39/100, 66/100, 0, 0, 162/1000, 268/1000] : List ℚ).map Dbl.fin
    num_rows := 4
    num_cols := 9
    treatment_index := some 5
    instrument_index := some 5
    censor_index := some 6
    causal_survival_numerator_index := some 7
    causal_survival_denominator_index := some 8 }

/-- A concrete choice of the ingredients of training, for examples: seeds are
added, the subsample is the first `size` rows, and a node splits on feature 0
at the value of its first row. -/
def example_parts : TrainerParts :=
  { derive_seed := fun master_seed index => master_seed + index
    draw_subsample := fun _ num_rows size => (List.range num_rows).take size
    find_split := fun data _ rows _ => rows.head?.map fun row => (0, data.get row 0) }

/-- The table "Individual predictions" of `scratch_predict_simple.cpp`, lines
143-155: for each `idx` of `sample_indices = {0, 1, 2, 3, 4}` the row
`(idx, predictions[idx].get_predictions()[0], numerator(idx), denominator(idx))`.
An index past the end of a vector is undefined behaviour: `none`. -/
def individual_predictions (predictions : List Prediction)
    (get_causal_survival_numerator get_causal_survival_denominator : Nat → Dbl) :
    Option (List (Nat × Dbl × Dbl × Dbl)) :=
  [0, 1, 2, 3, 4].mapM fun idx =>
    match predictions[idx]? with
    | none => none
    | some p =>
        match p.get_predictions[0]? with
        | none => none
        | some v =>
            some (idx, v, get_causal_survival_numerator idx, get_causal_survival_denominator idx)

/-- The vector `sample_preds` of `scratch_variance_analysis.cpp`, lines 155-158:
`predictions[i].get_predictions()[0]` for `i < 5`.  An index past the end of a
vector is undefined behaviour: `none`. -/
def sample_preds (predictions : List Prediction) : Option (List Dbl) :=
  (List.range 5).mapM fun i =>
    match predictions[i]? with
    | none => none
    | some p => p.get_predictions[0]?

/-- The vector `pred_values` of `scratch_randomness_demo.cpp`, lines 119-122:
`predictions[i].get_predictions()[0]` for `i < std::min(10UL, predictions.size())`. -/
def pred_values (predictions : List Prediction) : Option (List Dbl) :=
  (List.range (min 10 predictions.length)).mapM fun i =>
    match predictions[i]? with
    | none => none
    | some p => p.get_predictions[0]?

/-! ## Variance cells and out-of-bag prediction -/

/-- A cell of a printed table: a number, or the text "N/A". -/
inductive Cell where
  | value (d : Dbl)
  | not_available
  deriving DecidableEq

/-- The variance cell of the table of `scratch_causal_survival.cpp`, lines
79-83: `get_variance_estimates()[0]` when the vector is not empty, "N/A"
otherwise. -/
def variance_cell (pred : Prediction) : Cell :=
  match pred.get_variance_estimates with
  | [] => Cell.not_available
  | v :: _ => Cell.value v

/-- Modelled from the spec: the Prediction that marks "unavailable".  Section
4.6 makes `NaN` the marker ("callers must treat `NaN` as 'estimate unavailable
for this row'"), and the harnesses read `get_predictions()[0]` of every
Prediction and skip it when it is `NaN`: the point estimate is `NaN`, and there
is no variance and no error estimate. -/
def Prediction.unavailable : Prediction :=
  { predictions := [Dbl.nan], variance_estimates := [], error_estimates := [] }

/-- Modelled from the spec: a Prediction is defined (not unavailable) when its
point estimate is not `NaN` (section 4.6); this is the test
`!std::isnan(pred.get_predictions()[0])` of the averaging loops. -/
def Prediction.available (pred : Prediction) : Bool :=
  match pred.get_predictions with
  | [] => false
  | v :: _ => !Dbl.isnan v

/-- Modelled from the spec: the trees that out-of-bag prediction may use for a
training row (section 4.6): "only the subset of trees for which that row was in
the OOB complement". -/
def oob_trees (forest : Forest) (row : Nat) : Forest :=
  { forest with trees := forest.trees.filter fun tree => decide (row ∈ tree.sample.oob) }

/-- Modelled from the spec: the out-of-bag Prediction of one training row
(section 4.6): the aggregation of `predict_row` restricted to `oob_trees`; a
row that is in the subsample of every tree "receives no OOB prediction" and is
reported as unavailable. -/
def predict_oob_row (compute_variance : Nat → List (Dbl × Dbl) → Dbl) (forest : Forest)
    (data : Data) (estimate_variance : Bool) (row : Nat) : Prediction :=
  if (oob_trees forest row).trees.isEmpty then Prediction.unavailable
  else predict_row compute_variance (oob_trees forest row) data estimate_variance row

/-- Modelled from the spec: the out-of-bag prediction call of section 6,
`predictOOB(forest, trainDataView, estimateVariance)` (absent from the
sources): "one Prediction per training row, in row order". -/
def ForestPredictor.predict_oob (compute_variance : Nat → List (Dbl × Dbl) → Dbl)
    (forest : Forest) (data : Data) (estimate_variance : Bool) : List Prediction :=
  (List.range data.num_rows).map
    (predict_oob_row compute_variance forest data estimate_variance)

/-! ## The options built by the harnesses -/

/-- The options built by `create_options_with_seed(random_seed)`
(`scratch_randomness_demo.cpp`, lines 44-65). -/
def create_options_with_seed (random_seed : Nat) : ForestOptions :=
  { num_trees := 50
    ci_group_size := 1
    sample_fraction := Dbl.fin (5/10)
    mtry := 3
    min_node_size := 5
    honesty := true
    honesty_fraction := Dbl.fin (5/10)
    honesty_prune_leaves := true
    alpha := Dbl.fin (5/100)
    imbalance_penalty := Dbl.fin 0
    num_threads := 1
    random_seed := random_seed
    legacy_seed := false
    sample_clusters := []
    samples_per_cluster := 0 }

/-- The options built by
`create_options(num_trees, sample_fraction, min_node_size, random_seed)`
(`scratch_variance_analysis.cpp`, lines 45-63). -/
def create_options (num_trees : Nat) (sample_fraction : Dbl) (min_node_size random_seed : Nat) :
    ForestOptions :=
  { num_trees := num_trees
    ci_group_size := 1
    sample_fraction := sample_fraction
    mtry := 3
    min_node_size := min_node_size
    honesty := true
    honesty_fraction := Dbl.fin (5/10)
    honesty_prune_leaves := true
    alpha := Dbl.fin (5/100)
    imbalance_penalty := Dbl.fin 0
    num_threads := 1
    random_seed := random_seed
    legacy_seed := false
    sample_clusters := []
    samples_per_cluster := 0 }

/-- The struct `Config` of `scratch_variance_analysis.cpp`, lines 111-116,
without its name. -/
structure Config where
  num_trees : Nat
  sample_fraction : Dbl
  min_node_size : Nat
  deriving DecidableEq

/-- The vector `configs` of `scratch_variance_analysis.cpp`, lines 118-124. -/
def configs : List Config :=
  [ { num_trees := 50, sample_fraction := Dbl.fin (5/10), min_node_size := 5 },
    { num_trees := 200, sample_fraction := Dbl.fin (5/10), min_node_size := 5 },
    { num_trees := 500, sample_fraction := Dbl.fin (5/10), min_node_size := 5 },
    { num_trees := 200, sample_fraction := Dbl.fin (3/10), min_node_size := 10 },
    { num_trees := 200, sample_fraction := Dbl.fin (8/10), min_node_size := 3 } ]

/-- The vector `seeds` of `scratch_variance_analysis.cpp`, line 126, and of
`scratch_randomness_demo.cpp`, line 102. -/
def seeds : List Nat := [42, 123, 456, 789, 999]

/-- The options built inline by `scratch_super_simple.cpp`, lines 78-98. -/
def super_simple_options : ForestOptions :=
  { num_trees := 10
    ci_group_size := 1
    sample_fraction := Dbl.fin (5/10)
    mtry := 3
    min_node_size := 5
    honesty := true
    honesty_fraction := Dbl.fin (5/10)
    honesty_prune_leaves := true
    alpha := Dbl.fin (5/100)
    imbalance_penalty := Dbl.fin 0
    num_threads := 1
    random_seed := 42
    legacy_seed := false
    sample_clusters := []
    samples_per_cluster := 0 }

/-- The four kinds of options values the harnesses build: `minimal_options()`,
the inline options of the super-simple demo, `create_options_with_seed(seed)`,
and `create_options` on a configuration of `configs` and a seed. -/
def built_by_harness (options : ForestOptions) : Prop :=
  options = minimal_options
    ∨ options = super_simple_options
    ∨ (∃ seed, options = create_options_with_seed seed)
    ∨ (∃ config ∈ configs, ∃ seed,
        options = create_options config.num_trees config.sample_fraction
          config.min_node_size seed)

/-! ## The role configuration of the harnesses -/

/-- Modelled from the spec: the constructor `Data(flat_data, num_rows, num_cols)`
of the Data View (section 4.1, absent from the sources): the flat buffer with
its dimensions and no role configured yet. -/
def Data.from_flat (flat_data : List Dbl) (num_rows num_cols : Nat) : Data :=
  { values := flat_data
    num_rows := num_rows
    num_cols := num_cols
    treatment_index := none
    instrument_index := none
    censor_index := none
    causal_survival_numerator_index := none
    causal_survival_denominator_index := none }

/-- Modelled from the spec: the setter `set_treatment_index` of the Data View
(absent from the sources).  The bounds of the role indices are checked at the
entry of training, by `Data.roles_configured`. -/
def Data.set_treatment_index (data : Data) (index : Nat) : Data :=
  { data with treatment_index := some index }

/-- Modelled from the spec: the setter `set_instrument_index` of the Data View
(absent from the sources). -/
def Data.set_instrument_index (data : Data) (index : Nat) : Data :=
  { data with instrument_index := some index }

/-- Modelled from the spec: the setter `set_censor_index` of the Data View
(absent from the sources). -/
def Data.set_censor_index (data : Data) (index : Nat) : Data :=
  { data with censor_index := some index }

/-- Modelled from the spec: the setter `set_causal_survival_numerator_index` of
the Data View (absent from the sources). -/
def Data.set_causal_survival_numerator_index (data : Data) (index : Nat) : Data :=
  { data with causal_survival_numerator_index := some index }

/-- Modelled from the spec: the setter `set_causal_survival_denominator_index`
of the Data View (absent from the sources). -/
def Data.set_causal_survival_denominator_index (data : Data) (index : Nat) : Data :=
  { data with causal_survival_denominator_index := some index }

/-- The five setter calls of the harnesses (`scratch_causal_survival.cpp`,
lines 33-37, and the same lines in the other training harnesses). -/
def set_indices (data : Data) : Data :=
  ((((data.set_treatment_index 5).set_instrument_index 5).set_censor_index
    6).set_causal_survival_numerator_index 7).set_causal_survival_denominator_index 8

/-- The four setter calls of `scratch_data_inspection.cpp`, lines 29-32, which
sets no instrument index. -/
def set_indices_inspection (data : Data) : Data :=
  (((data.set_treatment_index 5).set_censor_index
    6).set_causal_survival_numerator_index 7).set_causal_survival_denominator_index 8

/-- Modelled from the spec: the feature columns (section 3), the columns that
carry no role, in increasing order. -/
def Data.feature_columns (data : Data) : List Nat :=
  (List.range data.num_cols).filter fun col => decide (col ∉ data.role_columns)

/-! ## The averages over the predictions -/

/-- The variables of the loop "Prediction statistics" of
`scratch_causal_survival.cpp`, lines 96-98. -/
structure EffectStatistics where
  sum_effects : Dbl
  sum_variances : Dbl
  valid_predictions : Nat
  deriving DecidableEq

/-- The loop of `scratch_causal_survival.cpp`, lines 100-108: a prediction
whose first element is not NaN adds it to `sum_effects`, adds its first
variance estimate to `sum_variances` when there is one and it is not NaN, and
counts as valid.  Reading element 0 of an empty vector is undefined behaviour:
`none`. -/
def prediction_statistics : List Prediction → EffectStatistics → Option EffectStatistics
  | [], s => some s
  | pred :: rest, s =>
      match pred.get_predictions[0]? with
      | none => none
      | some effect =>
          if !Dbl.isnan effect then
            prediction_statistics rest
              { sum_effects := s.sum_effects + effect
                sum_variances :=
                  match pred.get_variance_estimates with
                  | [] => s.sum_variances
                  | v :: _ => if !Dbl.isnan v then s.sum_variances + v else s.sum_variances
                valid_predictions := s.valid_predictions + 1 }
          else prediction_statistics rest s

/-- The line "Average treatment effect" of `scratch_causal_survival.cpp`,
lines 110-111: `sum_effects / valid_predictions`, printed only when
`valid_predictions > 0` (the inner `none` is "nothing printed"). -/
def causal_survival_average (predictions : List Prediction) : Option (Option Dbl) :=
  (prediction_statistics predictions ⟨Dbl.fin 0, Dbl.fin 0, 0⟩).map fun s =>
    if 0 < s.valid_predictions then some (s.sum_effects / Dbl.ofNat s.valid_predictions)
    else none

/-- The loop of `scratch_causal_survival_simple.cpp`, lines 134-142, and of
`scratch_super_simple.cpp`, lines 126-131, on the pair (sum, count): a
prediction whose first element is not NaN is added and counted.  (The first
harness also tracks a minimum and a maximum, which the average does not use.) -/
def valid_sum_count : List Prediction → Dbl × Nat → Option (Dbl × Nat)
  | [], s => some s
  | pred :: rest, s =>
      match pred.get_predictions[0]? with
      | none => none
      | some effect =>
          if !Dbl.isnan effect then valid_sum_count rest (s.1 + effect, s.2 + 1)
          else valid_sum_count rest s

/-- The line "Average treatment effect" of `scratch_causal_survival_simple.cpp`,
lines 144-145: `sum_effects / valid_predictions`, printed only when
`valid_predictions > 0`. -/
def causal_survival_simple_average (predictions : List Prediction) : Option (Option Dbl) :=
  (valid_sum_count predictions (Dbl.fin 0, 0)).map fun s =>
    if 0 < s.2 then some (s.1 / Dbl.ofNat s.2) else none

/-- The line "Average treatment effect" of `scratch_super_simple.cpp`, line 134:
`sum / count`, printed unconditionally. -/
def super_simple_average (predictions : List Prediction) : Option Dbl :=
  (valid_sum_count predictions (Dbl.fin 0, 0)).map fun s => s.1 / Dbl.ofNat s.2

/-- The loop of `scratch_randomness_demo.cpp`, lines 127-129, and of
`scratch_variance_analysis.cpp`, lines 148-150: the first element of every
prediction is added to `sum`. -/
def sum_predictions : List Prediction → Dbl → Option Dbl
  | [], sum => some sum
  | pred :: rest, sum =>
      match pred.get_predictions[0]? with
      | none => none
      | some effect => sum_predictions rest (sum + effect)

/-- The value `avg_effect` of `scratch_randomness_demo.cpp`, line 130, and of
`scratch_variance_analysis.cpp`, line 151: `sum / predictions.size()`. -/
def avg_effect (predictions : List Prediction) : Option Dbl :=
  (sum_predictions predictions (Dbl.fin 0)).map fun sum =>
    sum / Dbl.ofNat predictions.length

/-! ## Reading the data file

The harnesses read the file with `std::getline` and `operator>>`.  The text of
the file is a list of characters.  The number syntax that `operator>>` accepts
belongs to the standard library; it is the parameter `num_get`, which maps what
is left of a stream to the value it reads and the rest, or fails. -/

/-- The C `isspace` in the default locale: space, `\t`, `\n`, `\v`, `\f`, `\r`. -/
def isspace (c : Char) : Bool :=
  c == ' ' || c == '\t' || c == '\n' || c == Char.ofNat 11 || c == Char.ofNat 12 || c == '\r'

/-- The lines that successive calls of `std::getline(file, line)` return, given
the characters read so far into the current line: a line ends at `\n`, and the
characters after the last `\n` form a last line unless there are none. -/
def getlines_from : List Char → List Char → List (List Char)
  | [], line => if line.isEmpty then [] else [line]
  | c :: rest, line =>
      if c = '\n' then line :: getlines_from rest [] else getlines_from rest (line ++ [c])

/-- The lines of a file, as the loop `while (std::getline(file, line))` sees
them. -/
def getlines (text : List Char) : List (List Char) := getlines_from text []

/-- One extraction `iss >> value`: skip the leading whitespace, then let
`num_get` read a number. -/
def extract_value (num_get : List Char → Option (Dbl × List Char)) (stream : List Char) :
    Option (Dbl × List Char) :=
  num_get (stream.dropWhile isspace)

/-- A successful read consumes at least one character. -/
def consumes_input (num_get : List Char → Option (Dbl × List Char)) : Prop :=
  ∀ stream value rest, num_get stream = some (value, rest) → rest.length < stream.length

/-- The loop `while (iss >> value) row.push_back(value);` of the loaders: the
values read until the first failed extraction.  The first argument bounds the
number of iterations; the length of the stream is enough, since each
extraction consumes a character. -/
def read_values (num_get : List Char → Option (Dbl × List Char)) :
    Nat → List Char → List Dbl
  | 0, _ => []
  | fuel + 1, stream =>
      match extract_value num_get stream with
      | none => []
      | some (value, rest) => value :: read_values num_get fuel rest

/-- The vector `row` that the loaders build from one line. -/
def read_row (num_get : List Char → Option (Dbl × List Char)) (line : List Char) : List Dbl :=
  read_values num_get line.length line

/-- The function `load_simple_data` (`scratch_predict_simple.cpp`, lines 22-42,
and the same text in three other harnesses): the row of every line, kept when
it is not empty. -/
def load_simple_data (num_get : List Char → Option (Dbl × List Char)) (text : List Char) :
    List (List Dbl) :=
  (getlines text).foldl
    (fun data line =>
      let row := read_row num_get line
      if row.isEmpty then data else data ++ [row])
    []

/-- The two nested loops that flatten `data_vec`
(`scratch_predict_simple.cpp`, lines 88-92): every value of every row is pushed
to the back of `flat_data`. -/
def flatten (data_vec : List (List Dbl)) : List Dbl :=
  data_vec.foldl (fun flat_data row => row.foldl (fun flat val => flat ++ [val]) flat_data) []

/-- The three arguments of the constructor call
`Data data(flat_data, num_rows, num_cols)`. -/
structure FlatData where
  flat_data : List Dbl
  num_rows : Nat
  num_cols : Nat
  deriving DecidableEq

/-- The reading loop of `scratch_super_simple.cpp`, lines 25-49, which flattens
while it reads: a non-empty row sets `num_cols` if it is still 0, is appended
to `flat_data` and increments `num_rows`. -/
def super_simple_read (num_get : List Char → Option (Dbl × List Char)) (text : List Char) :
    FlatData :=
  (getlines text).foldl
    (fun state line =>
      let row := read_row num_get line
      if row.isEmpty then state
      else
        { flat_data := row.foldl (fun flat val => flat ++ [val]) state.flat_data
          num_rows := state.num_rows + 1
          num_cols := if state.num_cols = 0 then row.length else state.num_cols })
    { flat_data := [], num_rows := 0, num_cols := 0 }

/-- The leading decimal digits of a stream: their value (continuing `value`),
their number (continuing `count`) and the rest of the stream. -/
def read_digits : List Char → Nat → Nat → Nat × Nat × List Char
  | [], value, count => (value, count, [])
  | c :: rest, value, count =>
      if c.isDigit then read_digits rest (10 * value + (c.toNat - 48)) (count + 1)
      else (value, count, c :: rest)

/-- A concrete `num_get`, for examples: decimal notation without exponent, an
optional sign, digits, and an optional point followed by digits, with at least
one digit in all (`12`, `-0.037250`, `.5`, `5.`). -/
def decimal_num_get (stream : List Char) : Option (Dbl × List Char) :=
  let unsigned :=
    if stream.head? = some '-' ∨ stream.head? = some '+' then stream.tail else stream
  let whole := read_digits unsigned 0 0
  let fraction :=
    if whole.2.2.head? = some '.' then read_digits whole.2.2.tail 0 0 else (0, 0, whole.2.2)
  if whole.2.1 + fraction.2.1 = 0 then none
  else
    some (Dbl.fin
        ((if stream.head? = some '-' then -1 else 1)
          * ((whole.1 : ℚ) + (fraction.1 : ℚ) / 10 ^ fraction.2.1)),
      fraction.2.2)

/-! ## The comparison table of the randomness demo -/

/-- The vector `all_predictions` of `scratch_randomness_demo.cpp` after the loop
over the seeds (lines 108-132): the `pred_values` of the predictions of each
seed, in the order of the seeds. -/
def collect_pred_values (runs : List (List Prediction)) : Option (List (List Dbl)) :=
  runs.mapM pred_values

/-- The accesses of the comparison table (`scratch_randomness_demo.cpp`, lines
147-156): for each `sample < 10` and each `seed_idx < seeds.size()`, the value
`all_predictions[seed_idx][sample]`.  An index past the end of a vector is
undefined behaviour: `none`. -/
def comparison_table (all_predictions : List (List Dbl)) : Option (List (List Dbl)) :=
  (List.range 10).mapM fun sample =>
    (List.range seeds.length).mapM fun seed_idx =>
      match all_predictions[seed_idx]? with
      | none => none
      | some values => values[sample]?

/-! ## The loader `load_csv`

`std::stod` belongs to the standard library; it is the parameter `stod`, which
maps a token to its value or raises (`none`).  A field of `DataRow` that no
statement assigns keeps an indeterminate value, the parameter `indeterminate`. -/

/-- One call `std::getline(iss, token, ' ')`: it fails when nothing is left in
the stream; otherwise the token is what precedes the first space (or the end),
and the space is consumed. -/
def getline_space (stream : List Char) : Option (List Char × List Char) :=
  match stream with
  | [] => none
  | _ :: _ =>
      some (stream.takeWhile (fun c => c != ' '), (stream.dropWhile (fun c => c != ' ')).tail)

/-- The loop `for (int i = 0; i < 5; ++i)` of `load_csv`
(`scratch_simple_data_inspection.cpp`, lines 33-37), with the number of
iterations left: each iteration whose `getline` succeeds pushes
`std::stod(token)` to `row.features`; a token that `stod` rejects raises. -/
def read_features (stod : List Char → Option Dbl) :
    Nat → List Char → List Dbl → Option (List Dbl × List Char)
  | 0, stream, features => some (features, stream)
  | remaining + 1, stream, features =>
      match getline_space stream with
      | none => read_features stod remaining stream features
      | some (token, rest) =>
          match stod token with
          | none => none
          | some value => read_features stod remaining rest (features ++ [value])

/-- One statement `if (std::getline(iss, token, ' ')) row.field = std::stod(token);`
of `load_csv` (lines 40-43): the new value of the field and the rest of the
stream; the field keeps its value when `getline` fails. -/
def read_field (stod : List Char → Option Dbl) (stream : List Char) (field : Dbl) :
    Option (Dbl × List Char) :=
  match getline_space stream with
  | none => some (field, stream)
  | some (token, rest) =>
      match stod token with
      | none => none
      | some value => some (value, rest)

/-- The body of the loop of `load_csv` (lines 28-43) on one line: the `DataRow`
pushed for the line, or `none` when `std::stod` raises. -/
def parse_data_row (stod : List Char → Option Dbl) (indeterminate : Dbl) (line : List Char) :
    Option DataRow :=
  match read_features stod 5 line [] with
  | none => none
  | some (features, s1) =>
      match read_field stod s1 indeterminate with
      | none => none
      | some (treatment, s2) =>
          match read_field stod s2 indeterminate with
          | none => none
          | some (censor, s3) =>
              match read_field stod s3 indeterminate with
              | none => none
              | some (numerator, s4) =>
                  match read_field stod s4 indeterminate with
                  | none => none
                  | some (denominator, _) =>
                      some
                        { features := features
                          treatment := treatment
                          censor := censor
                          numerator := numerator
                          denominator := denominator }

/-- The loop `while (std::getline(file, line))` of `load_csv` on the lines that
are left, with the rows pushed so far. -/
def load_csv_lines (stod : List Char → Option Dbl) (indeterminate : Dbl) :
    List (List Char) → List DataRow → Option (List DataRow)
  | [], data => some data
  | line :: rest, data =>
      match parse_data_row stod indeterminate line with
      | none => none
      | some row => load_csv_lines stod indeterminate rest (data ++ [row])

/-- The function `load_csv` (`scratch_simple_data_inspection.cpp`, lines 23-50);
`none` when it raises. -/
def load_csv (stod : List Char → Option Dbl) (indeterminate : Dbl) (text : List Char) :
    Option (List DataRow) :=
  load_csv_lines stod indeterminate (getlines text) []

/-- Tokens separated by single spaces. -/
def join_with_spaces : List (List Char) → List Char
  | [] => []
  | [token] => token
  | token :: next :: rest => token ++ ' ' :: join_with_spaces (next :: rest)

/-- The token is a number of the given value for both loaders: it holds no
space and does not start with whitespace, `std::stod` gives the value, and
`operator>>` reads the value and stops at the end of the token when the token
ends the line or is followed by a space. -/
def reads_as (num_get : List Char → Option (Dbl × List Char))
    (stod : List Char → Option Dbl) (token : List Char) (value : Dbl) : Prop :=
  ' ' ∉ token
    ∧ (∃ c rest, token = c :: rest ∧ isspace c = false)
    ∧ stod token = some value
    ∧ ∀ suffix, (suffix = [] ∨ ∃ rest, suffix = ' ' :: rest) →
        num_get (token ++ suffix) = some (value, suffix)

/-- The line consists of exactly nine numbers separated by single spaces, of
the given values. -/
def nine_numbers (num_get : List Char → Option (Dbl × List Char))
    (stod : List Char → Option Dbl) (line : List Char) (cells : List Dbl) : Prop :=
  ∃ tokens, tokens.length = 9 ∧ line = join_with_spaces tokens
    ∧ List.Forall₂ (reads_as num_get stod) tokens cells

/-- A concrete `stod`, for examples: the value that `decimal_num_get` reads
after the leading whitespace. -/
def decimal_stod (token : List Char) : Option Dbl :=
  (decimal_num_get (token.dropWhile isspace)).map Prod.fst

/-! ## Binary64 arithmetic

The claims about the numbers that the harnesses compute are settled on `F64`,
the binary64 format of IEEE 754 with its default rounding: every operation
returns the representable value nearest to the exact result, the even one on a
tie; results beyond the largest finite value become infinities, tiny results
become subnormal or zero, and zero carries a sign.  Operations are not fused
and intermediate results are not kept in a wider format.  A decimal literal
`0.1` of the sources is `F64.round (1/10)`. -/

/-- A `double` in the binary64 format of IEEE 754: a finite value (`fin 0` is
`+0.0`), the negative zero, an infinity or `NaN`.  The operations below round
to nearest, ties to even, so that they return representable values only; a
rational `q` is the value of a double when `round q = fin q`. -/
inductive F64 where
  | fin (q : ℚ)
  | nzero
  | pinf
  | ninf
  | nan
  deriving DecidableEq

namespace F64

/-- The number of halvings that bring `n` below 2, at most `fuel` of them. -/
def log2_steps : Nat → Nat → Nat
  | 0, _ => 0
  | fuel + 1, n => if 2 ≤ n then log2_steps fuel (n / 2) + 1 else 0

/-- The integer part of the binary logarithm of a positive natural number. -/
def log2 (n : Nat) : Nat := log2_steps n n

/-- The integer part of the binary logarithm of `n / d`, for positive `n` and
`d`. -/
def ilog2 (n d : Nat) : Int :=
  if d * 2 ^ (log2 n - log2 d) ≤ n * 2 ^ (log2 d - log2 n) then
    (log2 n : Int) - (log2 d : Int)
  else (log2 n : Int) - (log2 d : Int) - 1

/-- The integer nearest to `num / den`, the even one of the two when `num / den`
lies halfway between them. -/
def nearest_even (num den : Nat) : Nat :=
  if 2 * (num % den) < den then num / den
  else if den < 2 * (num % den) then num / den + 1
  else if (num / den) % 2 = 0 then num / den
  else num / den + 1

/-- The exponent of the unit in the last place of the binary64 values next to
a positive rational: 52 below its binary exponent, and `-1074` in the
subnormal range. -/
def quantum (q : ℚ) : Int :=
  max (ilog2 q.num.natAbs q.den) (-1022) - 52

/-- The multiple of the unit in the last place that is nearest to a positive
rational, ties to even: the magnitude of the rounded value, before overflow is
looked at. -/
def round_magnitude (q : ℚ) : ℚ :=
  (nearest_even (q.num.natAbs * 2 ^ (-quantum q).toNat) (q.den * 2 ^ (quantum q).toNat)
      * 2 ^ (quantum q).toNat : Nat)
    / (2 ^ (-quantum q).toNat : Nat)

/-- Rounding of an exact result to binary64 (round to nearest, ties to even):
a magnitude that rounds to `2^1024` or more overflows to an infinity, and a
negative value that rounds to zero gives `-0.0`. -/
def round (q : ℚ) : F64 :=
  if q = 0 then fin 0
  else if 0 < q then
    if (2 : ℚ) ^ 1024 ≤ round_magnitude q then pinf else fin (round_magnitude q)
  else if (2 : ℚ) ^ 1024 ≤ round_magnitude (-q) then ninf
  else if round_magnitude (-q) = 0 then nzero
  else fin (-round_magnitude (-q))

/-- The sign bit. -/
def signbit : F64 → Bool
  | fin q => decide (q < 0)
  | nzero => true
  | pinf => false
  | ninf => true
  | nan => false

/-- The zero of the given sign bit. -/
def zero (negative : Bool) : F64 := if negative then nzero else fin 0

/-- The infinity of the given sign bit. -/
def inf (negative : Bool) : F64 := if negative then ninf else pinf

/-- The value of a finite double. -/
def value : F64 → Option ℚ
  | fin q => some q
  | nzero => some 0
  | _ => none

/-- The C++ unary `-a`. -/
def neg : F64 → F64
  | fin q => if q = 0 then nzero else fin (-q)
  | nzero => fin 0
  | pinf => ninf
  | ninf => pinf
  | nan => nan

/-- The C++ `a + b` on doubles. -/
def add : F64 → F64 → F64
  | nan, _ => nan
  | _, nan => nan
  | pinf, ninf => nan
  | ninf, pinf => nan
  | pinf, _ => pinf
  | _, pinf => pinf
  | ninf, _ => ninf
  | _, ninf => ninf
  | nzero, nzero => nzero
  | nzero, fin b => round b
  | fin a, nzero => round a
  | fin a, fin b => round (a + b)

/-- The C++ `a - b` on doubles. -/
def sub (a b : F64) : F64 := add a (neg b)

/-- The C++ `a * b` on doubles. -/
def mul (a b : F64) : F64 :=
  match a, b with
  | nan, _ => nan
  | _, nan => nan
  | _, _ =>
      match a.value, b.value with
      | some x, some y =>
          if x * y = 0 then zero (xor a.signbit b.signbit) else round (x * y)
      | some x, none => if x = 0 then nan else inf (xor a.signbit b.signbit)
      | none, some y => if y = 0 then nan else inf (xor a.signbit b.signbit)
      | none, none => inf (xor a.signbit b.signbit)

/-- The C++ `a / b` on doubles. -/
def div (a b : F64) : F64 :=
  match a, b with
  | nan, _ => nan
  | _, nan => nan
  | _, _ =>
      match a.value, b.value with
      | some x, some y =>
          if y = 0 then (if x = 0 then nan else inf (xor a.signbit b.signbit))
          else if x = 0 then zero (xor a.signbit b.signbit)
          else round (x / y)
      | some _, none => zero (xor a.signbit b.signbit)
      | none, some _ => inf (xor a.signbit b.signbit)
      | none, none => nan

instance : Add F64 := ⟨add⟩

instance : Sub F64 := ⟨sub⟩

instance : Mul F64 := ⟨mul⟩

instance : Div F64 := ⟨div⟩

/-- The C++ `a != b` on doubles. -/
def ne : F64 → F64 → Bool
  | nan, _ => true
  | _, nan => true
  | a, b =>
      match a.value, b.value with
      | some x, some y => decide (x ≠ y)
      | _, _ => decide (a ≠ b)

/-- The C++ `a <= b` on doubles. -/
def le : F64 → F64 → Bool
  | nan, _ => false
  | _, nan => false
  | ninf, _ => true
  | _, pinf => true
  | pinf, _ => false
  | _, ninf => false
  | a, b =>
      match a.value, b.value with
      | some x, some y => decide (x ≤ y)
      | _, _ => false

/-- The C++ `std::isnan`. -/
def isnan : F64 → Bool
  | nan => true
  | _ => false

/-- The conversion of a `size_t` to `double`. -/
def ofNat (n : Nat) : F64 := round n

/-- The bits of the integer square root of `n` from bit `k - 1` down, added to
the bits `r` already found. -/
def isqrt_bits (n : Nat) : Nat → Nat → Nat
  | 0, r => r
  | k + 1, r => if (r + 2 ^ k) * (r + 2 ^ k) ≤ n then isqrt_bits n k (r + 2 ^ k)
      else isqrt_bits n k r

/-- The integer part of the square root. -/
def isqrt (n : Nat) : Nat := isqrt_bits n (log2 n / 2 + 1) 0

/-- The correctly rounded square root of a positive rational: with `p` the
exponent of the unit in the last place of the root, the integer nearest to
`sqrt(q) / 2^p`, ties to even, times `2^p`. -/
def sqrt_magnitude (q : ℚ) : ℚ :=
  let p : Int := ilog2 q.num.natAbs q.den / 2 - 52
  let num := q.num.natAbs * 4 ^ (-p).toNat
  let den := q.den * 4 ^ p.toNat
  let root := isqrt (num / den)
  let m := if (2 * root + 1) ^ 2 * den < 4 * num then root + 1
    else if (2 * root + 1) ^ 2 * den = 4 * num ∧ root % 2 = 1 then root + 1
    else root
  (m * 2 ^ p.toNat : Nat) / (2 ^ (-p).toNat : Nat)

/-- The function `std::sqrt`, correctly rounded. -/
def sqrt : F64 → F64
  | fin q => if q < 0 then nan else if q = 0 then fin 0 else fin (sqrt_magnitude q)
  | nzero => nzero
  | pinf => pinf
  | ninf => nan
  | nan => nan

end F64

/-! ## The computations of the harnesses in binary64 -/

namespace Binary64

/-- The sum of a vector of doubles, accumulated from `0.0` left to right. -/
def sum (xs : List F64) : F64 := xs.foldl (· + ·) (F64.fin 0)

/-- A division `a / b` of the program.  Beside the quotient it returns the
right operands of the divisions evaluated so far, `b` being the last. -/
def traced_div (a b : F64) (divisors : List F64) : F64 × List F64 :=
  (a / b, divisors ++ [b])

/-- The conditional expression of `scratch_final_demo.cpp`, lines 33-34:
`(denominators[i] != 0.0) ? numerators[i] / denominators[i] : 0.0`. -/
def individual_effect (n d : F64) (divisors : List F64) : F64 × List F64 :=
  if F64.ne d (F64.fin 0) then traced_div n d divisors else (F64.fin 0, divisors)

/-- The variables the loop of lines 29-40 updates: the two accumulators and the
printed column of individual effects; `divisors` is what the divisions of the
loop have recorded. -/
structure EffectState where
  numerator_sum : F64
  denominator_sum : F64
  individual_effects : List F64
  divisors : List F64
  deriving DecidableEq

/-- The loop of lines 29-40, `for (i = 0; i < numerators.size(); ++i)`, run on
what is left of the two vectors from index `i` on.  Reading `denominators[i]`
past the end of a shorter vector is undefined behaviour: `none`. -/
def effect_loop : List F64 → List F64 → EffectState → Option EffectState
  | [], _, s => some s
  | _ :: _, [], _ => none
  | n :: ns, d :: ds, s =>
      effect_loop ns ds
        { numerator_sum := s.numerator_sum + n
          denominator_sum := s.denominator_sum + d
          individual_effects := s.individual_effects ++ [(individual_effect n d s.divisors).1]
          divisors := (individual_effect n d s.divisors).2 }

/-- What one call of `predict_causal_survival_effect` computes and prints, with
the right operands of all its divisions in program order. -/
structure EffectRun where
  individual_effects : List F64
  avg_numerator : F64
  avg_denominator : F64
  treatment_effect : F64
  divisors : List F64
  deriving DecidableEq

/-- The body of `predict_causal_survival_effect` (`scratch_final_demo.cpp`,
lines 22-55): the loop, then `numerator_sum / numerators.size()`,
`denominator_sum / denominators.size()` and `avg_numerator / avg_denominator`. -/
def predict_causal_survival_effect_run (numerators denominators : List F64) :
    Option EffectRun :=
  match effect_loop numerators denominators ⟨F64.fin 0, F64.fin 0, [], []⟩ with
  | none => none
  | some s =>
      let avg_numerator :=
        traced_div s.numerator_sum (F64.ofNat numerators.length) s.divisors
      let avg_denominator :=
        traced_div s.denominator_sum (F64.ofNat denominators.length) avg_numerator.2
      let treatment_effect := traced_div avg_numerator.1 avg_denominator.1 avg_denominator.2
      some
        { individual_effects := s.individual_effects
          avg_numerator := avg_numerator.1
          avg_denominator := avg_denominator.1
          treatment_effect := treatment_effect.1
          divisors := treatment_effect.2 }

/-- The function `predict_causal_survival_effect`: `return {treatment_effect};`. -/
def predict_causal_survival_effect (numerators denominators : List F64) :
    Option (List F64) :=
  (predict_causal_survival_effect_run numerators denominators).map
    fun r => [r.treatment_effect]

/-- The loop body of `scratch_simple_demo.cpp`, lines 37-38:
`double effect = test.numerator / test.denominator;`. -/
def simple_demo_effect (numerator denominator : F64) : F64 :=
  numerator / denominator

/-- Modelled from the spec: `CausalSurvivalPredictionStrategy::predict`, whose
translation unit is not among the sources, in binary64.  The spec gives the
point estimate as `avg_numerator / avg_denominator`; the scratches document the
body as `return { average.at(NUMERATOR) / average.at(DENOMINATOR) };`. -/
def predict (average : List F64) : Option (List F64) :=
  match average[NUMERATOR]?, average[DENOMINATOR]? with
  | some n, some d => some [n / d]
  | _, _ => none

/-- The accumulators `total_num` and `total_den` after the loop of
`scratch_predict_simple.cpp`, lines 108-122, over the rows
`i < std::min(10UL, data.get_num_rows())`.  The accessors of `Data` are
parameters. -/
def simple_average_totals (get_causal_survival_numerator
    get_causal_survival_denominator : Nat → F64) (num_rows : Nat) : F64 × F64 :=
  (List.range (min 10 num_rows)).foldl
    (fun acc i =>
      (acc.1 + get_causal_survival_numerator i, acc.2 + get_causal_survival_denominator i))
    (F64.fin 0, F64.fin 0)

/-- The three numbers of the line "Simple average approach"
(`scratch_predict_simple.cpp`, lines 124-125): `total_num/10`, `total_den/10`
and `total_num/total_den`. -/
def simple_average_approach (get_causal_survival_numerator
    get_causal_survival_denominator : Nat → F64) (num_rows : Nat) : F64 × F64 × F64 :=
  let t := simple_average_totals get_causal_survival_numerator
    get_causal_survival_denominator num_rows
  (t.1 / F64.fin 10, t.2 / F64.fin 10, t.1 / t.2)

/-- The struct `DataRow` of `scratch_simple_data_inspection.cpp`. -/
structure DataRow where
  features : List F64
  treatment : F64
  censor : F64
  numerator : F64
  denominator : F64
  deriving DecidableEq

/-- The value `overall_effect` of `scratch_simple_data_inspection.cpp`, line 121,
from the accumulators `num_sum` and `den_sum` of the loop of lines 88-99. -/
def overall_effect (data : List DataRow) : F64 :=
  let num_sum := data.foldl (fun acc row => acc + row.numerator) (F64.fin 0)
  let den_sum := data.foldl (fun acc row => acc + row.denominator) (F64.fin 0)
  (num_sum / F64.ofNat data.length) / (den_sum / F64.ofNat data.length)

/-- The variable `mean` of `calculate_std_dev` after line 68: the sum of the
values, accumulated from `0.0`, divided by `values.size()`. -/
def mean_of (values : List F64) : F64 :=
  values.foldl (fun mean v => mean + v) (F64.fin 0) / F64.ofNat values.length

/-- The argument of `std::sqrt` in `calculate_std_dev`, line 74: the sum of the
squared deviations from `mean`, accumulated from `0.0`, divided by
`values.size()`. -/
def two_pass_variance (values : List F64) : F64 :=
  values.foldl
      (fun variance v => variance + (v - mean_of values) * (v - mean_of values)) (F64.fin 0)
    / F64.ofNat values.length

/-- The function `calculate_std_dev` (`scratch_variance_analysis.cpp`, lines
65-75): the mean, then the sum of the squared deviations, then
`std::sqrt(variance / values.size())`. -/
def calculate_std_dev (values : List F64) : F64 :=
  F64.sqrt (two_pass_variance values)

/-- The value `std_dev` computed inline by `scratch_randomness_demo.cpp`, lines
159-167, from `sample_preds`. -/
def inline_std_dev (sample_preds : List F64) : F64 :=
  let mean :=
    sample_preds.foldl (fun mean p => mean + p) (F64.fin 0) / F64.ofNat sample_preds.length
  let variance :=
    sample_preds.foldl (fun variance p => variance + (p - mean) * (p - mean)) (F64.fin 0)
  F64.sqrt (variance / F64.ofNat sample_preds.length)

end Binary64

/-- A double that is neither an infinity nor `NaN`. -/
def F64.isFinite (a : F64) : Bool := a.value.isSome

/-! ## Honesty: what the Splitting Rule reads -/

/-- A second concrete choice of the ingredients of training, for examples:
seeds are added, the subsample is the last `size` rows, from the last one
backwards, and a node with at least two rows splits on feature 0 at the value of
its second row. -/
def splitting_parts : TrainerParts :=
  { derive_seed := fun master_seed index => master_seed + index
    draw_subsample := fun _ num_rows size => (List.range num_rows).reverse.take size
    find_split := fun data _ rows _ =>
      match rows with
      | _ :: second :: _ => some (0, data.get second 0)
      | _ => none }

/-- The matrix `example_data` with the numerator of its second row set to 0:
that row then carries neither numerator nor denominator weight. -/
def zero_weight_data : Data :=
  { example_data with
    values := ([91/100, 14/100, 85/100, 5/100, 99/100, 0, 1, 50/1000, 329/1000,
      12/100, 70/100, 33/100, 58/100, 21/100, 1, 0, 0, 0,
      47/100, 26/100, 64/100, 90/100, 8/100, 1, 1, 285/1000, 334/1000,
      75/100, 52/100, 11/100, 39/100, 66/100, 0, 0, 162/1000, 268/1000] : List ℚ).map Dbl.fin }

/-! ## Theorems -/

/-! ### Arithmetic of finite doubles -/

theorem Dbl.div_fin_fin (a b : ℚ) (hb : b ≠ 0) :
    Dbl.fin a / Dbl.fin b = Dbl.fin (a / b) := by
  show Dbl.div (Dbl.fin a) (Dbl.fin b) = _
  simp [Dbl.div, hb]

theorem Dbl.add_fin_fin (a b : ℚ) : Dbl.fin a + Dbl.fin b = Dbl.fin (a + b) := rfl

theorem Dbl.ofNat_ne_zero {n : Nat} (h : n ≠ 0) : ((n : ℚ)) ≠ 0 := by
  exact_mod_cast h

theorem Dbl.foldl_add_fin (xs : List ℚ) (a : ℚ) :
    (xs.map Dbl.fin).foldl (· + ·) (Dbl.fin a) = Dbl.fin (a + xs.sum) := by
  induction xs generalizing a with
  | nil => simp
  | cons x xs ih =>
      simp only [List.map_cons, List.foldl_cons, List.sum_cons, Dbl.add_fin_fin]
      rw [ih, add_assoc]

theorem Dbl.sum_map_fin (xs : List ℚ) : Dbl.sum (xs.map Dbl.fin) = Dbl.fin xs.sum := by
  unfold Dbl.sum
  rw [Dbl.foldl_add_fin, zero_add]

/-! ### The loop of `predict_causal_survival_effect` -/

theorem effect_loop_eq (numerators denominators : List Dbl) (s : EffectState)
    (hlen : numerators.length = denominators.length) :
    effect_loop numerators denominators s = some
      { numerator_sum := numerators.foldl (· + ·) s.numerator_sum
        denominator_sum := denominators.foldl (· + ·) s.denominator_sum
        individual_effects :=
          s.individual_effects ++ List.zipWith individual_effect numerators denominators } := by
  induction numerators generalizing denominators s with
  | nil =>
      cases denominators with
      | nil => simp [effect_loop]
      | cons d ds => simp at hlen
  | cons n ns ih =>
      cases denominators with
      | nil => simp at hlen
      | cons d ds =>
          have hlen2 : ns.length = ds.length := by simpa using hlen
          simp only [effect_loop]
          rw [ih ds _ hlen2]
          simp [List.append_assoc]

theorem predict_causal_survival_effect_run_eq (numerators denominators : List Dbl)
    (hlen : numerators.length = denominators.length) :
    predict_causal_survival_effect_run numerators denominators = some
      { individual_effects := List.zipWith individual_effect numerators denominators
        avg_numerator := Dbl.sum numerators / Dbl.ofNat numerators.length
        avg_denominator := Dbl.sum denominators / Dbl.ofNat denominators.length
        treatment_effect :=
          (Dbl.sum numerators / Dbl.ofNat numerators.length)
            / (Dbl.sum denominators / Dbl.ofNat denominators.length) } := by
  unfold predict_causal_survival_effect_run
  rw [effect_loop_eq numerators denominators _ hlen]
  simp [Dbl.sum]

theorem predict_causal_survival_effect_eq (numerators denominators : List Dbl)
    (hlen : numerators.length = denominators.length) :
    predict_causal_survival_effect numerators denominators = some
      [(Dbl.sum numerators / Dbl.ofNat numerators.length)
        / (Dbl.sum denominators / Dbl.ofNat numerators.length)] := by
  unfold predict_causal_survival_effect
  rw [predict_causal_survival_effect_run_eq numerators denominators hlen, hlen]
  rfl

theorem predict_causal_survival_effect_fin (numerators denominators : List ℚ)
    (hne : numerators ≠ []) (hlen : numerators.length = denominators.length)
    (hsum : denominators.sum ≠ 0) :
    predict_causal_survival_effect (numerators.map Dbl.fin) (denominators.map Dbl.fin)
      = some [Dbl.fin (numerators.sum / denominators.sum)] := by
  have hn : ((numerators.length : ℚ)) ≠ 0 :=
    Dbl.ofNat_ne_zero (by simpa [List.length_eq_zero] using hne)
  rw [predict_causal_survival_effect_eq _ _ (by simpa using hlen)]
  simp only [Dbl.sum_map_fin, List.length_map, Dbl.ofNat]
  rw [Dbl.div_fin_fin _ _ hn, Dbl.div_fin_fin _ _ hn,
    Dbl.div_fin_fin _ _ (div_ne_zero hsum hn)]
  congr 3
  field_simp


theorem Dbl.div_fin_zero (a : ℚ) :
    Dbl.fin a / Dbl.fin 0 = if a = 0 then Dbl.nan else if 0 < a then Dbl.pinf else Dbl.ninf := by
  show Dbl.div (Dbl.fin a) (Dbl.fin 0) = _
  simp [Dbl.div]

theorem Dbl.ne_fin_zero (d : ℚ) : Dbl.ne (Dbl.fin d) (Dbl.fin 0) = decide (d ≠ 0) := by
  simp [Dbl.ne]

theorem individual_effect_fin (n d : ℚ) :
    individual_effect (Dbl.fin n) (Dbl.fin d) = Dbl.fin (if d = 0 then 0 else n / d) := by
  unfold individual_effect
  rw [Dbl.ne_fin_zero]
  by_cases hd : d = 0
  · simp [hd]
  · simp [hd, Dbl.div_fin_fin n d hd]

theorem simple_average_totals_fold (gn gd : Nat → ℚ) (l : List Nat) (a b : ℚ) :
    l.foldl (fun (acc : Dbl × Dbl) i =>
        (acc.1 + Dbl.fin (gn i), acc.2 + Dbl.fin (gd i))) (Dbl.fin a, Dbl.fin b)
      = (Dbl.fin (a + (l.map gn).sum), Dbl.fin (b + (l.map gd).sum)) := by
  induction l generalizing a b with
  | nil => simp
  | cons i l ih =>
      simp only [List.foldl_cons, Dbl.add_fin_fin, List.map_cons, List.sum_cons]
      rw [ih, add_assoc, add_assoc]

theorem simple_average_totals_fin (gn gd : Nat → ℚ) (num_rows : Nat) :
    simple_average_totals (fun i => Dbl.fin (gn i)) (fun i => Dbl.fin (gd i)) num_rows
      = (Dbl.fin (((List.range (min 10 num_rows)).map gn).sum),
          Dbl.fin (((List.range (min 10 num_rows)).map gd).sum)) := by
  unfold simple_average_totals
  rw [simple_average_totals_fold, zero_add, zero_add]

/-! ### One prediction per row -/

theorem mapM_option_eq_map {α β : Type} (f : α → Option β) (g : α → β) (l : List α)
    (h : ∀ x ∈ l, f x = some (g x)) : l.mapM f = some (l.map g) := by
  induction l with
  | nil => rfl
  | cons x l ih =>
      rw [List.mapM_cons, h x (List.mem_cons_self x l),
        ih (fun y hy => h y (List.mem_cons_of_mem x hy))]
      rfl

theorem predict_row_get_predictions (compute_variance : Nat → List (Dbl × Dbl) → Dbl)
    (forest : Forest) (data : Data) (estimate_variance : Bool) (row : Nat) :
    (predict_row compute_variance forest data estimate_variance row).get_predictions
      = [Dbl.sum ((leaf_means forest data row).map Prod.fst)
            / Dbl.ofNat (leaf_means forest data row).length
          / (Dbl.sum ((leaf_means forest data row).map Prod.snd)
            / Dbl.ofNat (leaf_means forest data row).length)] := by
  simp [Prediction.get_predictions, predict_row, average_value,
    CausalSurvivalPredictionStrategy.predict, NUMERATOR, DENOMINATOR]

theorem predict_getElem? (compute_variance : Nat → List (Dbl × Dbl) → Dbl)
    (forest : Forest) (train_data data : Data) (estimate_variance : Bool) (i : Nat)
    (hi : i < data.num_rows) :
    (ForestPredictor.predict compute_variance forest train_data data estimate_variance)[i]?
      = some (predict_row compute_variance forest data estimate_variance i) := by
  unfold ForestPredictor.predict
  rw [List.getElem?_map, List.getElem?_range hi]
  rfl

/-! ### The depth bound of `grow` -/

theorem grow_fuel_stable (parts : TrainerParts) (data : Data) (options : ForestOptions)
    (seed : Nat) (hmin : 1 ≤ options.min_node_size) (fuel : Nat) (rows : List Nat)
    (hfuel : rows.length ≤ fuel) :
    grow parts data options seed (fuel + 1) rows = grow parts data options seed fuel rows := by
  induction fuel generalizing rows with
  | zero =>
      have hrows : rows = [] := List.length_eq_zero.mp (Nat.le_zero.mp hfuel)
      subst hrows
      unfold grow
      split
      · rfl
      · have h0 : (0 : Nat) < options.min_node_size := hmin
        simp [h0]
  | succ fuel ih =>
      rw [grow.eq_def parts data options seed (fuel + 1 + 1) rows,
        grow.eq_def parts data options seed (fuel + 1) rows]
      dsimp only
      split
      · rfl
      · rename_i split_var threshold _
        have hpart := List.length_eq_length_filter_add (l := rows)
          (fun row => Dbl.le (data.get row split_var) threshold)
        split
        · rfl
        · rename_i hsizes
          simp only [Bool.or_eq_true, decide_eq_true_eq, not_or, not_lt] at hsizes
          have hl : (rows.filter fun row => Dbl.le (data.get row split_var) threshold).length
              ≤ fuel := by omega
          have hr : (rows.filter fun row => !Dbl.le (data.get row split_var) threshold).length
              ≤ fuel := by omega
          rw [ih _ hl, ih _ hr]

theorem grow_fuel_enough (parts : TrainerParts) (data : Data) (options : ForestOptions)
    (seed : Nat) (hmin : 1 ≤ options.min_node_size) (rows : List Nat) (extra : Nat) :
    grow parts data options seed (rows.length + extra) rows
      = grow parts data options seed rows.length rows := by
  induction extra with
  | zero => rfl
  | succ extra ih =>
      rw [← Nat.add_assoc,
        grow_fuel_stable parts data options seed hmin _ rows (Nat.le_add_right _ _), ih]

/-! ### Honesty -/

theorem train_ok_of_valid (parts : TrainerParts) (data : Data) (options : ForestOptions)
    (hroles : data.roles_configured = true)
    (hvalid : options.valid data.num_features = true) :
    ForestTrainer.train parts data options = Except.ok
      { trees := (List.range options.num_trees).map (train_tree parts data options)
        random_seed := options.random_seed
        honesty := options.honesty
        ci_group_size := options.ci_group_size } := by
  simp [ForestTrainer.train, hroles, hvalid]

theorem train_ok_inv (parts : TrainerParts) (data : Data) (options : ForestOptions)
    (forest : Forest) (htrain : ForestTrainer.train parts data options = Except.ok forest) :
    forest =
      { trees := (List.range options.num_trees).map (train_tree parts data options)
        random_seed := options.random_seed
        honesty := options.honesty
        ci_group_size := options.ci_group_size } := by
  unfold ForestTrainer.train at htrain
  split at htrain
  · injection htrain with htrain
    exact htrain.symm
  · cases htrain

theorem example_data_roles_configured : example_data.roles_configured = true := by decide

theorem example_data_num_features : example_data.num_features = 5 := by decide

theorem minimal_options_valid : minimal_options.valid 5 = true := by
  simp [ForestOptions.valid, minimal_options, Dbl.lt, Dbl.le]
  norm_num

theorem train_example :
    ForestTrainer.train example_parts example_data minimal_options = Except.ok
      { trees := (List.range minimal_options.num_trees).map
          (train_tree example_parts example_data minimal_options)
        random_seed := minimal_options.random_seed
        honesty := minimal_options.honesty
        ci_group_size := minimal_options.ci_group_size } :=
  train_ok_of_valid _ _ _ example_data_roles_configured
    (by rw [example_data_num_features]; exact minimal_options_valid)

/-! ### Out-of-bag rows -/

theorem train_tree_mem_oob (parts : TrainerParts) (data : Data) (options : ForestOptions)
    (tree_index row : Nat) (hrow : row < data.num_rows) :
    row ∈ (train_tree parts data options tree_index).sample.oob
      ↔ row ∉ (train_tree parts data options tree_index).sample.subsample := by
  simp [train_tree, honest_sampler, List.mem_filter, List.mem_range, hrow]

theorem predict_oob_getElem? (compute_variance : Nat → List (Dbl × Dbl) → Dbl)
    (forest : Forest) (data : Data) (estimate_variance : Bool) (row : Nat)
    (hrow : row < data.num_rows) :
    (ForestPredictor.predict_oob compute_variance forest data estimate_variance)[row]?
      = some (predict_oob_row compute_variance forest data estimate_variance row) := by
  unfold ForestPredictor.predict_oob
  rw [List.getElem?_map, List.getElem?_range hrow]
  rfl

/-! ### NaN in the averages -/

theorem Dbl.nan_add (x : Dbl) : Dbl.nan + x = Dbl.nan := by
  cases x <;> rfl

theorem Dbl.add_nan (x : Dbl) : x + Dbl.nan = Dbl.nan := by
  cases x <;> rfl

theorem Dbl.nan_div (x : Dbl) : Dbl.nan / x = Dbl.nan := by
  cases x <;> rfl

theorem sum_predictions_nan (predictions : List Prediction) :
    sum_predictions predictions Dbl.nan = none
      ∨ sum_predictions predictions Dbl.nan = some Dbl.nan := by
  induction predictions with
  | nil => exact Or.inr rfl
  | cons pred rest ih =>
      unfold sum_predictions
      split
      · exact Or.inl rfl
      · rw [Dbl.nan_add]
        exact ih

theorem sum_predictions_of_nan_mem (predictions : List Prediction) (sum : Dbl)
    (hnan : ∃ pred ∈ predictions, pred.get_predictions[0]? = some Dbl.nan) :
    sum_predictions predictions sum = none
      ∨ sum_predictions predictions sum = some Dbl.nan := by
  induction predictions generalizing sum with
  | nil =>
      obtain ⟨pred, hmem, _⟩ := hnan
      cases hmem
  | cons head rest ih =>
      unfold sum_predictions
      split
      · exact Or.inl rfl
      · rename_i effect heffect
        obtain ⟨pred, hmem, hpred⟩ := hnan
        rcases List.mem_cons.mp hmem with rfl | hrest
        · rw [hpred] at heffect
          injection heffect with heffect
          rw [← heffect, Dbl.add_nan]
          exact sum_predictions_nan rest
        · exact ih _ ⟨pred, hrest, hpred⟩

/-! ### Flattening -/

theorem foldl_push_back (row acc : List Dbl) :
    row.foldl (fun flat val => flat ++ [val]) acc = acc ++ row := by
  induction row generalizing acc with
  | nil => simp
  | cons v row ih => rw [List.foldl_cons, ih, List.append_assoc]; rfl

theorem flatten_foldl (data_vec : List (List Dbl)) (acc : List Dbl) :
    data_vec.foldl (fun flat_data row => row.foldl (fun flat val => flat ++ [val]) flat_data)
        acc
      = acc ++ data_vec.flatten := by
  induction data_vec generalizing acc with
  | nil => simp
  | cons row rest ih =>
      rw [List.foldl_cons, foldl_push_back, ih, List.flatten_cons, List.append_assoc]

theorem flatten_eq (data_vec : List (List Dbl)) : flatten data_vec = data_vec.flatten := by
  unfold flatten
  rw [flatten_foldl, List.nil_append]

theorem flatten_length (data_vec : List (List Dbl)) :
    (flatten data_vec).length = (data_vec.map List.length).sum := by
  rw [flatten_eq, List.length_flatten]

theorem flatten_length_rect (data_vec : List (List Dbl)) (num_cols : Nat)
    (hrect : ∀ row ∈ data_vec, row.length = num_cols) :
    (flatten data_vec).length = data_vec.length * num_cols := by
  rw [flatten_length]
  induction data_vec with
  | nil => simp
  | cons row rest ih =>
      rw [List.map_cons, List.sum_cons, ih (fun r hr => hrect r (List.mem_cons_of_mem row hr)),
        hrect row (List.mem_cons_self row rest), List.length_cons, Nat.succ_mul, Nat.add_comm]

theorem flatten_getElem? (data_vec : List (List Dbl)) (num_cols : Nat)
    (hrect : ∀ row ∈ data_vec, row.length = num_cols) (r c : Nat)
    (hr : r < data_vec.length) (hc : c < num_cols) :
    ∃ row value, data_vec[r]? = some row ∧ row[c]? = some value
      ∧ (flatten data_vec)[r * num_cols + c]? = some value := by
  rw [flatten_eq]
  induction data_vec generalizing r with
  | nil => simp at hr
  | cons first rest ih =>
      have hfirst : first.length = num_cols := hrect first (List.mem_cons_self first rest)
      cases r with
      | zero =>
          have hc2 : c < first.length := by omega
          refine ⟨first, first[c], by simp, List.getElem?_eq_getElem hc2, ?_⟩
          rw [List.flatten_cons, Nat.zero_mul, Nat.zero_add, List.getElem?_append_left hc2,
            List.getElem?_eq_getElem hc2]
      | succ r =>
          have hr2 : r < rest.length := by simpa using hr
          obtain ⟨row, value, hrow, hvalue, hflat⟩ :=
            ih (fun x hx => hrect x (List.mem_cons_of_mem first hx)) r hr2
          refine ⟨row, value, by simpa using hrow, hvalue, ?_⟩
          have hidx : (r + 1) * num_cols + c = first.length + (r * num_cols + c) := by
            rw [hfirst, Nat.succ_mul]; omega
          rw [List.flatten_cons, hidx, List.getElem?_append_right (Nat.le_add_right _ _),
            Nat.add_sub_cancel_left]
          exact hflat

/-! ### Reading rows -/

theorem extract_value_consumes (num_get : List Char → Option (Dbl × List Char))
    (hget : consumes_input num_get) (stream : List Char) (value : Dbl) (rest : List Char)
    (h : extract_value num_get stream = some (value, rest)) :
    rest.length < stream.length :=
  Nat.lt_of_lt_of_le (hget _ value rest h) (List.dropWhile_sublist isspace).length_le

theorem read_values_fuel_stable (num_get : List Char → Option (Dbl × List Char))
    (hget : consumes_input num_get) (fuel : Nat) (stream : List Char)
    (hfuel : stream.length ≤ fuel) :
    read_values num_get (fuel + 1) stream = read_values num_get fuel stream := by
  induction fuel generalizing stream with
  | zero =>
      rw [read_values.eq_def num_get (0 + 1) stream]
      dsimp only
      split
      · rfl
      · rename_i value rest h
        have := extract_value_consumes num_get hget stream value rest h
        omega
  | succ fuel ih =>
      rw [read_values.eq_def num_get (fuel + 1 + 1) stream,
        read_values.eq_def num_get (fuel + 1) stream]
      dsimp only
      split
      · rfl
      · rename_i value rest h
        have := extract_value_consumes num_get hget stream value rest h
        rw [ih rest (by omega)]

theorem read_values_fuel_enough (num_get : List Char → Option (Dbl × List Char))
    (hget : consumes_input num_get) (stream : List Char) (extra : Nat) :
    read_values num_get (stream.length + extra) stream
      = read_values num_get stream.length stream := by
  induction extra with
  | zero => rfl
  | succ extra ih =>
      rw [← Nat.add_assoc,
        read_values_fuel_stable num_get hget _ stream (Nat.le_add_right _ _), ih]

theorem read_row_eq (num_get : List Char → Option (Dbl × List Char))
    (hget : consumes_input num_get) (line : List Char) :
    read_row num_get line =
      match extract_value num_get line with
      | none => []
      | some (value, rest) => value :: read_row num_get rest := by
  unfold read_row
  cases hlen : line.length with
  | zero =>
      rw [read_values]
      split
      · rfl
      · rename_i value rest h
        have := extract_value_consumes num_get hget line value rest h
        omega
  | succ n =>
      rw [read_values]
      split
      · rfl
      · rename_i value rest h
        have hlt := extract_value_consumes num_get hget line value rest h
        obtain ⟨extra, hextra⟩ : ∃ extra, n = rest.length + extra :=
          ⟨n - rest.length, by omega⟩
        rw [hextra, read_values_fuel_enough num_get hget rest extra]

theorem load_simple_data_foldl (num_get : List Char → Option (Dbl × List Char))
    (lines : List (List Char)) (acc : List (List Dbl)) :
    lines.foldl
        (fun data line =>
          let row := read_row num_get line
          if row.isEmpty then data else data ++ [row])
        acc
      = acc ++ (lines.map (read_row num_get)).filter (fun row => !row.isEmpty) := by
  induction lines generalizing acc with
  | nil => simp
  | cons line rest ih =>
      rw [List.foldl_cons, ih, List.map_cons, List.filter_cons]
      by_cases hrow : (read_row num_get line).isEmpty = true
      · simp [hrow]
      · simp [hrow]

theorem load_simple_data_eq (num_get : List Char → Option (Dbl × List Char))
    (text : List Char) :
    load_simple_data num_get text
      = ((getlines text).map (read_row num_get)).filter (fun row => !row.isEmpty) := by
  unfold load_simple_data
  rw [load_simple_data_foldl, List.nil_append]

theorem super_simple_read_foldl (num_get : List Char → Option (Dbl × List Char))
    (lines : List (List Char)) (state : FlatData) :
    lines.foldl
        (fun state line =>
          let row := read_row num_get line
          if row.isEmpty then state
          else
            { flat_data := row.foldl (fun flat val => flat ++ [val]) state.flat_data
              num_rows := state.num_rows + 1
              num_cols := if state.num_cols = 0 then row.length else state.num_cols })
        state
      = { flat_data := state.flat_data
            ++ ((lines.map (read_row num_get)).filter (fun row => !row.isEmpty)).flatten
          num_rows := state.num_rows
            + ((lines.map (read_row num_get)).filter (fun row => !row.isEmpty)).length
          num_cols :=
            if state.num_cols = 0 then
              (((lines.map (read_row num_get)).filter (fun row => !row.isEmpty)).head?.map
                List.length).getD 0
            else state.num_cols } := by
  induction lines generalizing state with
  | nil =>
      cases state with
      | mk flat_data num_rows num_cols =>
          by_cases h0 : num_cols = 0 <;> simp [h0]
  | cons line rest ih =>
      rw [List.foldl_cons, ih, List.map_cons, List.filter_cons]
      by_cases hrow : (read_row num_get line).isEmpty = true
      · simp [hrow]
      · have hlen : (read_row num_get line).length ≠ 0 := by
          intro h0
          exact hrow (by rw [List.isEmpty_iff, List.length_eq_zero.mp h0])
        by_cases hcols : state.num_cols = 0
        · simp [hrow, hcols, hlen, foldl_push_back, Nat.add_assoc, Nat.add_comm 1]
        · simp [hrow, hcols, foldl_push_back, Nat.add_assoc, Nat.add_comm 1]

theorem super_simple_read_eq (num_get : List Char → Option (Dbl × List Char))
    (text : List Char) :
    super_simple_read num_get text
      = { flat_data := flatten (load_simple_data num_get text)
          num_rows := (load_simple_data num_get text).length
          num_cols := ((load_simple_data num_get text).head?.map List.length).getD 0 } := by
  unfold super_simple_read
  rw [super_simple_read_foldl, flatten_eq, load_simple_data_eq]
  simp

/-! ### The decimal `num_get` consumes its input -/

theorem read_digits_length (stream : List Char) (value count : Nat) :
    (read_digits stream value count).2.2.length + (read_digits stream value count).2.1
      = stream.length + count := by
  induction stream generalizing value count with
  | nil => simp [read_digits]
  | cons c rest ih =>
      unfold read_digits
      split
      · rw [ih]; simp; omega
      · simp

theorem decimal_num_get_consumes : consumes_input decimal_num_get := by
  intro stream value rest h
  unfold decimal_num_get at h
  dsimp only at h
  have hunsigned : (if stream.head? = some '-' ∨ stream.head? = some '+' then stream.tail
      else stream).length ≤ stream.length := by
    split
    · simp
    · exact le_refl _
  generalize (if stream.head? = some '-' ∨ stream.head? = some '+' then stream.tail
      else stream) = unsigned at h hunsigned
  have hwhole := read_digits_length unsigned 0 0
  generalize read_digits unsigned 0 0 = whole at h hwhole
  obtain ⟨whole_value, whole_count, whole_rest⟩ := whole
  dsimp only at h hwhole
  by_cases hpoint : whole_rest.head? = some '.'
  · have hfraction := read_digits_length whole_rest.tail 0 0
    rw [if_pos hpoint] at h
    generalize read_digits whole_rest.tail 0 0 = fraction at h hfraction
    obtain ⟨fraction_value, fraction_count, fraction_rest⟩ := fraction
    dsimp only at h hfraction
    have hpos : 0 < whole_rest.length := by
      cases whole_rest with
      | nil => simp at hpoint
      | cons _ _ => simp
    have htail : whole_rest.tail.length = whole_rest.length - 1 := by simp
    split at h
    · cases h
    · injection h with h
      injection h with _ hrest
      subst hrest
      omega
  · rw [if_neg hpoint] at h
    dsimp only at h
    split at h
    · cases h
    · rename_i hcount
      injection h with h
      injection h with _ hrest
      subst hrest
      omega

theorem mapM_option_length {α β : Type} (f : α → Option β) (l : List α) (r : List β)
    (h : l.mapM f = some r) : r.length = l.length := by
  induction l generalizing r with
  | nil =>
      simp only [List.mapM_nil] at h
      injection h with h
      subst h
      rfl
  | cons x l ih =>
      rw [List.mapM_cons] at h
      cases hx : f x with
      | none => rw [hx] at h; cases h
      | some y =>
          cases hl : l.mapM f with
          | none => rw [hx, hl] at h; cases h
          | some ys =>
              rw [hx, hl] at h
              injection h with h
              rw [← h, List.length_cons, List.length_cons, ih ys hl]

theorem pred_values_eq (predictions : List Prediction)
    (hpoint : ∀ pred ∈ predictions, pred.get_predictions ≠ []) :
    pred_values predictions = some ((List.range (min 10 predictions.length)).map fun i =>
      ((predictions.getD i Prediction.unavailable).get_predictions).headD Dbl.nan) := by
  unfold pred_values
  apply mapM_option_eq_map
  intro i hi
  have hlt : i < predictions.length := by
    rw [List.mem_range] at hi
    omega
  rw [List.getElem?_eq_getElem hlt, List.getD_eq_getElem predictions _ hlt]
  have hne := hpoint predictions[i] (List.getElem_mem hlt)
  cases hp : predictions[i].get_predictions with
  | nil => exact absurd hp hne
  | cons v rest => simp [hp]

theorem comparison_table_eq (all_predictions : List (List Dbl))
    (hlen : all_predictions.length = seeds.length)
    (hvalues : ∀ values ∈ all_predictions, values.length = 10) :
    comparison_table all_predictions = some ((List.range 10).map fun sample =>
      (List.range seeds.length).map fun seed_idx =>
        (all_predictions.getD seed_idx []).getD sample Dbl.nan) := by
  unfold comparison_table
  apply mapM_option_eq_map
  intro sample hsample
  apply mapM_option_eq_map
  intro seed_idx hseed
  rw [List.mem_range] at hsample hseed
  have hlt : seed_idx < all_predictions.length := by rw [hlen]; exact hseed
  have hten := hvalues all_predictions[seed_idx] (List.getElem_mem hlt)
  have hlt2 : sample < all_predictions[seed_idx].length := by rw [hten]; exact hsample
  rw [List.getElem?_eq_getElem hlt, List.getD_eq_getElem all_predictions _ hlt]
  simp only [List.getElem?_eq_getElem hlt2, List.getD_eq_getElem _ _ hlt2]

theorem collect_pred_values_eq (runs : List (List Prediction))
    (hpoint : ∀ predictions ∈ runs, ∀ pred ∈ predictions, pred.get_predictions ≠ []) :
    collect_pred_values runs = some (runs.map fun predictions =>
      (List.range (min 10 predictions.length)).map fun i =>
        ((predictions.getD i Prediction.unavailable).get_predictions).headD Dbl.nan) := by
  unfold collect_pred_values
  apply mapM_option_eq_map
  intro predictions hmem
  exact pred_values_eq predictions (hpoint predictions hmem)

/-! ### Variance in exact arithmetic -/

theorem mapM_option_getElem? {α β : Type} (f : α → Option β) (l : List α) (r : List β)
    (h : l.mapM f = some r) (i : Nat) (x : α) (hx : l[i]? = some x) :
    ∃ y, f x = some y ∧ r[i]? = some y := by
  induction l generalizing r i with
  | nil => simp at hx
  | cons a l ih =>
      rw [List.mapM_cons] at h
      cases ha : f a with
      | none => rw [ha] at h; cases h
      | some b =>
          cases hl : l.mapM f with
          | none => rw [ha, hl] at h; cases h
          | some bs =>
              rw [ha, hl] at h
              injection h with h
              subst h
              cases i with
              | zero =>
                  simp only [List.getElem?_cons_zero, Option.some.injEq] at hx
                  subst hx
                  exact ⟨b, ha, by simp⟩
              | succ i =>
                  simp only [List.getElem?_cons_succ] at hx
                  obtain ⟨y, hy, hr⟩ := ih bs hl i hx
                  exact ⟨y, hy, by simpa using hr⟩

theorem load_csv_lines_eq (stod : List Char → Option Dbl) (indeterminate : Dbl)
    (lines : List (List Char)) (data : List DataRow) :
    load_csv_lines stod indeterminate lines data
      = (lines.mapM (parse_data_row stod indeterminate)).map fun rows => data ++ rows := by
  induction lines generalizing data with
  | nil => rw [load_csv_lines, List.mapM_nil]; simp
  | cons line rest ih =>
      rw [load_csv_lines, List.mapM_cons]
      cases hline : parse_data_row stod indeterminate line with
      | none => rfl
      | some row =>
          simp only []
          rw [ih]
          cases hrest : rest.mapM (parse_data_row stod indeterminate) with
          | none => rfl
          | some rows => simp

theorem load_csv_eq (stod : List Char → Option Dbl) (indeterminate : Dbl)
    (text : List Char) :
    load_csv stod indeterminate text
      = (getlines text).mapM (parse_data_row stod indeterminate) := by
  unfold load_csv
  rw [load_csv_lines_eq]
  cases (getlines text).mapM (parse_data_row stod indeterminate) <;> simp

theorem read_features_length (stod : List Char → Option Dbl) (remaining : Nat)
    (stream : List Char) (features result : List Dbl) (rest : List Char)
    (h : read_features stod remaining stream features = some (result, rest)) :
    result.length ≤ features.length + remaining := by
  induction remaining generalizing stream features with
  | zero =>
      simp only [read_features, Option.some.injEq, Prod.mk.injEq] at h
      rw [← h.1]
      exact Nat.le_add_right _ _
  | succ remaining ih =>
      unfold read_features at h
      split at h
      · have := ih _ _ h
        omega
      · split at h
        · cases h
        · have := ih _ _ h
          simp only [List.length_append, List.length_cons, List.length_nil] at this
          omega

theorem parse_data_row_features (stod : List Char → Option Dbl) (indeterminate : Dbl)
    (line : List Char) (row : DataRow)
    (h : parse_data_row stod indeterminate line = some row) : row.features.length ≤ 5 := by
  unfold parse_data_row at h
  split at h
  · cases h
  · rename_i features s1 hfeatures
    have hlen := read_features_length stod 5 line [] features s1 hfeatures
    split at h
    · cases h
    · split at h
      · cases h
      · split at h
        · cases h
        · split at h
          · cases h
          · injection h with h
            rw [← h]
            simpa using hlen

theorem mapM_option_mem {α β : Type} (f : α → Option β) (l : List α) (r : List β)
    (h : l.mapM f = some r) (y : β) (hy : y ∈ r) : ∃ x ∈ l, f x = some y := by
  induction l generalizing r with
  | nil =>
      rw [List.mapM_nil] at h
      injection h with h
      subst h
      cases hy
  | cons a l ih =>
      rw [List.mapM_cons] at h
      cases ha : f a with
      | none => rw [ha] at h; cases h
      | some b =>
          cases hl : l.mapM f with
          | none => rw [ha, hl] at h; cases h
          | some bs =>
              rw [ha, hl] at h
              injection h with h
              subst h
              rcases List.mem_cons.mp hy with rfl | hmem
              · exact ⟨a, List.mem_cons_self a l, ha⟩
              · obtain ⟨x, hx, hfx⟩ := ih bs hl hmem
                exact ⟨x, List.mem_cons_of_mem a hx, hfx⟩

theorem load_csv_short_example :
    load_csv decimal_stod Dbl.nan ['1', ' ', '2', '\n', '\n']
      = some [⟨[Dbl.fin 1, Dbl.fin 2], Dbl.nan, Dbl.nan, Dbl.nan, Dbl.nan⟩,
          ⟨[], Dbl.nan, Dbl.nan, Dbl.nan, Dbl.nan⟩] := by
  simp [load_csv, load_csv_lines, getlines, getlines_from, parse_data_row, read_features,
    read_field, getline_space, decimal_stod, decimal_num_get, read_digits, isspace]

theorem takeWhile_not_space (token rest : List Char) (h : ' ' ∉ token) :
    (token ++ ' ' :: rest).takeWhile (fun c => c != ' ') = token := by
  induction token with
  | nil => simp
  | cons c token ih =>
      have hc : c ≠ ' ' := fun hc => h (hc ▸ List.mem_cons_self c token)
      have htoken : ' ' ∉ token := fun hmem => h (List.mem_cons_of_mem c hmem)
      rw [List.cons_append, List.takeWhile_cons, ih htoken]
      simp [hc]

theorem dropWhile_not_space (token rest : List Char) (h : ' ' ∉ token) :
    (token ++ ' ' :: rest).dropWhile (fun c => c != ' ') = ' ' :: rest := by
  induction token with
  | nil => simp
  | cons c token ih =>
      have hc : c ≠ ' ' := fun hc => h (hc ▸ List.mem_cons_self c token)
      have htoken : ' ' ∉ token := fun hmem => h (List.mem_cons_of_mem c hmem)
      rw [List.cons_append, List.dropWhile_cons]
      simp [hc, ih htoken]

theorem takeWhile_no_space (token : List Char) (h : ' ' ∉ token) :
    token.takeWhile (fun c => c != ' ') = token := by
  induction token with
  | nil => rfl
  | cons c token ih =>
      have hc : c ≠ ' ' := fun hc => h (hc ▸ List.mem_cons_self c token)
      have htoken : ' ' ∉ token := fun hmem => h (List.mem_cons_of_mem c hmem)
      rw [List.takeWhile_cons, ih htoken]
      simp [hc]

theorem dropWhile_no_space (token : List Char) (h : ' ' ∉ token) :
    token.dropWhile (fun c => c != ' ') = [] := by
  induction token with
  | nil => rfl
  | cons c token ih =>
      have hc : c ≠ ' ' := fun hc => h (hc ▸ List.mem_cons_self c token)
      have htoken : ' ' ∉ token := fun hmem => h (List.mem_cons_of_mem c hmem)
      rw [List.dropWhile_cons]
      simp [hc, ih htoken]

theorem getline_space_of_ne_nil (stream : List Char) (h : stream ≠ []) :
    getline_space stream
      = some (stream.takeWhile (fun c => c != ' '),
          (stream.dropWhile (fun c => c != ' ')).tail) := by
  cases stream with
  | nil => exact absurd rfl h
  | cons c rest => rfl

theorem getline_space_append (token rest : List Char) (h : ' ' ∉ token) :
    getline_space (token ++ ' ' :: rest) = some (token, rest) := by
  rw [getline_space_of_ne_nil _ (by simp), takeWhile_not_space token rest h,
    dropWhile_not_space token rest h]
  rfl

theorem getline_space_last (token : List Char) (h : ' ' ∉ token) (hne : token ≠ []) :
    getline_space token = some (token, []) := by
  rw [getline_space_of_ne_nil _ hne, takeWhile_no_space token h, dropWhile_no_space token h]
  rfl

theorem read_features_cons (stod : List Char → Option Dbl) (remaining : Nat)
    (token rest : List Char) (features : List Dbl) (value : Dbl) (h : ' ' ∉ token)
    (hstod : stod token = some value) :
    read_features stod (remaining + 1) (token ++ ' ' :: rest) features
      = read_features stod remaining rest (features ++ [value]) := by
  rw [read_features, getline_space_append token rest h]
  simp only [hstod]

theorem read_field_cons (stod : List Char → Option Dbl) (token rest : List Char)
    (field value : Dbl) (h : ' ' ∉ token) (hstod : stod token = some value) :
    read_field stod (token ++ ' ' :: rest) field = some (value, rest) := by
  rw [read_field, getline_space_append token rest h]
  simp only [hstod]

theorem read_field_last (stod : List Char → Option Dbl) (token : List Char)
    (field value : Dbl) (h : ' ' ∉ token) (hne : token ≠ [])
    (hstod : stod token = some value) :
    read_field stod token field = some (value, []) := by
  rw [read_field, getline_space_last token h hne]
  simp only [hstod]

theorem read_row_nil (num_get : List Char → Option (Dbl × List Char))
    (hget : consumes_input num_get) : read_row num_get [] = [] := by
  rw [read_row_eq num_get hget]
  split
  · rfl
  · rename_i value rest h
    have := extract_value_consumes num_get hget [] value rest h
    simp at this

theorem read_row_cons_space (num_get : List Char → Option (Dbl × List Char))
    (hget : consumes_input num_get) (stream : List Char) :
    read_row num_get (' ' :: stream) = read_row num_get stream := by
  rw [read_row_eq num_get hget (' ' :: stream), read_row_eq num_get hget stream]
  have hstream : extract_value num_get (' ' :: stream) = extract_value num_get stream := by
    simp [extract_value, isspace]
  rw [hstream]

theorem extract_value_token (num_get : List Char → Option (Dbl × List Char))
    (stod : List Char → Option Dbl) (token suffix : List Char) (value : Dbl)
    (htoken : reads_as num_get stod token value)
    (hsuffix : suffix = [] ∨ ∃ rest, suffix = ' ' :: rest) :
    extract_value num_get (token ++ suffix) = some (value, suffix) := by
  obtain ⟨_, ⟨c, rest, rfl, hc⟩, _, hread⟩ := htoken
  have hdrop : (c :: rest ++ suffix).dropWhile isspace = c :: rest ++ suffix := by
    rw [List.cons_append, List.dropWhile_cons]
    simp [hc]
  rw [extract_value, hdrop]
  exact hread suffix hsuffix

theorem read_row_join (num_get : List Char → Option (Dbl × List Char))
    (stod : List Char → Option Dbl) (hget : consumes_input num_get)
    (tokens : List (List Char)) (cells : List Dbl)
    (hall : List.Forall₂ (reads_as num_get stod) tokens cells) :
    read_row num_get (join_with_spaces tokens) = cells := by
  induction hall with
  | nil => exact read_row_nil num_get hget
  | @cons token value tokens cells htoken hrest ih =>
      cases tokens with
      | nil =>
          cases hrest
          have h := extract_value_token num_get stod token [] value htoken (Or.inl rfl)
          rw [List.append_nil] at h
          rw [join_with_spaces, read_row_eq num_get hget, h]
          simp only
          rw [read_row_nil num_get hget]
      | cons next tokens =>
          have h := extract_value_token num_get stod token
            (' ' :: join_with_spaces (next :: tokens)) value htoken (Or.inr ⟨_, rfl⟩)
          rw [join_with_spaces, read_row_eq num_get hget, h]
          simp only
          rw [read_row_cons_space num_get hget, ih]

theorem forall₂_nine {α β : Type} (R : α → β → Prop) (tokens : List α) (cells : List β)
    (hlen : tokens.length = 9) (hall : List.Forall₂ R tokens cells) :
    ∃ t0 t1 t2 t3 t4 t5 t6 t7 t8 v0 v1 v2 v3 v4 v5 v6 v7 v8,
      tokens = [t0, t1, t2, t3, t4, t5, t6, t7, t8]
        ∧ cells = [v0, v1, v2, v3, v4, v5, v6, v7, v8]
        ∧ R t0 v0 ∧ R t1 v1 ∧ R t2 v2 ∧ R t3 v3 ∧ R t4 v4 ∧ R t5 v5 ∧ R t6 v6 ∧ R t7 v7
        ∧ R t8 v8 := by
  rcases hall with _ | ⟨h0, hall⟩
  · cases hlen
  rcases hall with _ | ⟨h1, hall⟩
  · cases hlen
  rcases hall with _ | ⟨h2, hall⟩
  · cases hlen
  rcases hall with _ | ⟨h3, hall⟩
  · cases hlen
  rcases hall with _ | ⟨h4, hall⟩
  · cases hlen
  rcases hall with _ | ⟨h5, hall⟩
  · cases hlen
  rcases hall with _ | ⟨h6, hall⟩
  · cases hlen
  rcases hall with _ | ⟨h7, hall⟩
  · cases hlen
  rcases hall with _ | ⟨h8, hall⟩
  · cases hlen
  rcases hall with _ | ⟨h9, hall⟩
  · exact ⟨_, _, _, _, _, _, _, _, _, _, _, _, _, _, _, _, _, _, rfl, rfl,
      h0, h1, h2, h3, h4, h5, h6, h7, h8⟩
  · simp at hlen

theorem reads_as_ne_nil (num_get : List Char → Option (Dbl × List Char))
    (stod : List Char → Option Dbl) (token : List Char) (value : Dbl)
    (h : reads_as num_get stod token value) : token ≠ [] := by
  obtain ⟨_, ⟨c, rest, rfl, _⟩, _⟩ := h
  exact List.cons_ne_nil c rest

theorem parse_data_row_nine (num_get : List Char → Option (Dbl × List Char))
    (stod : List Char → Option Dbl) (indeterminate : Dbl) (line : List Char)
    (cells : List Dbl) (hline : nine_numbers num_get stod line cells) :
    ∃ row, parse_data_row stod indeterminate line = some row
      ∧ cells = row.features ++ [row.treatment, row.censor, row.numerator, row.denominator]
      ∧ row.features.length = 5 := by
  obtain ⟨tokens, hlen, rfl, hall⟩ := hline
  obtain ⟨t0, t1, t2, t3, t4, t5, t6, t7, t8, v0, v1, v2, v3, v4, v5, v6, v7, v8, rfl, rfl,
    h0, h1, h2, h3, h4, h5, h6, h7, h8⟩ := forall₂_nine _ tokens cells hlen hall
  refine ⟨⟨[v0, v1, v2, v3, v4], v5, v6, v7, v8⟩, ?_, rfl, rfl⟩
  simp only [join_with_spaces, parse_data_row]
  rw [read_features_cons stod 4 t0 _ _ v0 h0.1 h0.2.2.1,
    read_features_cons stod 3 t1 _ _ v1 h1.1 h1.2.2.1,
    read_features_cons stod 2 t2 _ _ v2 h2.1 h2.2.2.1,
    read_features_cons stod 1 t3 _ _ v3 h3.1 h3.2.2.1,
    read_features_cons stod 0 t4 _ _ v4 h4.1 h4.2.2.1, read_features]
  simp only
  rw [read_field_cons stod t5 _ _ v5 h5.1 h5.2.2.1]
  simp only
  rw [read_field_cons stod t6 _ _ v6 h6.1 h6.2.2.1]
  simp only
  rw [read_field_cons stod t7 _ _ v7 h7.1 h7.2.2.1]
  simp only
  rw [read_field_last stod t8 _ v8 h8.1 (reads_as_ne_nil num_get stod t8 v8 h8) h8.2.2.1]
  rfl

theorem loaders_agree_lines (num_get : List Char → Option (Dbl × List Char))
    (stod : List Char → Option Dbl) (indeterminate : Dbl) (hget : consumes_input num_get)
    (lines : List (List Char))
    (hwell : ∀ line ∈ lines, ∃ cells, nine_numbers num_get stod line cells) :
    ∃ data, lines.mapM (parse_data_row stod indeterminate) = some data
      ∧ (lines.map (read_row num_get)).filter (fun row => !row.isEmpty)
          = data.map (fun row =>
              row.features ++ [row.treatment, row.censor, row.numerator, row.denominator])
      ∧ ∀ row ∈ data, row.features.length = 5 := by
  induction lines with
  | nil => exact ⟨[], rfl, rfl, fun _ h => by cases h⟩
  | cons line lines ih =>
      obtain ⟨data, hdata, hrows, hfeatures⟩ :=
        ih (fun l hl => hwell l (List.mem_cons_of_mem line hl))
      obtain ⟨cells, hcells⟩ := hwell line (List.mem_cons_self line lines)
      obtain ⟨row, hrow, hsplit, hfive⟩ :=
        parse_data_row_nine num_get stod indeterminate line cells hcells
      have hread : read_row num_get line = cells := by
        obtain ⟨tokens, _, rfl, hall⟩ := hcells
        exact read_row_join num_get stod hget tokens cells hall
      refine ⟨row :: data, ?_, ?_, ?_⟩
      · rw [List.mapM_cons, hrow, hdata]
        rfl
      · rw [List.map_cons, List.filter_cons, hread, hsplit, hrows]
        simp
      · intro r hr
        rcases List.mem_cons.mp hr with rfl | hmem
        · exact hfive
        · exact hfeatures r hmem

theorem decimal_reads_digit (d : Nat) (hd : d < 10) :
    reads_as decimal_num_get decimal_stod [Char.ofNat (48 + d)] (Dbl.fin d) := by
  interval_cases d <;>
    refine ⟨by decide, ⟨_, _, rfl, by decide⟩, ?_, ?_⟩ <;>
    first
      | (rintro suffix (rfl | ⟨rest, rfl⟩) <;>
          simp [decimal_num_get, read_digits])
      | simp [decimal_stod, decimal_num_get, read_digits, isspace]

theorem nine_digits_line :
    getlines ['1', ' ', '2', ' ', '3', ' ', '4', ' ', '5', ' ', '6', ' ', '7', ' ', '8', ' ',
      '9', '\n']
      = [['1', ' ', '2', ' ', '3', ' ', '4', ' ', '5', ' ', '6', ' ', '7', ' ', '8', ' ',
          '9']] := by
  simp [getlines, getlines_from]

theorem nine_digits_well_formed :
    ∀ line ∈ getlines ['1', ' ', '2', ' ', '3', ' ', '4', ' ', '5', ' ', '6', ' ', '7', ' ',
        '8', ' ', '9', '\n'],
      ∃ cells, nine_numbers decimal_num_get decimal_stod line cells := by
  intro line hline
  rw [nine_digits_line, List.mem_singleton] at hline
  subst hline
  exact ⟨[Dbl.fin (1 : Nat), Dbl.fin (2 : Nat), Dbl.fin (3 : Nat), Dbl.fin (4 : Nat),
      Dbl.fin (5 : Nat), Dbl.fin (6 : Nat), Dbl.fin (7 : Nat), Dbl.fin (8 : Nat),
      Dbl.fin (9 : Nat)],
    [['1'], ['2'], ['3'], ['4'], ['5'], ['6'], ['7'], ['8'], ['9']], rfl, rfl,
    List.Forall₂.cons (decimal_reads_digit 1 (by decide))
      (List.Forall₂.cons (decimal_reads_digit 2 (by decide))
        (List.Forall₂.cons (decimal_reads_digit 3 (by decide))
          (List.Forall₂.cons (decimal_reads_digit 4 (by decide))
            (List.Forall₂.cons (decimal_reads_digit 5 (by decide))
              (List.Forall₂.cons (decimal_reads_digit 6 (by decide))
                (List.Forall₂.cons (decimal_reads_digit 7 (by decide))
                  (List.Forall₂.cons (decimal_reads_digit 8 (by decide))
                    (List.Forall₂.cons (decimal_reads_digit 9 (by decide))
                      List.Forall₂.nil))))))))⟩

/-! ### Binary64 arithmetic -/

theorem F64.log2_steps_spec (fuel n : Nat) (hfuel : n ≤ fuel) (hn : n ≠ 0) :
    2 ^ F64.log2_steps fuel n ≤ n ∧ n < 2 ^ (F64.log2_steps fuel n + 1) := by
  induction fuel generalizing n with
  | zero => omega
  | succ fuel ih =>
      rw [F64.log2_steps]
      by_cases h2 : 2 ≤ n
      · rw [if_pos h2]
        obtain ⟨hlow, hhigh⟩ := ih (n / 2) (by omega) (by omega)
        constructor
        · rw [pow_succ]; omega
        · rw [pow_succ]; omega
      · rw [if_neg h2]
        constructor
        · simp; omega
        · simp; omega

theorem F64.two_pow_log2_le (n : Nat) (hn : n ≠ 0) : 2 ^ F64.log2 n ≤ n :=
  (F64.log2_steps_spec n n (Nat.le_refl n) hn).1

theorem F64.log2_lt (n k : Nat) (hn : n ≠ 0) (h : n < 2 ^ k) : F64.log2 n < k := by
  by_contra hk
  have h1 : 2 ^ k ≤ 2 ^ F64.log2 n := Nat.pow_le_pow_right (by norm_num) (by omega)
  have h2 := F64.two_pow_log2_le n hn
  omega

theorem F64.log2_one : F64.log2 1 = 0 := rfl

theorem F64.round_magnitude_nonneg (q : ℚ) : 0 ≤ F64.round_magnitude q := by
  unfold F64.round_magnitude
  positivity

theorem F64.isnan_round (q : ℚ) : (F64.round q).isnan = false := by
  unfold F64.round
  split_ifs <;> rfl

theorem F64.round_of_nonneg (q : ℚ) (h : 0 ≤ q) :
    F64.round q = F64.pinf ∨ ∃ r : ℚ, 0 ≤ r ∧ F64.round q = F64.fin r := by
  unfold F64.round
  by_cases h0 : q = 0
  · exact Or.inr ⟨0, le_refl _, by rw [if_pos h0]⟩
  · have hpos : 0 < q := lt_of_le_of_ne h (Ne.symm h0)
    rw [if_neg h0, if_pos hpos]
    by_cases hover : (2 : ℚ) ^ 1024 ≤ F64.round_magnitude q
    · exact Or.inl (by rw [if_pos hover])
    · exact Or.inr ⟨_, F64.round_magnitude_nonneg q, by rw [if_neg hover]⟩

theorem F64.round_natCast (n : Nat) (h : n < 2 ^ 53) : F64.round (n : ℚ) = F64.fin n := by
  by_cases hn : n = 0
  · subst hn
    simp [F64.round]
  have hlog : F64.log2 n < 53 := F64.log2_lt n 53 hn h
  have hilog : F64.ilog2 n 1 = (F64.log2 n : Int) := by
    unfold F64.ilog2
    rw [F64.log2_one, if_pos]
    · simp
    · simpa using F64.two_pow_log2_le n hn
  have hquantum : F64.quantum (n : ℚ) = (F64.log2 n : Int) - 52 := by
    unfold F64.quantum
    rw [Rat.num_natCast, Rat.den_natCast, Int.natAbs_ofNat, hilog]
    omega
  have h1 : (F64.quantum (n : ℚ)).toNat = 0 := by rw [hquantum]; omega
  have hmag : F64.round_magnitude (n : ℚ) = n := by
    unfold F64.round_magnitude
    rw [h1, Rat.num_natCast, Rat.den_natCast, Int.natAbs_ofNat]
    have hne : F64.nearest_even (n * 2 ^ (-F64.quantum (n : ℚ)).toNat) (1 * 2 ^ 0)
        = n * 2 ^ (-F64.quantum (n : ℚ)).toNat := by
      unfold F64.nearest_even
      simp [Nat.mod_one]
    rw [hne]
    push_cast
    field_simp
  have hq0 : (n : ℚ) ≠ 0 := by exact_mod_cast hn
  have hqpos : (0 : ℚ) < n := by exact_mod_cast Nat.pos_of_ne_zero hn
  have hsmall : ¬ (2 : ℚ) ^ 1024 ≤ (n : ℚ) := by
    have h2 : (n : ℚ) < 2 ^ 53 := by exact_mod_cast h
    have h3 : (2 : ℚ) ^ 53 ≤ 2 ^ 1024 := by
      apply pow_le_pow_right₀ <;> norm_num
    linarith
  unfold F64.round
  rw [if_neg hq0, if_pos hqpos, hmag, if_neg hsmall]

theorem F64.ofNat_exact (n : Nat) (h : n < 2 ^ 53) : F64.ofNat n = F64.fin n :=
  F64.round_natCast n h

theorem F64.ne_zero_eq_false (b : F64) :
    F64.ne b (F64.fin 0) = false ↔ b = F64.fin 0 ∨ b = F64.nzero := by
  cases b with
  | fin q => simp [F64.ne, F64.value]
  | nzero => simp [F64.ne, F64.value]
  | pinf => simp [F64.ne, F64.value]
  | ninf => simp [F64.ne, F64.value]
  | nan => simp [F64.ne]

theorem F64.div_zero (a b : F64) (hb : F64.ne b (F64.fin 0) = false) :
    a / b = if a.isnan || !F64.ne a (F64.fin 0) then F64.nan
      else F64.inf (xor a.signbit b.signbit) := by
  show F64.div a b = _
  rcases (F64.ne_zero_eq_false b).mp hb with rfl | rfl
  · cases a with
    | fin q => by_cases hq : q = 0 <;> simp [F64.div, F64.value, F64.ne, F64.isnan, hq]
    | nzero => simp [F64.div, F64.value, F64.ne, F64.isnan]
    | pinf => simp [F64.div, F64.value, F64.ne, F64.isnan]
    | ninf => simp [F64.div, F64.value, F64.ne, F64.isnan]
    | nan => simp [F64.div, F64.isnan]
  · cases a with
    | fin q => by_cases hq : q = 0 <;> simp [F64.div, F64.value, F64.ne, F64.isnan, hq]
    | nzero => simp [F64.div, F64.value, F64.ne, F64.isnan]
    | pinf => simp [F64.div, F64.value, F64.ne, F64.isnan]
    | ninf => simp [F64.div, F64.value, F64.ne, F64.isnan]
    | nan => simp [F64.div, F64.isnan]

theorem F64.isnan_inf (negative : Bool) : (F64.inf negative).isnan = false := by
  cases negative <;> rfl

/-! ### The loop of `predict_causal_survival_effect` in binary64 -/

theorem Binary64.effect_loop_f64 (numerators denominators : List F64)
    (s : Binary64.EffectState) (hlen : numerators.length = denominators.length) :
    Binary64.effect_loop numerators denominators s = some
      { numerator_sum := numerators.foldl (· + ·) s.numerator_sum
        denominator_sum := denominators.foldl (· + ·) s.denominator_sum
        individual_effects :=
          s.individual_effects ++ List.zipWith
            (fun n d => if F64.ne d (F64.fin 0) then n / d else F64.fin 0)
            numerators denominators
        divisors := s.divisors ++ denominators.filter fun d => F64.ne d (F64.fin 0) } := by
  induction numerators generalizing denominators s with
  | nil =>
      cases denominators with
      | nil => simp [Binary64.effect_loop]
      | cons d ds => simp at hlen
  | cons n ns ih =>
      cases denominators with
      | nil => simp at hlen
      | cons d ds =>
          have hlen2 : ns.length = ds.length := by simpa using hlen
          simp only [Binary64.effect_loop]
          rw [ih ds _ hlen2]
          by_cases hd : F64.ne d (F64.fin 0) = true
          · simp [Binary64.individual_effect, Binary64.traced_div, hd, List.append_assoc]
          · simp [Binary64.individual_effect, Binary64.traced_div, hd, List.append_assoc]

theorem Binary64.predict_causal_survival_effect_run_f64 (numerators denominators : List F64)
    (hlen : numerators.length = denominators.length) :
    Binary64.predict_causal_survival_effect_run numerators denominators = some
      { individual_effects := List.zipWith
          (fun n d => if F64.ne d (F64.fin 0) then n / d else F64.fin 0)
          numerators denominators
        avg_numerator := Binary64.sum numerators / F64.ofNat numerators.length
        avg_denominator := Binary64.sum denominators / F64.ofNat denominators.length
        treatment_effect :=
          (Binary64.sum numerators / F64.ofNat numerators.length)
            / (Binary64.sum denominators / F64.ofNat denominators.length)
        divisors := (denominators.filter fun d => F64.ne d (F64.fin 0)) ++
          [F64.ofNat numerators.length, F64.ofNat denominators.length,
            Binary64.sum denominators / F64.ofNat denominators.length] } := by
  unfold Binary64.predict_causal_survival_effect_run
  rw [Binary64.effect_loop_f64 numerators denominators _ hlen]
  simp [Binary64.sum, Binary64.traced_div]

theorem Binary64.predict_causal_survival_effect_f64 (numerators denominators : List F64)
    (hlen : numerators.length = denominators.length) :
    Binary64.predict_causal_survival_effect numerators denominators = some
      [(Binary64.sum numerators / F64.ofNat numerators.length)
        / (Binary64.sum denominators / F64.ofNat numerators.length)] := by
  unfold Binary64.predict_causal_survival_effect
  rw [Binary64.predict_causal_survival_effect_run_f64 numerators denominators hlen, hlen]
  rfl

theorem F64.div_fin_ne_zero (x y : ℚ) (hx : x ≠ 0) (hy : y ≠ 0) :
    F64.fin x / F64.fin y = F64.round (x / y) := by
  show F64.div (F64.fin x) (F64.fin y) = _
  simp [F64.div, F64.value, hx, hy]

theorem F64.div_zero_fin (y : ℚ) (hy : y ≠ 0) :
    F64.fin 0 / F64.fin y = F64.zero (decide (y < 0)) := by
  show F64.div (F64.fin 0) (F64.fin y) = _
  simp [F64.div, F64.value, F64.signbit, hy]

theorem F64.ne_zero_zero (negative : Bool) :
    F64.ne (F64.zero negative) (F64.fin 0) = false := by
  cases negative <;> simp [F64.zero, F64.ne, F64.value]

theorem F64.ne_zero_left (a : F64) (negative : Bool)
    (ha : F64.ne a (F64.fin 0) = false) : F64.ne (F64.zero negative) a = false := by
  rcases (F64.ne_zero_eq_false a).mp ha with rfl | rfl <;>
    cases negative <;> simp [F64.zero, F64.ne, F64.value]

theorem F64.ne_round_self (q : ℚ) : F64.ne (F64.round q) (F64.round q) = false := by
  have h := F64.isnan_round q
  generalize F64.round q = x at h
  cases x with
  | fin r => simp [F64.ne, F64.value]
  | nzero => simp [F64.ne, F64.value]
  | pinf => simp [F64.ne, F64.value]
  | ninf => simp [F64.ne, F64.value]
  | nan => simp [F64.isnan] at h

theorem F64.ne_fin_self (q : ℚ) : F64.ne (F64.fin q) (F64.fin q) = false := by
  simp [F64.ne, F64.value]

theorem sum_eq_mul_of_forall₂ (c : ℚ) (numerators denominators : List ℚ)
    (h : List.Forall₂ (fun n d => n = c * d ∧ d ≠ 0) numerators denominators) :
    numerators.sum = c * denominators.sum := by
  induction h with
  | nil => simp
  | cons hab _ ih => simp [List.sum_cons, hab.1, ih, mul_add]

theorem F64.ratio_of_exact_averages (total_num total_den : ℚ) (n : Nat) (hn : 0 < n)
    (hden : total_den ≠ 0) :
    F64.fin (total_num / n) / F64.fin (total_den / n)
      = F64.fin total_num / F64.fin total_den := by
  have hn0 : (n : ℚ) ≠ 0 := by exact_mod_cast hn.ne'
  have hnpos : (0 : ℚ) < n := by exact_mod_cast hn
  have hd : total_den / n ≠ 0 := div_ne_zero hden hn0
  by_cases hnum : total_num = 0
  · subst hnum
    rw [zero_div, F64.div_zero_fin _ hd, F64.div_zero_fin _ hden]
    congr 1
    rw [decide_eq_decide]
    exact ⟨fun h => by
        by_contra hge
        exact absurd (div_nonneg (not_lt.mp hge) hnpos.le) (not_le.mpr h),
      fun h => div_neg_of_neg_of_pos h hnpos⟩
  · rw [F64.div_fin_ne_zero _ _ (div_ne_zero hnum hn0) hd, F64.div_fin_ne_zero _ _ hnum hden]
    congr 1
    field_simp

theorem F64.isnan_add_finite (a b : F64) (ha : a.isnan = false) (hb : b.isFinite = true) :
    (a + b).isnan = false := by
  show (F64.add a b).isnan = false
  cases a with
  | nan => simp [F64.isnan] at ha
  | fin x =>
      cases b with
      | fin y => simp [F64.add, F64.isnan_round]
      | nzero => simp [F64.add, F64.isnan_round]
      | pinf => simp [F64.isFinite, F64.value] at hb
      | ninf => simp [F64.isFinite, F64.value] at hb
      | nan => simp [F64.isFinite, F64.value] at hb
  | nzero =>
      cases b with
      | fin y => simp [F64.add, F64.isnan_round]
      | nzero => simp [F64.add, F64.isnan]
      | pinf => simp [F64.isFinite, F64.value] at hb
      | ninf => simp [F64.isFinite, F64.value] at hb
      | nan => simp [F64.isFinite, F64.value] at hb
  | pinf =>
      cases b with
      | fin y => simp [F64.add, F64.isnan]
      | nzero => simp [F64.add, F64.isnan]
      | pinf => simp [F64.isFinite, F64.value] at hb
      | ninf => simp [F64.isFinite, F64.value] at hb
      | nan => simp [F64.isFinite, F64.value] at hb
  | ninf =>
      cases b with
      | fin y => simp [F64.add, F64.isnan]
      | nzero => simp [F64.add, F64.isnan]
      | pinf => simp [F64.isFinite, F64.value] at hb
      | ninf => simp [F64.isFinite, F64.value] at hb
      | nan => simp [F64.isFinite, F64.value] at hb

theorem F64.isnan_foldl_add (xs : List F64) (init : F64) (hinit : init.isnan = false)
    (hxs : ∀ x ∈ xs, x.isFinite = true) :
    (xs.foldl (· + ·) init).isnan = false := by
  induction xs generalizing init with
  | nil => exact hinit
  | cons x xs ih =>
      rw [List.foldl_cons]
      exact ih _ (F64.isnan_add_finite init x hinit (hxs x (List.mem_cons_self x xs)))
        (fun y hy => hxs y (List.mem_cons_of_mem x hy))

theorem F64.isnan_zero (negative : Bool) : (F64.zero negative).isnan = false := by
  cases negative <;> rfl

theorem F64.isnan_div_finite (a : F64) (d : ℚ) (hd : d ≠ 0) (ha : a.isnan = false) :
    (a / F64.fin d).isnan = false := by
  show (F64.div a (F64.fin d)).isnan = false
  cases a with
  | nan => simp [F64.isnan] at ha
  | fin x =>
      by_cases hx : x = 0
      · simp [F64.div, F64.value, hd, hx, F64.isnan_zero]
      · simp [F64.div, F64.value, hd, hx, F64.isnan_round]
  | nzero => simp [F64.div, F64.value, hd, F64.isnan_zero]
  | pinf => simp [F64.div, F64.value, F64.isnan_inf]
  | ninf => simp [F64.div, F64.value, F64.isnan_inf]

theorem F64.finite_ne_zero (a : F64) (hfin : a.isFinite = true)
    (hne : F64.ne a (F64.fin 0) = true) : ∃ d : ℚ, d ≠ 0 ∧ a = F64.fin d := by
  cases a with
  | fin q => exact ⟨q, by simpa [F64.ne, F64.value] using hne, rfl⟩
  | nzero => simp [F64.ne, F64.value] at hne
  | pinf => simp [F64.isFinite, F64.value] at hfin
  | ninf => simp [F64.isFinite, F64.value] at hfin
  | nan => simp [F64.isFinite, F64.value] at hfin

theorem F64.ofNat_ne_zero_of_pos (n : Nat) (hpos : 0 < n) (h : n < 2 ^ 53) :
    F64.ofNat n = F64.fin n ∧ ((n : ℚ) ≠ 0) ∧ F64.ne (F64.ofNat n) (F64.fin 0) = true := by
  have hn0 : (n : ℚ) ≠ 0 := by exact_mod_cast hpos.ne'
  refine ⟨F64.ofNat_exact n h, hn0, ?_⟩
  rw [F64.ofNat_exact n h]
  simp [F64.ne, F64.value, hn0]

/-! ### Signs in binary64 -/

theorem F64.round_zero : F64.round 0 = F64.fin 0 := by
  simp [F64.round]

theorem F64.le_zero_iff (x : F64) :
    F64.le (F64.fin 0) x = true
      ↔ x = F64.pinf ∨ x = F64.nzero ∨ ∃ r : ℚ, 0 ≤ r ∧ x = F64.fin r := by
  cases x with
  | fin q => simp [F64.le, F64.value]
  | nzero => simp [F64.le, F64.value]
  | pinf => simp [F64.le]
  | ninf => simp [F64.le]
  | nan => simp [F64.le]

theorem F64.le_zero_round (q : ℚ) (h : 0 ≤ q) : F64.le (F64.fin 0) (F64.round q) = true := by
  rw [F64.le_zero_iff]
  rcases F64.round_of_nonneg q h with h1 | ⟨r, hr, h2⟩
  · exact Or.inl h1
  · exact Or.inr (Or.inr ⟨r, hr, h2⟩)

theorem F64.isnan_of_le_zero (x : F64) (h : F64.le (F64.fin 0) x = true) :
    x.isnan = false := by
  cases x with
  | nan => simp [F64.le] at h
  | fin q => rfl
  | nzero => rfl
  | pinf => rfl
  | ninf => rfl

theorem F64.nonneg_add (a b : F64) (ha : F64.le (F64.fin 0) a = true)
    (hb : F64.le (F64.fin 0) b = true) : F64.le (F64.fin 0) (a + b) = true := by
  show F64.le (F64.fin 0) (F64.add a b) = true
  rcases (F64.le_zero_iff a).mp ha with rfl | rfl | ⟨r, hr, rfl⟩ <;>
    rcases (F64.le_zero_iff b).mp hb with rfl | rfl | ⟨s, hs, rfl⟩
  · simp [F64.add, F64.le]
  · simp [F64.add, F64.le]
  · simp [F64.add, F64.le]
  · simp [F64.add, F64.le]
  · simp [F64.add, F64.le, F64.value]
  · simpa [F64.add] using F64.le_zero_round s hs
  · simp [F64.add, F64.le]
  · simpa [F64.add] using F64.le_zero_round r hr
  · simpa [F64.add] using F64.le_zero_round (r + s) (add_nonneg hr hs)

theorem F64.nonneg_mul_self (a : F64) (ha : a.isnan = false) :
    F64.le (F64.fin 0) (a * a) = true := by
  show F64.le (F64.fin 0) (F64.mul a a) = true
  cases a with
  | nan => simp [F64.isnan] at ha
  | fin x =>
      by_cases hx : x = 0
      · simp [F64.mul, F64.value, hx, F64.zero, F64.le]
      · simpa [F64.mul, F64.value, hx] using F64.le_zero_round (x * x) (mul_self_nonneg x)
  | nzero => simp [F64.mul, F64.value, F64.zero, F64.signbit, F64.le]
  | pinf => simp [F64.mul, F64.value, F64.inf, F64.signbit, F64.le]
  | ninf => simp [F64.mul, F64.value, F64.inf, F64.signbit, F64.le]

theorem F64.nonneg_div (a : F64) (d : ℚ) (hd : 0 < d) (ha : F64.le (F64.fin 0) a = true) :
    F64.le (F64.fin 0) (a / F64.fin d) = true := by
  show F64.le (F64.fin 0) (F64.div a (F64.fin d)) = true
  have hd0 : d ≠ 0 := hd.ne'
  have hdneg : ¬ d < 0 := not_lt.mpr hd.le
  rcases (F64.le_zero_iff a).mp ha with rfl | rfl | ⟨r, hr, rfl⟩
  · simp [F64.div, F64.value, F64.inf, F64.signbit, hdneg, F64.le]
  · simp [F64.div, F64.value, F64.zero, F64.signbit, hd0, hdneg, F64.le]
  · by_cases hr0 : r = 0
    · simp [F64.div, F64.value, F64.zero, F64.signbit, hd0, hdneg, hr0, F64.le]
    · simpa [F64.div, F64.value, hd0, hr0] using
        F64.le_zero_round (r / d) (div_nonneg hr hd.le)

theorem F64.sqrt_magnitude_nonneg (q : ℚ) : 0 ≤ F64.sqrt_magnitude q := by
  unfold F64.sqrt_magnitude
  simp only []
  positivity

theorem F64.nonneg_sqrt (a : F64) (ha : F64.le (F64.fin 0) a = true) :
    F64.le (F64.fin 0) (F64.sqrt a) = true := by
  rcases (F64.le_zero_iff a).mp ha with rfl | rfl | ⟨r, hr, rfl⟩
  · simp [F64.sqrt, F64.le]
  · simp [F64.sqrt, F64.le, F64.value]
  · have hneg : ¬ r < 0 := not_lt.mpr hr
    by_cases hr0 : r = 0
    · simp [F64.sqrt, hr0, F64.le, F64.value]
    · simp [F64.sqrt, hneg, hr0, F64.le, F64.value, F64.sqrt_magnitude_nonneg]

theorem F64.isnan_neg (b : F64) (hb : b.isnan = false) : (F64.neg b).isnan = false := by
  cases b with
  | nan => simp [F64.isnan] at hb
  | fin x => by_cases hx : x = 0 <;> simp [F64.neg, hx, F64.isnan]
  | nzero => rfl
  | pinf => rfl
  | ninf => rfl

theorem F64.isnan_finite_add (a b : F64) (ha : a.isFinite = true) (hb : b.isnan = false) :
    (a + b).isnan = false := by
  show (F64.add a b).isnan = false
  cases b with
  | nan => simp [F64.isnan] at hb
  | fin y =>
      cases a with
      | fin x => simp [F64.add, F64.isnan_round]
      | nzero => simp [F64.add, F64.isnan_round]
      | pinf => simp [F64.isFinite, F64.value] at ha
      | ninf => simp [F64.isFinite, F64.value] at ha
      | nan => simp [F64.isFinite, F64.value] at ha
  | nzero =>
      cases a with
      | fin x => simp [F64.add, F64.isnan_round]
      | nzero => simp [F64.add, F64.isnan]
      | pinf => simp [F64.isFinite, F64.value] at ha
      | ninf => simp [F64.isFinite, F64.value] at ha
      | nan => simp [F64.isFinite, F64.value] at ha
  | pinf =>
      cases a with
      | fin x => simp [F64.add, F64.isnan]
      | nzero => simp [F64.add, F64.isnan]
      | pinf => simp [F64.isFinite, F64.value] at ha
      | ninf => simp [F64.isFinite, F64.value] at ha
      | nan => simp [F64.isFinite, F64.value] at ha
  | ninf =>
      cases a with
      | fin x => simp [F64.add, F64.isnan]
      | nzero => simp [F64.add, F64.isnan]
      | pinf => simp [F64.isFinite, F64.value] at ha
      | ninf => simp [F64.isFinite, F64.value] at ha
      | nan => simp [F64.isFinite, F64.value] at ha

theorem F64.isnan_finite_sub (a b : F64) (ha : a.isFinite = true) (hb : b.isnan = false) :
    (a - b).isnan = false :=
  F64.isnan_finite_add a (F64.neg b) ha (F64.isnan_neg b hb)

theorem F64.nonneg_foldl (f : F64 → F64) (xs : List F64) (init : F64)
    (hinit : F64.le (F64.fin 0) init = true)
    (hf : ∀ v ∈ xs, F64.le (F64.fin 0) (f v) = true) :
    F64.le (F64.fin 0) (xs.foldl (fun acc v => acc + f v) init) = true := by
  induction xs generalizing init with
  | nil => exact hinit
  | cons x xs ih =>
      rw [List.foldl_cons]
      exact ih _ (F64.nonneg_add init (f x) hinit (hf x (List.mem_cons_self x xs)))
        (fun v hv => hf v (List.mem_cons_of_mem x hv))

theorem F64.square_of_eq (v m : F64) (hv : v.isFinite = true) (h : F64.ne v m = false) :
    (v - m) * (v - m) = F64.fin 0 := by
  show F64.mul (F64.add v (F64.neg m)) (F64.add v (F64.neg m)) = F64.fin 0
  cases v with
  | pinf => simp [F64.isFinite, F64.value] at hv
  | ninf => simp [F64.isFinite, F64.value] at hv
  | nan => simp [F64.isFinite, F64.value] at hv
  | fin a =>
      cases m with
      | nan => simp [F64.ne] at h
      | pinf => simp [F64.ne, F64.value] at h
      | ninf => simp [F64.ne, F64.value] at h
      | nzero =>
          have ha : a = 0 := by simpa [F64.ne, F64.value] using h
          subst ha
          simp [F64.neg, F64.add, F64.round_zero, F64.mul, F64.value, F64.zero, F64.signbit]
      | fin b =>
          have hab : a = b := by simpa [F64.ne, F64.value] using h
          subst hab
          by_cases ha : a = 0
          · subst ha
            simp [F64.neg, F64.add, F64.round_zero, F64.mul, F64.value, F64.zero, F64.signbit]
          · simp [F64.neg, ha, F64.add, F64.round_zero, F64.mul, F64.value, F64.zero,
              F64.signbit]
  | nzero =>
      cases m with
      | nan => simp [F64.ne] at h
      | pinf => simp [F64.ne, F64.value] at h
      | ninf => simp [F64.ne, F64.value] at h
      | nzero =>
          simp [F64.neg, F64.add, F64.round_zero, F64.mul, F64.value, F64.zero, F64.signbit]
      | fin b =>
          have hb : b = 0 := by
            have := h
            simp [F64.ne, F64.value] at this
            exact this.symm
          subst hb
          simp [F64.neg, F64.add, F64.mul, F64.value, F64.zero, F64.signbit]

theorem F64.foldl_add_zero (f : F64 → F64) (xs : List F64)
    (hf : ∀ v ∈ xs, f v = F64.fin 0) :
    xs.foldl (fun acc v => acc + f v) (F64.fin 0) = F64.fin 0 := by
  induction xs with
  | nil => rfl
  | cons x xs ih =>
      rw [List.foldl_cons, hf x (List.mem_cons_self x xs)]
      have h0 : F64.fin 0 + F64.fin 0 = F64.fin 0 := by
        show F64.add (F64.fin 0) (F64.fin 0) = F64.fin 0
        simp [F64.add, F64.round_zero]
      rw [h0]
      exact ih (fun v hv => hf v (List.mem_cons_of_mem x hv))

/-! ### Standard deviations -/

theorem Binary64.isnan_mean_of (values : List F64) (hne : values ≠ [])
    (hsize : values.length < 2 ^ 53) (hfin : ∀ v ∈ values, v.isFinite = true) :
    (Binary64.mean_of values).isnan = false := by
  obtain ⟨hsz, hsz0, _⟩ :=
    F64.ofNat_ne_zero_of_pos values.length (List.length_pos.mpr hne) hsize
  unfold Binary64.mean_of
  rw [hsz]
  exact F64.isnan_div_finite _ _ hsz0 (F64.isnan_foldl_add values _ rfl hfin)

theorem Binary64.two_pass_variance_nonneg (values : List F64) (hne : values ≠ [])
    (hsize : values.length < 2 ^ 53) (hfin : ∀ v ∈ values, v.isFinite = true) :
    F64.le (F64.fin 0) (Binary64.two_pass_variance values) = true := by
  obtain ⟨hsz, _, _⟩ :=
    F64.ofNat_ne_zero_of_pos values.length (List.length_pos.mpr hne) hsize
  have hpos : (0 : ℚ) < values.length := by exact_mod_cast List.length_pos.mpr hne
  unfold Binary64.two_pass_variance
  rw [hsz]
  apply F64.nonneg_div _ _ hpos
  apply F64.nonneg_foldl (fun v => (v - Binary64.mean_of values) * (v - Binary64.mean_of values))
  · simp [F64.le, F64.value]
  · intro v hv
    exact F64.nonneg_mul_self _
      (F64.isnan_finite_sub v _ (hfin v hv) (Binary64.isnan_mean_of values hne hsize hfin))

/-! ### What decides the boundaries -/

theorem Dbl.isnan_div_fin (n : Dbl) (d : ℚ) (hd : d ≠ 0) (hn : Dbl.isnan n = false) :
    Dbl.isnan (n / Dbl.fin d) = false := by
  show Dbl.isnan (Dbl.div n (Dbl.fin d)) = false
  cases n with
  | nan => simp [Dbl.isnan] at hn
  | fin a => simp [Dbl.div, hd, Dbl.isnan]
  | pinf => by_cases h : 0 ≤ d <;> simp [Dbl.div, h, Dbl.isnan]
  | ninf => by_cases h : 0 ≤ d <;> simp [Dbl.div, h, Dbl.isnan]

theorem predict_row_of_average (compute_variance : Nat → List (Dbl × Dbl) → Dbl)
    (forest : Forest) (data : Data) (estimate_variance : Bool) (row : Nat) :
    ∃ avg_numerator avg_denominator,
      average_value forest data row = [avg_numerator, avg_denominator]
      ∧ (predict_row compute_variance forest data estimate_variance row).get_predictions
          = [avg_numerator / avg_denominator]
      ∧ (predict_row compute_variance forest data estimate_variance row).available
          = !Dbl.isnan (avg_numerator / avg_denominator) := by
  refine ⟨_, _, rfl, ?_, ?_⟩
  · simp [Prediction.get_predictions, predict_row, average_value,
      CausalSurvivalPredictionStrategy.predict, NUMERATOR, DENOMINATOR]
  · simp [Prediction.available, Prediction.get_predictions, predict_row, average_value,
      CausalSurvivalPredictionStrategy.predict, NUMERATOR, DENOMINATOR]

theorem splitting_minimal_train :
    ForestTrainer.train splitting_parts example_data minimal_options = Except.ok
      { trees := (List.range minimal_options.num_trees).map
          (train_tree splitting_parts example_data minimal_options)
        random_seed := minimal_options.random_seed
        honesty := minimal_options.honesty
        ci_group_size := minimal_options.ci_group_size } :=
  train_ok_of_valid _ _ _ example_data_roles_configured
    (by rw [example_data_num_features]; exact minimal_options_valid)

/-! ## The claims -/

/-- C1: for every two-element average vector `[n, d]` with `d ≠ 0`,
`CausalSurvivalPredictionStrategy::predict` returns exactly one element, the
quotient `n / d` (for special values too, the double quotient of element 0 by
element 1); the four documented vectors give 2.5, -1.2, 1.5 and 10.0, and the
loop of the simple demo computes the same quotient. -/
theorem predict_two_element (n d : ℚ) (hd : d ≠ 0) :
    CausalSurvivalPredictionStrategy.predict [Dbl.fin n, Dbl.fin d] = some [Dbl.fin (n / d)]
    ∧ (∀ x y : Dbl, CausalSurvivalPredictionStrategy.predict [x, y] = some [x / y])
    ∧ simple_demo_effect (Dbl.fin n) (Dbl.fin d) = Dbl.fin (n / d)
    ∧ CausalSurvivalPredictionStrategy.predict [Dbl.fin (5/2), Dbl.fin 1] = some [Dbl.fin (5/2)]
    ∧ CausalSurvivalPredictionStrategy.predict [Dbl.fin (-6/5), Dbl.fin 1] = some [Dbl.fin (-6/5)]
    ∧ CausalSurvivalPredictionStrategy.predict [Dbl.fin 3, Dbl.fin 2] = some [Dbl.fin (3/2)]
    ∧ CausalSurvivalPredictionStrategy.predict [Dbl.fin (1/10), Dbl.fin (1/100)]
        = some [Dbl.fin 10] := by
  refine ⟨?_, ?_, ?_, ?_, ?_, ?_, ?_⟩
  · simp [CausalSurvivalPredictionStrategy.predict, NUMERATOR, DENOMINATOR, Dbl.div_fin_fin n d hd]
  · intro x y
    simp [CausalSurvivalPredictionStrategy.predict, NUMERATOR, DENOMINATOR]
  · simp [simple_demo_effect, Dbl.div_fin_fin n d hd]
  · simp [CausalSurvivalPredictionStrategy.predict, NUMERATOR, DENOMINATOR]
    rw [Dbl.div_fin_fin _ _ (by norm_num)]; norm_num
  · simp [CausalSurvivalPredictionStrategy.predict, NUMERATOR, DENOMINATOR]
    rw [Dbl.div_fin_fin _ _ (by norm_num)]; norm_num
  · simp [CausalSurvivalPredictionStrategy.predict, NUMERATOR, DENOMINATOR]
    rw [Dbl.div_fin_fin _ _ (by norm_num)]
  · simp [CausalSurvivalPredictionStrategy.predict, NUMERATOR, DENOMINATOR]
    rw [Dbl.div_fin_fin _ _ (by norm_num)]; norm_num

/-- Witness of C1 at the vector `[0.15, 0.75]` of test case 5. -/
theorem predict_two_element_witness :
    ((3 : ℚ) / 4 ≠ 0)
    ∧ CausalSurvivalPredictionStrategy.predict [Dbl.fin (3/20), Dbl.fin (3/4)]
        = some [Dbl.fin ((3/20) / (3/4))] :=
  ⟨by norm_num, (predict_two_element (3/20) (3/4) (by norm_num)).1⟩

/-- Counterexample to C2 as stated: on numerators `{1.0}` and denominators
`{0.0}` the average denominator is `0.0`, the average numerator is `1.0`, and
the value returned is `+inf`, for which `std::isnan` is false; likewise
`predict` on `[1.0, 0.0]`.  On numerators `{1.0, 1.0}` and denominators
`{-5e-324, 0.0}` the average denominator is `-0.0`, which equals 0, and the
value returned is `-inf`. -/
theorem zero_denominator_counterexample :
    (Binary64.predict_causal_survival_effect_run [F64.fin 1] [F64.fin 0]).map
        (fun r => (r.avg_numerator, r.avg_denominator, r.treatment_effect,
          r.treatment_effect.isnan))
      = some (F64.fin 1, F64.fin 0, F64.pinf, false)
    ∧ Binary64.predict_causal_survival_effect [F64.fin 1] [F64.fin 0] = some [F64.pinf]
    ∧ Binary64.predict [F64.fin 1, F64.fin 0] = some [F64.pinf]
    ∧ (Binary64.predict_causal_survival_effect_run [F64.fin 1, F64.fin 1]
          [F64.fin (-1 / 2 ^ 1074), F64.fin 0]).map
        (fun r => (r.avg_numerator, r.avg_denominator,
          F64.ne r.avg_denominator (F64.fin 0), r.treatment_effect))
      = some (F64.fin 1, F64.nzero, false, F64.ninf) := by
  decide!

/-- C2, amended: when the average denominator equals 0 (`+0.0` or `-0.0`) no
error is raised and a one-element vector is returned; its element is NaN
exactly when the average numerator is NaN or equals 0, and otherwise it is an
infinity, negative exactly when the signs of the average numerator and of the
zero differ.  The same holds for `CausalSurvivalPredictionStrategy::predict` on
`[a, b]` and for the quotient of the simple demo. -/
theorem zero_denominator_estimate (numerators denominators : List F64)
    (hlen : numerators.length = denominators.length) :
    (∃ r, Binary64.predict_causal_survival_effect_run numerators denominators = some r
      ∧ Binary64.predict_causal_survival_effect numerators denominators
          = some [r.treatment_effect]
      ∧ (F64.ne r.avg_denominator (F64.fin 0) = false →
          (r.treatment_effect.isnan = true
              ↔ r.avg_numerator.isnan = true ∨ F64.ne r.avg_numerator (F64.fin 0) = false)
          ∧ (r.treatment_effect.isnan = false →
              r.treatment_effect
                = F64.inf (xor r.avg_numerator.signbit r.avg_denominator.signbit))))
    ∧ (∀ a b : F64, F64.ne b (F64.fin 0) = false →
        Binary64.predict [a, b]
            = some [if a.isnan || !F64.ne a (F64.fin 0) then F64.nan
                else F64.inf (xor a.signbit b.signbit)]
        ∧ Binary64.simple_demo_effect a b
            = if a.isnan || !F64.ne a (F64.fin 0) then F64.nan
                else F64.inf (xor a.signbit b.signbit)) := by
  refine ⟨⟨_, Binary64.predict_causal_survival_effect_run_f64 _ _ hlen, ?_, ?_⟩, ?_⟩
  · rw [Binary64.predict_causal_survival_effect_f64 _ _ hlen, hlen]
  · dsimp only
    intro hden
    rw [F64.div_zero _ _ hden]
    generalize Binary64.sum numerators / F64.ofNat numerators.length = x
    generalize Binary64.sum denominators / F64.ofNat denominators.length = y
    by_cases hx : (x.isnan || !F64.ne x (F64.fin 0)) = true
    · rw [if_pos hx]
      simp only [Bool.or_eq_true, Bool.not_eq_true', ] at hx
      exact ⟨⟨fun _ => hx, fun _ => rfl⟩, fun h => by cases h⟩
    · rw [if_neg hx]
      simp only [Bool.or_eq_true, Bool.not_eq_true'] at hx
      refine ⟨⟨fun h => ?_, fun h => absurd h hx⟩, fun _ => rfl⟩
      rw [F64.isnan_inf] at h
      cases h
  · intro a b hb
    constructor
    · simp [Binary64.predict, NUMERATOR, DENOMINATOR, F64.div_zero a b hb]
    · simp [Binary64.simple_demo_effect, F64.div_zero a b hb]

/-- Witness of the amended C2 at numerators `{-1.0}`, denominators `{0.0}`:
the average denominator is `0.0`, the average numerator is negative, and the
value returned is `-inf`. -/
theorem zero_denominator_estimate_witness :
    [F64.fin (-1)].length = [F64.fin 0].length
    ∧ ∃ r, Binary64.predict_causal_survival_effect_run [F64.fin (-1)] [F64.fin 0] = some r
      ∧ F64.ne r.avg_denominator (F64.fin 0) = false
      ∧ r.treatment_effect.isnan = false
      ∧ r.treatment_effect = F64.ninf := by
  refine ⟨rfl, ?_⟩
  obtain ⟨r, hrun, _, h⟩ := (zero_denominator_estimate [F64.fin (-1)] [F64.fin 0] rfl).1
  have hr : r = ⟨[F64.fin 0], F64.fin (-1), F64.fin 0, F64.ninf,
      [F64.fin 1, F64.fin 1, F64.fin 0]⟩ := by
    have hrun2 : Binary64.predict_causal_survival_effect_run [F64.fin (-1)] [F64.fin 0]
        = some ⟨[F64.fin 0], F64.fin (-1), F64.fin 0, F64.ninf,
            [F64.fin 1, F64.fin 1, F64.fin 0]⟩ := by decide!
    rw [hrun2] at hrun
    injection hrun with hrun
    exact hrun.symm
  subst hr
  exact ⟨_, hrun, by decide!, by decide!, rfl⟩

/-- C3: for every non-empty vector of numerators and every vector of
denominators of the same length, `predict_causal_survival_effect` returns
exactly one element, `(sum of numerators / count) / (sum of denominators /
count)`: each contribution enters both sums with the same weight.  This is the
ratio of the averages and not the average of the ratios: on numerators
`{1, 1}` and denominators `{1, 2}` it is 2/3 while the printed individual
effects average to 3/4. -/
theorem ratio_of_averages (numerators denominators : List Dbl)
    (hne : numerators ≠ []) (hlen : numerators.length = denominators.length) :
    predict_causal_survival_effect numerators denominators
        = some [(Dbl.sum numerators / Dbl.ofNat numerators.length)
            / (Dbl.sum denominators / Dbl.ofNat numerators.length)]
    ∧ (∃ q : ℚ, 0 < q ∧ Dbl.ofNat numerators.length = Dbl.fin q)
    ∧ predict_causal_survival_effect [Dbl.fin 1, Dbl.fin 1] [Dbl.fin 1, Dbl.fin 2]
        = some [Dbl.fin (2/3)]
    ∧ average_of_individual_effects [Dbl.fin 1, Dbl.fin 1] [Dbl.fin 1, Dbl.fin 2]
        = Dbl.fin (3/4) := by
  refine ⟨predict_causal_survival_effect_eq _ _ hlen, ?_, ?_, ?_⟩
  · refine ⟨(numerators.length : ℚ), ?_, rfl⟩
    exact_mod_cast List.length_pos.mpr hne
  · have h := predict_causal_survival_effect_fin [1, 1] [1, 2] (by simp) rfl (by norm_num)
    simp only [List.map_cons, List.map_nil] at h
    rw [h]
    norm_num
  · unfold average_of_individual_effects
    simp only [List.zipWith_cons_cons, List.zipWith_nil_right, individual_effect_fin]
    have h : Dbl.sum [Dbl.fin (if (1 : ℚ) = 0 then 0 else 1 / 1),
        Dbl.fin (if (2 : ℚ) = 0 then 0 else 1 / 2)] = Dbl.fin (3 / 2) := by
      have := Dbl.sum_map_fin [if (1 : ℚ) = 0 then 0 else 1 / 1,
        if (2 : ℚ) = 0 then 0 else 1 / 2]
      simp only [List.map_cons, List.map_nil] at this
      rw [this]
      norm_num
    rw [h]
    simp only [List.length_cons, List.length_nil, Dbl.ofNat]
    rw [Dbl.div_fin_fin _ _ (by norm_num)]
    norm_num

/-- Witness of C3 on scenario 3 of the demo (two contributions). -/
theorem ratio_of_averages_witness :
    ([Dbl.fin (154707/1000000), Dbl.fin (144416/1000000)] ≠ [])
    ∧ [Dbl.fin (154707/1000000), Dbl.fin (144416/1000000)].length
        = [Dbl.fin (267809/1000000), Dbl.fin (234426/1000000)].length
    ∧ predict_causal_survival_effect
        [Dbl.fin (154707/1000000), Dbl.fin (144416/1000000)]
        [Dbl.fin (267809/1000000), Dbl.fin (234426/1000000)]
      = some [(Dbl.sum [Dbl.fin (154707/1000000), Dbl.fin (144416/1000000)]
                / Dbl.ofNat [Dbl.fin (154707/1000000), Dbl.fin (144416/1000000)].length)
            / (Dbl.sum [Dbl.fin (267809/1000000), Dbl.fin (234426/1000000)]
                / Dbl.ofNat [Dbl.fin (154707/1000000), Dbl.fin (144416/1000000)].length)] :=
  ⟨by simp, rfl,
    (ratio_of_averages [Dbl.fin (154707/1000000), Dbl.fin (144416/1000000)]
      [Dbl.fin (267809/1000000), Dbl.fin (234426/1000000)] (by simp) rfl).1⟩

/-- Counterexample to C4 as stated: with the double `c = 0.1`, numerators
`{c, c, c}` and denominators `{1.0, 1.0, 1.0}`, every numerator is
`c * denominator`, no denominator is 0 and the denominators sum to 3, but
`predict_causal_survival_effect` returns `0.10000000000000002`, which differs
from `c`: the sum `0.1 + 0.1 + 0.1` is rounded to `0.30000000000000004`. -/
theorem constant_ratio_counterexample :
    F64.round (1 / 10) = F64.fin (3602879701896397 / 36028797018963968)
    ∧ F64.round (1 / 10) * F64.fin 1 = F64.round (1 / 10)
    ∧ Binary64.sum [F64.fin 1, F64.fin 1, F64.fin 1] = F64.fin 3
    ∧ Binary64.sum [F64.round (1 / 10), F64.round (1 / 10), F64.round (1 / 10)]
        = F64.fin (1351079888211149 / 4503599627370496)
    ∧ Binary64.predict_causal_survival_effect
          [F64.round (1 / 10), F64.round (1 / 10), F64.round (1 / 10)]
          [F64.fin 1, F64.fin 1, F64.fin 1]
        = some [F64.fin (7205759403792795 / 72057594037927936)]
    ∧ F64.ne (F64.fin (7205759403792795 / 72057594037927936)) (F64.round (1 / 10)) = true := by
  decide!

/-- C4, amended: when every contribution has the same ratio `c`, that is
`numerator_i = c * denominator_i` with `denominator_i ≠ 0`, the denominators do
not sum to zero, `c` is a double, and the average numerator and the average
denominator are computed without rounding error, `predict_causal_survival_effect`
returns a value equal to `c`, whatever the (positive) number of contributions. -/
theorem constant_ratio_prediction (c : ℚ) (numerators denominators : List ℚ)
    (hne : numerators ≠ [])
    (hratio : List.Forall₂ (fun n d => n = c * d ∧ d ≠ 0) numerators denominators)
    (hsum : denominators.sum ≠ 0)
    (hc : F64.round c = F64.fin c)
    (hnum : Binary64.sum (numerators.map F64.fin) / F64.ofNat numerators.length
      = F64.fin (numerators.sum / numerators.length))
    (hden : Binary64.sum (denominators.map F64.fin) / F64.ofNat numerators.length
      = F64.fin (denominators.sum / numerators.length)) :
    ∃ v, Binary64.predict_causal_survival_effect (numerators.map F64.fin)
          (denominators.map F64.fin) = some [v]
      ∧ F64.ne v (F64.fin c) = false := by
  have hlen : (numerators.map F64.fin).length = (denominators.map F64.fin).length := by
    simpa using hratio.length_eq
  have hpos : 0 < numerators.length := List.length_pos.mpr hne
  refine ⟨_, Binary64.predict_causal_survival_effect_f64 _ _ hlen, ?_⟩
  rw [List.length_map, hnum, hden, F64.ratio_of_exact_averages _ _ _ hpos hsum,
    sum_eq_mul_of_forall₂ c numerators denominators hratio]
  by_cases hc0 : c = 0
  · subst hc0
    rw [zero_mul, F64.div_zero_fin _ hsum]
    exact F64.ne_zero_zero _
  · rw [F64.div_fin_ne_zero _ _ (mul_ne_zero hc0 hsum) hsum, mul_div_assoc, div_self hsum,
      mul_one, hc]
    exact F64.ne_fin_self c

/-- Witness of the amended C4: three contributions of ratio 1/2, whose sums
9/2 and 9 and averages 3/2 and 3 are doubles. -/
theorem constant_ratio_prediction_witness :
    (([1, 2, (3 : ℚ) / 2] : List ℚ) ≠ [])
    ∧ List.Forall₂ (fun n d => n = (1 / 2 : ℚ) * d ∧ d ≠ 0) [1, 2, (3 : ℚ) / 2] [2, 4, 3]
    ∧ (([2, 4, 3] : List ℚ).sum ≠ 0)
    ∧ F64.round (1 / 2) = F64.fin (1 / 2)
    ∧ ∃ v, Binary64.predict_causal_survival_effect (([1, 2, (3 : ℚ) / 2] : List ℚ).map F64.fin)
          (([2, 4, 3] : List ℚ).map F64.fin) = some [v]
        ∧ F64.ne v (F64.fin (1 / 2)) = false :=
  have h1 : (([1, 2, (3 : ℚ) / 2] : List ℚ) ≠ []) := by simp
  have h2 : List.Forall₂ (fun n d => n = (1 / 2 : ℚ) * d ∧ d ≠ 0)
      [1, 2, (3 : ℚ) / 2] [2, 4, 3] := by
    refine List.Forall₂.cons ⟨by norm_num, by norm_num⟩
      (List.Forall₂.cons ⟨by norm_num, by norm_num⟩
        (List.Forall₂.cons ⟨by norm_num, by norm_num⟩ List.Forall₂.nil))
  have h3 : (([2, 4, 3] : List ℚ).sum ≠ 0) := by norm_num
  have h4 : F64.round (1 / 2) = F64.fin (1 / 2) := by decide!
  ⟨h1, h2, h3, h4,
    constant_ratio_prediction (1 / 2) [1, 2, 3 / 2] [2, 4, 3] h1 h2 h3 h4 (by decide!)
      (by decide!)⟩

/-- Counterexample to C5 as stated: for the doubles `a = -0.7312715117751976`
and `b = 0.8489593995678604` and the divisor 10, `(a / 10) / (b / 10)` is
`-0.8613739504473727` while `a / b` is `-0.8613739504473729`.  So on the single
row `(a, b)` the quotient of the two averages printed by the simple average
approach differs from the effect it prints, and on the ten contributions
`(a, b), (0, 0), ..., (0, 0)`, whose totals are `a` and `b`,
`predict_causal_survival_effect` returns a value other than the ratio of the
totals. -/
theorem ratio_of_averages_counterexample :
    (F64.fin (-3293354107937439 / 4503599627370496) / F64.ofNat 10)
        / (F64.fin (29870103402707 / 35184372088832) / F64.ofNat 10)
      = F64.fin (-60613803160335 / 70368744177664)
    ∧ F64.fin (-3293354107937439 / 4503599627370496)
        / F64.fin (29870103402707 / 35184372088832)
      = F64.fin (-7758566804522881 / 9007199254740992)
    ∧ Binary64.simple_average_approach
        (fun _ => F64.fin (-3293354107937439 / 4503599627370496))
        (fun _ => F64.fin (29870103402707 / 35184372088832)) 1
      = (F64.fin (-2634683286349951 / 36028797018963968),
          F64.fin (3058698588437197 / 36028797018963968),
          F64.fin (-7758566804522881 / 9007199254740992))
    ∧ F64.ne
        (F64.fin (-2634683286349951 / 36028797018963968)
          / F64.fin (3058698588437197 / 36028797018963968))
        (F64.fin (-7758566804522881 / 9007199254740992)) = true
    ∧ Binary64.sum (F64.fin (-3293354107937439 / 4503599627370496)
          :: List.replicate 9 (F64.fin 0))
        = F64.fin (-3293354107937439 / 4503599627370496)
    ∧ Binary64.sum (F64.fin (29870103402707 / 35184372088832)
          :: List.replicate 9 (F64.fin 0))
        = F64.fin (29870103402707 / 35184372088832)
    ∧ Binary64.predict_causal_survival_effect
        (F64.fin (-3293354107937439 / 4503599627370496) :: List.replicate 9 (F64.fin 0))
        (F64.fin (29870103402707 / 35184372088832) :: List.replicate 9 (F64.fin 0))
      = some [F64.fin (-60613803160335 / 70368744177664)] := by
  decide!

/-- C5, amended: the ratio of the averages is the ratio of the totals whenever
the two averages are computed without rounding error.  For totals `total_num`
and `total_den ≠ 0` and a positive divisor `n` such that `total_num / n` and
`total_den / n` are computed exactly,
`(total_num / n) / (total_den / n) = total_num / total_den` as doubles; then
`predict_causal_survival_effect` and `overall_effect` on `n` contributions with
these totals return the ratio of the totals, and for `n = 10` the effect printed
by the simple average approach is the quotient of its two printed averages. -/
theorem ratio_of_averages_eq_ratio_of_totals (total_num total_den : ℚ) (n : Nat)
    (hn : 0 < n) (hden : total_den ≠ 0)
    (havg_num : F64.fin total_num / F64.ofNat n = F64.fin (total_num / n))
    (havg_den : F64.fin total_den / F64.ofNat n = F64.fin (total_den / n)) :
    (F64.fin total_num / F64.ofNat n) / (F64.fin total_den / F64.ofNat n)
      = F64.fin total_num / F64.fin total_den
    ∧ (∀ numerators denominators : List F64,
        numerators.length = n → denominators.length = n →
        Binary64.sum numerators = F64.fin total_num →
        Binary64.sum denominators = F64.fin total_den →
        Binary64.predict_causal_survival_effect numerators denominators
          = some [F64.fin total_num / F64.fin total_den])
    ∧ (∀ data : List Binary64.DataRow, data.length = n →
        Binary64.sum (data.map fun row => row.numerator) = F64.fin total_num →
        Binary64.sum (data.map fun row => row.denominator) = F64.fin total_den →
        Binary64.overall_effect data = F64.fin total_num / F64.fin total_den)
    ∧ (n = 10 → ∀ (get_numerator get_denominator : Nat → F64) (num_rows : Nat),
        Binary64.simple_average_totals get_numerator get_denominator num_rows
          = (F64.fin total_num, F64.fin total_den) →
        (Binary64.simple_average_approach get_numerator get_denominator num_rows).1
            / (Binary64.simple_average_approach get_numerator get_denominator num_rows).2.1
          = (Binary64.simple_average_approach get_numerator get_denominator num_rows).2.2) := by
  have hmain : (F64.fin total_num / F64.ofNat n) / (F64.fin total_den / F64.ofNat n)
      = F64.fin total_num / F64.fin total_den := by
    rw [havg_num, havg_den]
    exact F64.ratio_of_exact_averages total_num total_den n hn hden
  refine ⟨hmain, ?_, ?_, ?_⟩
  · intro numerators denominators hnum hdenl hsn hsd
    rw [Binary64.predict_causal_survival_effect_f64 _ _ (hnum.trans hdenl.symm), hsn, hsd,
      hnum, hmain]
  · intro data hlen hsn hsd
    unfold Binary64.overall_effect
    have h1 : data.foldl (fun acc row => acc + row.numerator) (F64.fin 0)
        = Binary64.sum (data.map fun row => row.numerator) := by
      unfold Binary64.sum
      rw [List.foldl_map]
    have h2 : data.foldl (fun acc row => acc + row.denominator) (F64.fin 0)
        = Binary64.sum (data.map fun row => row.denominator) := by
      unfold Binary64.sum
      rw [List.foldl_map]
    simp only [h1, h2, hsn, hsd, hlen]
    exact hmain
  · intro h10 get_numerator get_denominator num_rows htotals
    subst h10
    have hten : F64.ofNat 10 = F64.fin 10 := by
      have := F64.ofNat_exact 10 (by norm_num)
      simpa using this
    unfold Binary64.simple_average_approach
    simp only [htotals]
    rw [← hten]
    exact hmain

/-- Witness of the amended C5 on the pairs (1, 2) and (3, 4): the totals 4 and
6 are halved exactly. -/
theorem ratio_of_averages_eq_ratio_of_totals_witness :
    0 < 2
    ∧ ((6 : ℚ) ≠ 0)
    ∧ F64.fin 4 / F64.ofNat 2 = F64.fin (4 / (2 : Nat))
    ∧ F64.fin 6 / F64.ofNat 2 = F64.fin (6 / (2 : Nat))
    ∧ Binary64.predict_causal_survival_effect [F64.fin 1, F64.fin 3] [F64.fin 2, F64.fin 4]
        = some [F64.fin 4 / F64.fin 6] :=
  have h1 : F64.fin 4 / F64.ofNat 2 = F64.fin (4 / (2 : Nat)) := by decide!
  have h2 : F64.fin 6 / F64.ofNat 2 = F64.fin (6 / (2 : Nat)) := by decide!
  ⟨by norm_num, by norm_num, h1, h2,
    (ratio_of_averages_eq_ratio_of_totals 4 6 2 (by norm_num) (by norm_num) h1 h2).2.1
      [F64.fin 1, F64.fin 3] [F64.fin 2, F64.fin 4] rfl rfl (by decide!) (by decide!)⟩

/-- Counterexample to C6 as stated.  On numerators `{1, 1, 1}` and denominators
`{1e16, 1, -1e16}` the denominators sum to 1, but the accumulated
`denominator_sum` is `0.0` (`1e16 + 1` rounds to `1e16`): the last division has
the divisor `0.0` and the function returns `+inf`.  On numerators `{1, 1}` and
denominators `{5e-324, 0}` the accumulated `denominator_sum` is `5e-324`, not
0, but `avg_denominator` underflows to `0.0`, and again the function divides by
zero and returns `+inf`. -/
theorem zero_weight_counterexample :
    ((10 : ℚ) ^ 16 + 1 + -(10 : ℚ) ^ 16 ≠ 0)
    ∧ Binary64.sum [F64.fin (10 ^ 16), F64.fin 1, F64.fin (-10 ^ 16)] = F64.fin 0
    ∧ (Binary64.predict_causal_survival_effect_run [F64.fin 1, F64.fin 1, F64.fin 1]
          [F64.fin (10 ^ 16), F64.fin 1, F64.fin (-10 ^ 16)]).map
        (fun r => (r.avg_denominator, r.treatment_effect, r.divisors))
      = some (F64.fin 0, F64.pinf,
          [F64.fin (10 ^ 16), F64.fin 1, F64.fin (-10 ^ 16), F64.fin 3, F64.fin 3, F64.fin 0])
    ∧ Binary64.sum [F64.fin (1 / 2 ^ 1074), F64.fin 0] = F64.fin (1 / 2 ^ 1074)
    ∧ (Binary64.predict_causal_survival_effect_run [F64.fin 1, F64.fin 1]
          [F64.fin (1 / 2 ^ 1074), F64.fin 0]).map
        (fun r => (r.avg_denominator, r.treatment_effect, r.divisors))
      = some (F64.fin 0, F64.pinf,
          [F64.fin (1 / 2 ^ 1074), F64.fin 2, F64.fin 2, F64.fin 0]) := by
  refine ⟨by norm_num, ?_, ?_, ?_, ?_⟩ <;> decide!

/-- C6, amended: zero-weight observations are absorbed locally.  For every
non-empty input of `predict_causal_survival_effect` (finite values, equal
lengths), the individual effect of an observation is `0.0` when its denominator
is 0 and the quotient otherwise; every division but the last has a nonzero
divisor (a denominator that passed the guard, or a size), and the last divides
by `avg_denominator`.  When the computed `avg_denominator` is not 0, the
function divides by zero nowhere; when it is moreover finite, the value
returned is not NaN. -/
theorem zero_weight_absorbed (numerators denominators : List F64)
    (hne : numerators ≠ []) (hlen : numerators.length = denominators.length)
    (hsize : numerators.length < 2 ^ 53)
    (hnum : ∀ n ∈ numerators, n.isFinite = true)
    (hden : ∀ d ∈ denominators, d.isFinite = true) :
    ∃ r, Binary64.predict_causal_survival_effect_run numerators denominators = some r
      ∧ Binary64.predict_causal_survival_effect numerators denominators
          = some [r.treatment_effect]
      ∧ r.individual_effects
          = List.zipWith (fun n d => if F64.ne d (F64.fin 0) then n / d else F64.fin 0)
              numerators denominators
      ∧ (∃ earlier, r.divisors = earlier ++ [r.avg_denominator]
          ∧ ∀ x ∈ earlier, ∃ q : ℚ, q ≠ 0 ∧ x = F64.fin q)
      ∧ (F64.ne r.avg_denominator (F64.fin 0) = true →
          ∀ x ∈ r.divisors, F64.ne x (F64.fin 0) = true)
      ∧ (F64.ne r.avg_denominator (F64.fin 0) = true → r.avg_denominator.isFinite = true →
          r.treatment_effect.isnan = false) := by
  have hpos : 0 < numerators.length := List.length_pos.mpr hne
  obtain ⟨hsz, hsz0, hszne⟩ := F64.ofNat_ne_zero_of_pos numerators.length hpos hsize
  have hearlier : ∀ x ∈ (denominators.filter fun d => F64.ne d (F64.fin 0))
      ++ [F64.ofNat numerators.length, F64.ofNat denominators.length],
      ∃ q : ℚ, q ≠ 0 ∧ x = F64.fin q := by
    intro x hx
    rw [List.mem_append] at hx
    rcases hx with hx | hx
    · rw [List.mem_filter] at hx
      exact F64.finite_ne_zero x (hden x hx.1) hx.2
    · rw [← hlen] at hx
      simp only [List.mem_cons, List.mem_singleton, List.not_mem_nil, or_false, or_self] at hx
      exact ⟨_, hsz0, hx.trans hsz⟩
  refine ⟨_, Binary64.predict_causal_survival_effect_run_f64 _ _ hlen, ?_, rfl,
    ⟨_, ?_, hearlier⟩, ?_, ?_⟩
  · rw [Binary64.predict_causal_survival_effect_f64 _ _ hlen, hlen]
  · dsimp only
    simp
  · dsimp only
    intro havg x hx
    rw [List.mem_append] at hx
    rcases hx with hx | hx
    · rw [List.mem_filter] at hx
      exact hx.2
    · simp only [List.mem_cons, List.mem_singleton, List.not_mem_nil, or_false] at hx
      rcases hx with hx | hx | hx
      · rw [hx]; exact hszne
      · rw [hx, ← hlen]; exact hszne
      · rw [hx]; exact havg
  · dsimp only
    intro havg hfin
    obtain ⟨d, hd, hdeq⟩ := F64.finite_ne_zero _ hfin havg
    rw [hdeq]
    apply F64.isnan_div_finite _ d hd
    rw [hsz]
    apply F64.isnan_div_finite _ _ hsz0
    exact F64.isnan_foldl_add numerators _ rfl hnum

/-- Witness of the amended C6: scenario 2 of the demo, where three of the five
denominators are 0; the average denominator is not 0 and the effect returned
is `0.6601805183050877`. -/
theorem zero_weight_absorbed_witness :
    ([F64.round (154707 / 1000000), F64.round (-37250 / 1000000), F64.round (284678 / 1000000),
        F64.round (161853 / 1000000), F64.round (-166457 / 1000000)] ≠ [])
    ∧ ∃ r, Binary64.predict_causal_survival_effect_run
          [F64.round (154707 / 1000000), F64.round (-37250 / 1000000),
            F64.round (284678 / 1000000), F64.round (161853 / 1000000),
            F64.round (-166457 / 1000000)]
          [F64.round (267809 / 1000000), F64.fin 0, F64.round (334346 / 1000000), F64.fin 0,
            F64.fin 0] = some r
      ∧ F64.ne r.avg_denominator (F64.fin 0) = true
      ∧ (∀ x ∈ r.divisors, F64.ne x (F64.fin 0) = true)
      ∧ r.treatment_effect.isnan = false
      ∧ r.treatment_effect = F64.fin (1486594368118027 / 2251799813685248)
      ∧ r.individual_effects
          = [F64.fin (2601624245457051 / 4503599627370496), F64.fin 0,
              F64.fin (1917288878468081 / 2251799813685248), F64.fin 0, F64.fin 0] := by
  have hne : [F64.round (154707 / 1000000), F64.round (-37250 / 1000000),
      F64.round (284678 / 1000000), F64.round (161853 / 1000000),
      F64.round (-166457 / 1000000)] ≠ [] := by simp
  obtain ⟨r, hrun, _, _, _, hdiv, hnan⟩ := zero_weight_absorbed
    [F64.round (154707 / 1000000), F64.round (-37250 / 1000000), F64.round (284678 / 1000000),
      F64.round (161853 / 1000000), F64.round (-166457 / 1000000)]
    [F64.round (267809 / 1000000), F64.fin 0, F64.round (334346 / 1000000), F64.fin 0,
      F64.fin 0]
    hne rfl (by norm_num) (by decide!) (by decide!)
  have hvalues : (Binary64.predict_causal_survival_effect_run
        [F64.round (154707 / 1000000), F64.round (-37250 / 1000000),
          F64.round (284678 / 1000000), F64.round (161853 / 1000000),
          F64.round (-166457 / 1000000)]
        [F64.round (267809 / 1000000), F64.fin 0, F64.round (334346 / 1000000), F64.fin 0,
          F64.fin 0]).map
        (fun r => (F64.ne r.avg_denominator (F64.fin 0), r.avg_denominator.isFinite,
          r.treatment_effect, r.individual_effects))
      = some (true, true, F64.fin (1486594368118027 / 2251799813685248),
          [F64.fin (2601624245457051 / 4503599627370496), F64.fin 0,
            F64.fin (1917288878468081 / 2251799813685248), F64.fin 0, F64.fin 0]) := by
    decide!
  rw [hrun] at hvalues
  simp only [Option.map_some', Option.some.injEq, Prod.mk.injEq] at hvalues
  obtain ⟨h1, h2, h3, h4⟩ := hvalues
  exact ⟨hne, r, hrun, h1, hdiv h1, hnan h1 h2, h3, h4⟩

/-- C7: `predict` returns exactly one Prediction per row of the test data
view, in row order: the result has length `m = num_rows`, its `i`-th element is
the prediction of row `i`, and so the harnesses pair prediction `i` with data
row `i`: the table of `scratch_predict_simple.cpp` and `sample_preds` (when
`m ≥ 5`) and `pred_values` (for `i < min(10, m)`) hold the first element of the
prediction of row `i` at position `i`. -/
theorem predict_one_per_row (compute_variance : Nat → List (Dbl × Dbl) → Dbl)
    (forest : Forest) (train_data data : Data) (estimate_variance : Bool) :
    (ForestPredictor.predict compute_variance forest train_data data estimate_variance).length
        = data.num_rows
    ∧ (∀ i, i < data.num_rows →
        (ForestPredictor.predict compute_variance forest train_data data estimate_variance)[i]?
          = some (predict_row compute_variance forest data estimate_variance i))
    ∧ (∀ get_numerator get_denominator : Nat → Dbl, 5 ≤ data.num_rows →
        individual_predictions
            (ForestPredictor.predict compute_variance forest train_data data estimate_variance)
            get_numerator get_denominator
          = some ([0, 1, 2, 3, 4].map fun idx =>
              (idx,
                (predict_row compute_variance forest data estimate_variance idx).predictions.headD
                  Dbl.nan,
                get_numerator idx, get_denominator idx)))
    ∧ (5 ≤ data.num_rows →
        sample_preds
            (ForestPredictor.predict compute_variance forest train_data data estimate_variance)
          = some ((List.range 5).map fun i =>
              (predict_row compute_variance forest data estimate_variance i).predictions.headD
                Dbl.nan))
    ∧ pred_values
          (ForestPredictor.predict compute_variance forest train_data data estimate_variance)
        = some ((List.range (min 10 data.num_rows)).map fun i =>
            (predict_row compute_variance forest data estimate_variance i).predictions.headD
              Dbl.nan) := by
  have hlen : (ForestPredictor.predict compute_variance forest train_data data
      estimate_variance).length = data.num_rows := by
    simp [ForestPredictor.predict]
  have hget : ∀ i, i < data.num_rows →
      (match (ForestPredictor.predict compute_variance forest train_data data
          estimate_variance)[i]? with
        | none => none
        | some p => p.get_predictions[0]?)
      = some ((predict_row compute_variance forest data estimate_variance i).predictions.headD
          Dbl.nan) := by
    intro i hi
    rw [predict_getElem? _ _ _ _ _ i hi]
    have h := predict_row_get_predictions compute_variance forest data estimate_variance i
    simp only [Prediction.get_predictions] at h ⊢
    rw [h]
    rfl
  refine ⟨hlen, fun i hi => predict_getElem? _ _ _ _ _ i hi, ?_, ?_, ?_⟩
  · intro gn gd h5
    unfold individual_predictions
    apply mapM_option_eq_map
    intro idx hidx
    have hidx5 : idx < data.num_rows := by
      simp only [List.mem_cons, List.mem_singleton, List.not_mem_nil, or_false] at hidx
      omega
    rw [predict_getElem? _ _ _ _ _ idx hidx5]
    have h := predict_row_get_predictions compute_variance forest data estimate_variance idx
    simp only [Prediction.get_predictions] at h ⊢
    rw [h]
    rfl
  · intro h5
    unfold sample_preds
    apply mapM_option_eq_map
    intro i hi
    exact hget i (by rw [List.mem_range] at hi; omega)
  · unfold pred_values
    rw [hlen]
    apply mapM_option_eq_map
    intro i hi
    exact hget i (by rw [List.mem_range] at hi; omega)

/-- C11: for every forest trained with `ci_group_size < 2`, `predict` with
`estimateVariance = true` returns one Prediction per row, each with an empty
vector of variance estimates, which the table of the harness prints as "N/A";
every options value built by the harnesses has `ci_group_size = 1`. -/
theorem variance_unavailable_below_two (compute_variance : Nat → List (Dbl × Dbl) → Dbl)
    (parts : TrainerParts) (train_data data : Data) (options : ForestOptions)
    (forest : Forest)
    (htrain : ForestTrainer.train parts train_data options = Except.ok forest)
    (hci : options.ci_group_size < 2) :
    (ForestPredictor.predict compute_variance forest train_data data true).length
        = data.num_rows
    ∧ (∀ pred ∈ ForestPredictor.predict compute_variance forest train_data data true,
        pred.get_variance_estimates = [] ∧ variance_cell pred = Cell.not_available)
    ∧ minimal_options.ci_group_size = 1
    ∧ super_simple_options.ci_group_size = 1
    ∧ (∀ seed, (create_options_with_seed seed).ci_group_size = 1)
    ∧ (∀ num_trees sample_fraction min_node_size seed,
        (create_options num_trees sample_fraction min_node_size seed).ci_group_size = 1) := by
  have hforest := train_ok_inv parts train_data options forest htrain
  have hfci : forest.ci_group_size = options.ci_group_size := by rw [hforest]
  have hvar : ∀ pred ∈ ForestPredictor.predict compute_variance forest train_data data true,
      pred.get_variance_estimates = [] := by
    intro pred hpred
    unfold ForestPredictor.predict at hpred
    rw [List.mem_map] at hpred
    obtain ⟨row, _, rfl⟩ := hpred
    have hnot : ¬ 2 ≤ forest.ci_group_size := by omega
    simp [Prediction.get_variance_estimates, predict_row, hnot]
  refine ⟨by simp [ForestPredictor.predict], ?_, rfl, rfl, fun _ => rfl, fun _ _ _ _ => rfl⟩
  intro pred hpred
  refine ⟨hvar pred hpred, ?_⟩
  unfold variance_cell
  rw [hvar pred hpred]

/-- Witness of C11: the forest trained on `example_data` with
`minimal_options`, whose `ci_group_size` is 1. -/
theorem variance_unavailable_below_two_witness :
    minimal_options.ci_group_size < 2
    ∧ ∃ forest, ForestTrainer.train example_parts example_data minimal_options
          = Except.ok forest
        ∧ (ForestPredictor.predict (fun _ _ => Dbl.fin 0) forest example_data example_data
            true).length = 4
        ∧ ∀ pred ∈ ForestPredictor.predict (fun _ _ => Dbl.fin 0) forest example_data
            example_data true, variance_cell pred = Cell.not_available := by
  have hci : minimal_options.ci_group_size < 2 := by decide
  have h := variance_unavailable_below_two (fun _ _ => Dbl.fin 0) example_parts example_data
    example_data minimal_options _ train_example hci
  exact ⟨hci, _, train_example, h.1, fun pred hpred => (h.2.1 pred hpred).2⟩

/-- Counterexample to C12 as stated: training on `zero_weight_data` succeeds
and builds ten trees; row 3 is excluded from the subsample of every tree, yet
its out-of-bag point estimate is `NaN`, the unavailable marker: the leaf that
the row reaches holds one estimation row, of numerator 0 and denominator 0, and
the aggregate is `0 / 0`. -/
theorem oob_counterexample :
    (ForestTrainer.train example_parts zero_weight_data minimal_options).toOption.map
        (fun forest =>
          (forest.trees.length,
            forest.trees.all (fun tree => decide (3 ∉ tree.sample.subsample))))
      = some (10, true)
    ∧ (ForestTrainer.train example_parts zero_weight_data minimal_options).toOption.map
        (fun forest => average_value (oob_trees forest 3) zero_weight_data 3)
      = some [Dbl.fin 0, Dbl.fin 0]
    ∧ (ForestTrainer.train example_parts zero_weight_data minimal_options).toOption.map
        (fun forest =>
          (ForestPredictor.predict_oob (fun _ _ => Dbl.fin 0) forest zero_weight_data
            false)[3]?.map Prediction.get_predictions)
      = some (some [Dbl.nan])
    ∧ (ForestTrainer.train example_parts zero_weight_data minimal_options).toOption.map
        (fun forest =>
          (ForestPredictor.predict_oob (fun _ _ => Dbl.fin 0) forest zero_weight_data
            false)[3]?.map Prediction.available)
      = some (some false) := by
  decide!

/-- C12, amended: the out-of-bag invariant.  For every trained forest and every
training row, a tree has the row in its out-of-bag complement exactly when the
row is not in its subsample.  If at least one tree excluded the row from its
subsample, `predictOOB` returns at the row's position the aggregation over
exactly the trees that excluded the row: its point estimate is the quotient of
the average numerator by the average denominator of these trees, and it is
defined (not NaN) whenever that average denominator is finite and not 0 and the
average numerator is not NaN.  If every tree has the row in its subsample, the
Prediction is the unavailable one, whose point estimate is NaN. -/
theorem oob_prediction (compute_variance : Nat → List (Dbl × Dbl) → Dbl)
    (parts : TrainerParts) (data : Data) (options : ForestOptions) (forest : Forest)
    (estimate_variance : Bool) (row : Nat)
    (htrain : ForestTrainer.train parts data options = Except.ok forest)
    (hrow : row < data.num_rows) :
    (∀ tree ∈ forest.trees, (row ∈ tree.sample.oob ↔ row ∉ tree.sample.subsample))
    ∧ (oob_trees forest row).trees
        = forest.trees.filter (fun tree => decide (row ∉ tree.sample.subsample))
    ∧ ((∃ tree ∈ forest.trees, row ∉ tree.sample.subsample) →
        (ForestPredictor.predict_oob compute_variance forest data estimate_variance)[row]?
            = some (predict_row compute_variance (oob_trees forest row) data
                estimate_variance row)
        ∧ ∃ avg_numerator avg_denominator,
            average_value (oob_trees forest row) data row = [avg_numerator, avg_denominator]
            ∧ (predict_row compute_variance (oob_trees forest row) data estimate_variance
                row).get_predictions = [avg_numerator / avg_denominator]
            ∧ (predict_row compute_variance (oob_trees forest row) data estimate_variance
                row).available = !Dbl.isnan (avg_numerator / avg_denominator)
            ∧ ∀ d : ℚ, avg_denominator = Dbl.fin d → d ≠ 0 →
                Dbl.isnan avg_numerator = false →
                (predict_row compute_variance (oob_trees forest row) data estimate_variance
                  row).available = true)
    ∧ ((∀ tree ∈ forest.trees, row ∈ tree.sample.subsample) →
        (ForestPredictor.predict_oob compute_variance forest data estimate_variance)[row]?
            = some Prediction.unavailable
        ∧ Prediction.unavailable.get_predictions = [Dbl.nan]
        ∧ Prediction.unavailable.available = false) := by
  have hforest := train_ok_inv parts data options forest htrain
  have hoob : ∀ tree ∈ forest.trees,
      (row ∈ tree.sample.oob ↔ row ∉ tree.sample.subsample) := by
    intro tree htree
    rw [hforest] at htree
    simp only [List.mem_map] at htree
    obtain ⟨tree_index, _, rfl⟩ := htree
    exact train_tree_mem_oob parts data options tree_index row hrow
  have hfilter : (oob_trees forest row).trees
      = forest.trees.filter (fun tree => decide (row ∉ tree.sample.subsample)) := by
    unfold oob_trees
    apply List.filter_congr
    intro tree htree
    simp only [decide_eq_decide]
    exact hoob tree htree
  refine ⟨hoob, hfilter, ?_, ?_⟩
  · rintro ⟨tree, htree, hnot⟩
    have hmem : tree ∈ (oob_trees forest row).trees := by
      rw [hfilter, List.mem_filter]
      exact ⟨htree, by simpa using hnot⟩
    have hne : (oob_trees forest row).trees.isEmpty = false := by
      cases h : (oob_trees forest row).trees with
      | nil => rw [h] at hmem; cases hmem
      | cons _ _ => rfl
    obtain ⟨avg_numerator, avg_denominator, havg, hget, havail⟩ :=
      predict_row_of_average compute_variance (oob_trees forest row) data estimate_variance row
    refine ⟨?_, avg_numerator, avg_denominator, havg, hget, havail, ?_⟩
    · rw [predict_oob_getElem? _ _ _ _ _ hrow]
      simp [predict_oob_row, hne]
    · intro d hd hd0 hnum
      rw [havail, hd, Dbl.isnan_div_fin _ d hd0 hnum]
      rfl
  · intro hall
    have hnil : (oob_trees forest row).trees = [] := by
      rw [hfilter, List.filter_eq_nil_iff]
      intro tree htree
      simpa using hall tree htree
    refine ⟨?_, rfl, rfl⟩
    rw [predict_oob_getElem? _ _ _ _ _ hrow]
    simp [predict_oob_row, hnil]

/-- Witness of the amended C12 on the forest trained on `example_data` with
`splitting_parts` and `minimal_options`: every tree draws the subsample
`{3, 2}`, so row 0 is out-of-bag for every tree and gets a finite point
estimate, while row 3 is in every subsample and gets the unavailable
Prediction. -/
theorem oob_prediction_witness :
    0 < example_data.num_rows
    ∧ 3 < example_data.num_rows
    ∧ ∃ forest, ForestTrainer.train splitting_parts example_data minimal_options
          = Except.ok forest
        ∧ (∃ tree ∈ forest.trees, 0 ∉ tree.sample.subsample)
        ∧ (∀ tree ∈ forest.trees, 3 ∈ tree.sample.subsample)
        ∧ (∃ q : ℚ, (ForestPredictor.predict_oob (fun _ _ => Dbl.fin 0) forest example_data
              false)[0]?.map Prediction.get_predictions = some [Dbl.fin q])
        ∧ (ForestPredictor.predict_oob (fun _ _ => Dbl.fin 0) forest example_data
              false)[0]?.map Prediction.available = some true
        ∧ (ForestPredictor.predict_oob (fun _ _ => Dbl.fin 0) forest example_data false)[3]?
            = some Prediction.unavailable := by
  have h0 : 0 < example_data.num_rows := by decide
  have h3 : 3 < example_data.num_rows := by decide
  have hex : ∃ tree ∈ (List.range minimal_options.num_trees).map
      (train_tree splitting_parts example_data minimal_options), 0 ∉ tree.sample.subsample := by
    decide!
  have hall : ∀ tree ∈ (List.range minimal_options.num_trees).map
      (train_tree splitting_parts example_data minimal_options), 3 ∈ tree.sample.subsample := by
    decide!
  have hrow0 := (oob_prediction (fun _ _ => Dbl.fin 0) splitting_parts example_data
    minimal_options _ false 0 splitting_minimal_train h0).2.2.1 hex
  have hrow3 := (oob_prediction (fun _ _ => Dbl.fin 0) splitting_parts example_data
    minimal_options _ false 3 splitting_minimal_train h3).2.2.2 hall
  obtain ⟨hget, avg_numerator, avg_denominator, havg, hpred, _, havail⟩ := hrow0
  have hvalues : average_value
      (oob_trees
        { trees := (List.range minimal_options.num_trees).map
            (train_tree splitting_parts example_data minimal_options)
          random_seed := minimal_options.random_seed
          honesty := minimal_options.honesty
          ci_group_size := minimal_options.ci_group_size } 0) example_data 0
      = [Dbl.fin (57/200), Dbl.fin (167/500)] := by
    decide!
  rw [hvalues] at havg
  simp only [List.cons.injEq, and_true] at havg
  obtain ⟨hn, hd⟩ := havg
  refine ⟨h0, h3, _, splitting_minimal_train, hex, hall, ⟨(57/200) / (167/500), ?_⟩, ?_,
    hrow3.1⟩
  · rw [hget, Option.map_some', hpred, ← hn, ← hd, Dbl.div_fin_fin _ _ (by norm_num)]
  · rw [hget, Option.map_some', havail (167/500) hd.symm (by norm_num) (by rw [← hn]; rfl)]

/-- C16: on a nine-column matrix the setter calls of the harnesses give
treatment = instrument = 5, censor = 6, numerator = 7, denominator = 8.  Every
role index lies in `[0, 9)`, the numerator and the denominator are both set,
treatment, censor, numerator and denominator are pairwise distinct and the
instrument coincides with the treatment, the feature columns are 0..4 and none
of them carries a role; the precondition of training on the roles holds.  The
inspection harness, which sets no instrument, satisfies the same invariant. -/
theorem harness_roles_invariant (flat_data : List Dbl) (num_rows : Nat) :
    (set_indices (Data.from_flat flat_data num_rows 9)).treatment_index = some 5
    ∧ (set_indices (Data.from_flat flat_data num_rows 9)).instrument_index = some 5
    ∧ (set_indices (Data.from_flat flat_data num_rows 9)).censor_index = some 6
    ∧ (set_indices (Data.from_flat flat_data num_rows 9)).causal_survival_numerator_index
        = some 7
    ∧ (set_indices (Data.from_flat flat_data num_rows 9)).causal_survival_denominator_index
        = some 8
    ∧ (set_indices (Data.from_flat flat_data num_rows 9)).role_columns = [5, 6, 7, 8]
    ∧ (∀ col ∈ (set_indices (Data.from_flat flat_data num_rows 9)).role_columns, col < 9)
    ∧ [(set_indices (Data.from_flat flat_data num_rows 9)).treatment_index,
        (set_indices (Data.from_flat flat_data num_rows 9)).censor_index,
        (set_indices (Data.from_flat flat_data num_rows 9)).causal_survival_numerator_index,
        (set_indices (Data.from_flat flat_data num_rows 9)).causal_survival_denominator_index
        ].Nodup
    ∧ (set_indices (Data.from_flat flat_data num_rows 9)).instrument_index
        = (set_indices (Data.from_flat flat_data num_rows 9)).treatment_index
    ∧ (set_indices (Data.from_flat flat_data num_rows 9)).feature_columns = [0, 1, 2, 3, 4]
    ∧ (∀ col ∈ (set_indices (Data.from_flat flat_data num_rows 9)).role_columns,
        col ∉ (set_indices (Data.from_flat flat_data num_rows 9)).feature_columns)
    ∧ (set_indices (Data.from_flat flat_data num_rows 9)).num_features = 5
    ∧ (set_indices (Data.from_flat flat_data num_rows 9)).roles_configured = true
    ∧ (set_indices_inspection (Data.from_flat flat_data num_rows 9)).instrument_index = none
    ∧ (set_indices_inspection (Data.from_flat flat_data num_rows 9)).role_columns
        = [5, 6, 7, 8]
    ∧ (set_indices_inspection (Data.from_flat flat_data num_rows 9)).feature_columns
        = [0, 1, 2, 3, 4]
    ∧ (set_indices_inspection (Data.from_flat flat_data num_rows 9)).roles_configured
        = true := by
  have hroles : (set_indices (Data.from_flat flat_data num_rows 9)).role_columns
      = [5, 6, 7, 8] := by
    simp only [set_indices, Data.from_flat, Data.set_treatment_index,
      Data.set_instrument_index, Data.set_censor_index,
      Data.set_causal_survival_numerator_index, Data.set_causal_survival_denominator_index,
      Data.role_columns]
    decide
  have hroles2 : (set_indices_inspection (Data.from_flat flat_data num_rows 9)).role_columns
      = [5, 6, 7, 8] := by
    simp only [set_indices_inspection, Data.from_flat, Data.set_treatment_index,
      Data.set_censor_index,
      Data.set_causal_survival_numerator_index, Data.set_causal_survival_denominator_index,
      Data.role_columns]
    decide
  have hfeat : (set_indices (Data.from_flat flat_data num_rows 9)).feature_columns
      = [0, 1, 2, 3, 4] := by
    unfold Data.feature_columns
    rw [hroles]
    rfl
  have hfeat2 : (set_indices_inspection (Data.from_flat flat_data num_rows 9)).feature_columns
      = [0, 1, 2, 3, 4] := by
    unfold Data.feature_columns
    rw [hroles2]
    rfl
  have hdistinct : [(set_indices (Data.from_flat flat_data num_rows 9)).treatment_index,
      (set_indices (Data.from_flat flat_data num_rows 9)).censor_index,
      (set_indices (Data.from_flat flat_data num_rows 9)).causal_survival_numerator_index,
      (set_indices (Data.from_flat flat_data num_rows 9)).causal_survival_denominator_index
      ].Nodup := by
    show [some 5, some 6, some 7, some 8].Nodup
    decide
  refine ⟨rfl, rfl, rfl, rfl, rfl, hroles, ?_, hdistinct, rfl, hfeat, ?_, ?_, ?_, rfl,
    hroles2, hfeat2, ?_⟩
  · rw [hroles]; decide
  · rw [hroles, hfeat]; decide
  · unfold Data.num_features
    rw [hroles]
    rfl
  · unfold Data.roles_configured
    rw [hroles]
    rfl
  · unfold Data.roles_configured
    rw [hroles2]
    rfl

/-- C17: every options value built by the harnesses satisfies every constraint
of the configuration surface for data with 5 features: `num_trees ≥ 1`,
`ci_group_size` divides `num_trees`, `0 < sample_fraction ≤ 1`,
`1 ≤ mtry ≤ 5`, `min_node_size ≥ 1`, honesty enabled with
`0 < honesty_fraction < 1`, `imbalance_penalty ≥ 0`, `num_threads ≥ 1`; so
training on such data, once the roles are configured, does not fail with
`ConfigurationError`. -/
theorem harness_options_valid (options : ForestOptions) (hbuilt : built_by_harness options) :
    1 ≤ options.num_trees
    ∧ options.ci_group_size ∣ options.num_trees
    ∧ (∃ f : ℚ, options.sample_fraction = Dbl.fin f ∧ 0 < f ∧ f ≤ 1)
    ∧ 1 ≤ options.mtry ∧ options.mtry ≤ 5
    ∧ 1 ≤ options.min_node_size
    ∧ options.honesty = true
    ∧ (∃ h : ℚ, options.honesty_fraction = Dbl.fin h ∧ 0 < h ∧ h < 1)
    ∧ (∃ p : ℚ, options.imbalance_penalty = Dbl.fin p ∧ 0 ≤ p)
    ∧ 1 ≤ options.num_threads
    ∧ options.valid 5 = true
    ∧ (∀ (parts : TrainerParts) (data : Data), data.roles_configured = true →
        data.num_features = 5 → ∃ forest, ForestTrainer.train parts data options
          = Except.ok forest) := by
  have key : 1 ≤ options.num_trees
      ∧ options.ci_group_size ∣ options.num_trees
      ∧ (∃ f : ℚ, options.sample_fraction = Dbl.fin f ∧ 0 < f ∧ f ≤ 1)
      ∧ 1 ≤ options.mtry ∧ options.mtry ≤ 5
      ∧ 1 ≤ options.min_node_size
      ∧ options.honesty = true
      ∧ (∃ h : ℚ, options.honesty_fraction = Dbl.fin h ∧ 0 < h ∧ h < 1)
      ∧ (∃ p : ℚ, options.imbalance_penalty = Dbl.fin p ∧ 0 ≤ p)
      ∧ 1 ≤ options.num_threads := by
    rcases hbuilt with rfl | rfl | ⟨seed, rfl⟩ | ⟨config, hconfig, seed, rfl⟩
    · refine ⟨by decide, by decide, ⟨6/10, rfl, by norm_num, by norm_num⟩, by decide,
        by decide, by decide, rfl, ⟨5/10, rfl, by norm_num, by norm_num⟩,
        ⟨0, rfl, le_refl _⟩, by decide⟩
    · refine ⟨by decide, by decide, ⟨5/10, rfl, by norm_num, by norm_num⟩, by decide,
        by decide, by decide, rfl, ⟨5/10, rfl, by norm_num, by norm_num⟩,
        ⟨0, rfl, le_refl _⟩, by decide⟩
    · exact ⟨by show 1 ≤ 50; decide, one_dvd _, ⟨5/10, rfl, by norm_num, by norm_num⟩,
        by show 1 ≤ 3; decide, by show 3 ≤ 5; decide, by show 1 ≤ 5; decide, rfl,
        ⟨5/10, rfl, by norm_num, by norm_num⟩, ⟨0, rfl, le_refl _⟩, by show 1 ≤ 1; decide⟩
    · simp only [configs, List.mem_cons, List.mem_singleton, List.not_mem_nil,
        or_false] at hconfig
      have hgen : ∀ (n : Nat) (f : ℚ) (m : Nat), 1 ≤ n → 0 < f → f ≤ 1 → 1 ≤ m →
          1 ≤ (create_options n (Dbl.fin f) m seed).num_trees
          ∧ (create_options n (Dbl.fin f) m seed).ci_group_size
              ∣ (create_options n (Dbl.fin f) m seed).num_trees
          ∧ (∃ g : ℚ, (create_options n (Dbl.fin f) m seed).sample_fraction = Dbl.fin g
              ∧ 0 < g ∧ g ≤ 1)
          ∧ 1 ≤ (create_options n (Dbl.fin f) m seed).mtry
          ∧ (create_options n (Dbl.fin f) m seed).mtry ≤ 5
          ∧ 1 ≤ (create_options n (Dbl.fin f) m seed).min_node_size
          ∧ (create_options n (Dbl.fin f) m seed).honesty = true
          ∧ (∃ h : ℚ, (create_options n (Dbl.fin f) m seed).honesty_fraction = Dbl.fin h
              ∧ 0 < h ∧ h < 1)
          ∧ (∃ p : ℚ, (create_options n (Dbl.fin f) m seed).imbalance_penalty = Dbl.fin p
              ∧ 0 ≤ p)
          ∧ 1 ≤ (create_options n (Dbl.fin f) m seed).num_threads := by
        intro n f m hn hf0 hf1 hm
        exact ⟨hn, one_dvd _, ⟨f, rfl, hf0, hf1⟩, by show 1 ≤ 3; decide,
          by show 3 ≤ 5; decide, hm, rfl, ⟨5/10, rfl, by norm_num, by norm_num⟩,
          ⟨0, rfl, le_refl _⟩, by show 1 ≤ 1; decide⟩
      rcases hconfig with rfl | rfl | rfl | rfl | rfl
      · exact hgen 50 (5/10) 5 (by decide) (by norm_num) (by norm_num) (by decide)
      · exact hgen 200 (5/10) 5 (by decide) (by norm_num) (by norm_num) (by decide)
      · exact hgen 500 (5/10) 5 (by decide) (by norm_num) (by norm_num) (by decide)
      · exact hgen 200 (3/10) 10 (by decide) (by norm_num) (by norm_num) (by decide)
      · exact hgen 200 (8/10) 3 (by decide) (by norm_num) (by norm_num) (by decide)
  obtain ⟨h1, h2, ⟨f, hf, hf0, hf1⟩, h4, h5, h6, h7, ⟨h, hh, hh0, hh1⟩, ⟨p, hp, hp0⟩, h10⟩ := key
  have hvalid : options.valid 5 = true := by
    simp [ForestOptions.valid, hf, hh, hp, Dbl.lt, Dbl.le, h1, h2, hf0, hf1, h4, h5, h6, hh0,
      hh1, hp0, h10]
  refine ⟨h1, h2, ⟨f, hf, hf0, hf1⟩, h4, h5, h6, h7, ⟨h, hh, hh0, hh1⟩, ⟨p, hp, hp0⟩, h10,
    hvalid, ?_⟩
  intro parts data hroles hfeatures
  exact ⟨_, train_ok_of_valid parts data options hroles (by rw [hfeatures]; exact hvalid)⟩

/-- Witness of C17: the "Large Forest" configuration (500 trees) with seed 999. -/
theorem harness_options_valid_witness :
    built_by_harness (create_options 500 (Dbl.fin (5/10)) 5 999)
    ∧ (create_options 500 (Dbl.fin (5/10)) 5 999).valid 5 = true
    ∧ ∃ forest, ForestTrainer.train example_parts example_data
        (create_options 500 (Dbl.fin (5/10)) 5 999) = Except.ok forest :=
  have hbuilt : built_by_harness (create_options 500 (Dbl.fin (5/10)) 5 999) :=
    Or.inr (Or.inr (Or.inr
      ⟨{ num_trees := 500, sample_fraction := Dbl.fin (5/10), min_node_size := 5 },
        by simp [configs], 999, rfl⟩))
  ⟨hbuilt, (harness_options_valid _ hbuilt).2.2.2.2.2.2.2.2.2.2.1,
    (harness_options_valid _ hbuilt).2.2.2.2.2.2.2.2.2.2.2 example_parts example_data
      example_data_roles_configured example_data_num_features⟩

/-- C19: the documented `predict`, `return { average.at(0) / average.at(1) }`,
raises exactly when the average vector has fewer than two elements; on a
vector with at least two elements it returns one element, the quotient of
elements 0 and 1 whatever follows them, and it does not raise when the
denominator is zero. -/
theorem predict_raises_iff_short (average : List Dbl) :
    (CausalSurvivalPredictionStrategy.predict average = none ↔ average.length < 2)
    ∧ (∀ a b rest, CausalSurvivalPredictionStrategy.predict (a :: b :: rest) = some [a / b])
    ∧ (∀ a rest, ∃ v,
        CausalSurvivalPredictionStrategy.predict (a :: Dbl.fin 0 :: rest) = some [v]) := by
  refine ⟨?_, ?_, ?_⟩
  · match average with
    | [] => simp [CausalSurvivalPredictionStrategy.predict, NUMERATOR, DENOMINATOR]
    | [a] => simp [CausalSurvivalPredictionStrategy.predict, NUMERATOR, DENOMINATOR]
    | a :: b :: rest =>
        simp [CausalSurvivalPredictionStrategy.predict, NUMERATOR, DENOMINATOR]
  · intro a b rest
    simp [CausalSurvivalPredictionStrategy.predict, NUMERATOR, DENOMINATOR]
  · intro a rest
    exact ⟨a / Dbl.fin 0, by
      simp [CausalSurvivalPredictionStrategy.predict, NUMERATOR, DENOMINATOR]⟩

/-- C18, evaluated on the code.  The harnesses `scratch_causal_survival.cpp`,
`scratch_causal_survival_simple.cpp` and `scratch_super_simple.cpp` skip a
prediction whose point estimate is NaN: it changes neither the sum nor the
count.  The averaging loop shared by `scratch_randomness_demo.cpp` and
`scratch_variance_analysis.cpp` does not: as soon as one point estimate is NaN,
`avg_effect` is NaN.  On the predictions `{NaN}, {1.0}` the first three print
the average 1.0 and the last two compute NaN. -/
theorem nan_row_in_averages :
    (∀ pred rest s, pred.get_predictions[0]? = some Dbl.nan →
        prediction_statistics (pred :: rest) s = prediction_statistics rest s)
    ∧ (∀ pred rest s, pred.get_predictions[0]? = some Dbl.nan →
        valid_sum_count (pred :: rest) s = valid_sum_count rest s)
    ∧ (∀ predictions, (∃ pred ∈ predictions, pred.get_predictions[0]? = some Dbl.nan) →
        avg_effect predictions = none ∨ avg_effect predictions = some Dbl.nan)
    ∧ causal_survival_average
        [⟨[Dbl.nan], [], []⟩, ⟨[Dbl.fin 1], [], []⟩] = some (some (Dbl.fin 1))
    ∧ causal_survival_simple_average
        [⟨[Dbl.nan], [], []⟩, ⟨[Dbl.fin 1], [], []⟩] = some (some (Dbl.fin 1))
    ∧ super_simple_average [⟨[Dbl.nan], [], []⟩, ⟨[Dbl.fin 1], [], []⟩] = some (Dbl.fin 1)
    ∧ avg_effect [⟨[Dbl.nan], [], []⟩, ⟨[Dbl.fin 1], [], []⟩] = some Dbl.nan := by
  refine ⟨?_, ?_, ?_, ?_, ?_, ?_, ?_⟩
  · intro pred rest s hpred
    rw [prediction_statistics, hpred]
    simp [Dbl.isnan]
  · intro pred rest s hpred
    rw [valid_sum_count, hpred]
    simp [Dbl.isnan]
  · intro predictions hnan
    unfold avg_effect
    rcases sum_predictions_of_nan_mem predictions (Dbl.fin 0) hnan with h | h
    · exact Or.inl (by rw [h]; rfl)
    · exact Or.inr (by rw [h]; rfl)
  · simp [causal_survival_average, prediction_statistics, Prediction.get_predictions,
      Prediction.get_variance_estimates, Dbl.isnan, Dbl.add_fin_fin, Dbl.ofNat,
      Dbl.div_fin_fin]
  · simp [causal_survival_simple_average, valid_sum_count, Prediction.get_predictions,
      Dbl.isnan, Dbl.add_fin_fin, Dbl.ofNat, Dbl.div_fin_fin]
  · simp [super_simple_average, valid_sum_count, Prediction.get_predictions,
      Dbl.isnan, Dbl.add_fin_fin, Dbl.ofNat, Dbl.div_fin_fin]
  · simp [avg_effect, sum_predictions, Prediction.get_predictions, Dbl.add_nan, Dbl.nan_add,
      Dbl.nan_div]

/-- C14: the flat buffer handed to the Data View is row-major.  For every list
of rows that all have length `num_cols`, the flattened buffer has
`num_rows * num_cols` elements and its element at `r * num_cols + c` is cell
`(r, c)` of the loaded matrix, which is also what `get(r, c)` of the Data View
built on it returns; the reading loop of the super-simple demo builds the same
buffer. -/
theorem flat_buffer_row_major (data_vec : List (List Dbl)) (num_cols : Nat)
    (hrect : ∀ row ∈ data_vec, row.length = num_cols) :
    (flatten data_vec).length = data_vec.length * num_cols
    ∧ (∀ r c, r < data_vec.length → c < num_cols →
        ∃ row value, data_vec[r]? = some row ∧ row[c]? = some value
          ∧ (flatten data_vec)[r * num_cols + c]? = some value
          ∧ (Data.from_flat (flatten data_vec) data_vec.length num_cols).get r c = value)
    ∧ (∀ num_get text,
        (super_simple_read num_get text).flat_data
          = flatten (load_simple_data num_get text)) := by
  refine ⟨flatten_length_rect data_vec num_cols hrect, ?_, ?_⟩
  · intro r c hr hc
    obtain ⟨row, value, hrow, hvalue, hflat⟩ := flatten_getElem? data_vec num_cols hrect r c hr hc
    refine ⟨row, value, hrow, hvalue, hflat, ?_⟩
    simp [Data.get, Data.from_flat, List.getD_eq_getElem?_getD, hflat]
  · intro num_get text
    rw [super_simple_read_eq]

/-- Witness of C14 on the 2 x 2 matrix with rows (1, 2) and (3, 4): the cell
(1, 0) is at position 2 of the buffer. -/
theorem flat_buffer_row_major_witness :
    (∀ row ∈ [[Dbl.fin 1, Dbl.fin 2], [Dbl.fin 3, Dbl.fin 4]], row.length = 2)
    ∧ (flatten [[Dbl.fin 1, Dbl.fin 2], [Dbl.fin 3, Dbl.fin 4]]).length = 2 * 2
    ∧ (flatten [[Dbl.fin 1, Dbl.fin 2], [Dbl.fin 3, Dbl.fin 4]])[1 * 2 + 0]?
        = some (Dbl.fin 3) := by
  have hrect : ∀ row ∈ [[Dbl.fin 1, Dbl.fin 2], [Dbl.fin 3, Dbl.fin 4]], row.length = 2 := by
    intro row hrow
    simp only [List.mem_cons, List.mem_singleton, List.not_mem_nil, or_false] at hrow
    rcases hrow with rfl | rfl <;> rfl
  have h := flat_buffer_row_major [[Dbl.fin 1, Dbl.fin 2], [Dbl.fin 3, Dbl.fin 4]] 2 hrect
  refine ⟨hrect, h.1, ?_⟩
  obtain ⟨row, value, hrow, hvalue, hflat, _⟩ := h.2.1 1 0 (by decide) (by decide)
  simp only [List.getElem?_cons_succ, List.getElem?_cons_zero, Option.some.injEq] at hrow
  subst hrow
  simp only [List.getElem?_cons_zero, Option.some.injEq] at hvalue
  subst hvalue
  exact hflat

/-- C20: for every input text, `load_simple_data` returns the rows of the
lines in line order, one for each line whose row is not empty.  The row of a
line is the maximal leading run of numbers: the values of the successive
extractions up to the first one that fails.  It is empty exactly when the
first extraction fails, and then the line yields no row; so no returned row is
empty and there are at most as many rows as lines. -/
theorem load_simple_data_rows (num_get : List Char → Option (Dbl × List Char))
    (hget : consumes_input num_get) (text : List Char) :
    load_simple_data num_get text
        = ((getlines text).map (read_row num_get)).filter (fun row => !row.isEmpty)
    ∧ (∀ line, read_row num_get line =
        match extract_value num_get line with
        | none => []
        | some (value, rest) => value :: read_row num_get rest)
    ∧ (∀ line, read_row num_get line = [] ↔ extract_value num_get line = none)
    ∧ (∀ row ∈ load_simple_data num_get text, row ≠ [])
    ∧ (load_simple_data num_get text).length ≤ (getlines text).length := by
  refine ⟨load_simple_data_eq num_get text, read_row_eq num_get hget, ?_, ?_, ?_⟩
  · intro line
    rw [read_row_eq num_get hget line]
    cases h : extract_value num_get line with
    | none => simp
    | some pair => simp
  · intro row hrow
    rw [load_simple_data_eq, List.mem_filter] at hrow
    intro hnil
    rw [hnil] at hrow
    simp at hrow
  · rw [load_simple_data_eq]
    calc (((getlines text).map (read_row num_get)).filter (fun row => !row.isEmpty)).length
        ≤ ((getlines text).map (read_row num_get)).length := List.length_filter_le _ _
      _ = (getlines text).length := List.length_map _ _

/-- Witness of C20 with the decimal `num_get`: of the four lines `0.5 -2`,
an empty line, `x 7` and ` 12 13z 4`, the first and the last yield a row; the
last row stops at `z`. -/
theorem load_simple_data_rows_witness :
    consumes_input decimal_num_get
    ∧ load_simple_data decimal_num_get
        ['0', '.', '5', ' ', '-', '2', '\n', '\n', 'x', ' ', '7', '\n',
          ' ', '1', '2', ' ', '1', '3', 'z', ' ', '4']
      = ((getlines
          ['0', '.', '5', ' ', '-', '2', '\n', '\n', 'x', ' ', '7', '\n',
            ' ', '1', '2', ' ', '1', '3', 'z', ' ', '4']).map
          (read_row decimal_num_get)).filter (fun row => !row.isEmpty)
    ∧ load_simple_data decimal_num_get
        ['0', '.', '5', ' ', '-', '2', '\n', '\n', 'x', ' ', '7', '\n',
          ' ', '1', '2', ' ', '1', '3', 'z', ' ', '4']
      = [[Dbl.fin (1/2), Dbl.fin (-2)], [Dbl.fin 12, Dbl.fin 13]] := by
  refine ⟨decimal_num_get_consumes,
    (load_simple_data_rows decimal_num_get decimal_num_get_consumes _).1, ?_⟩
  simp [load_simple_data, getlines, getlines_from, read_row, read_values, extract_value,
    decimal_num_get, read_digits, isspace]
  norm_num

/-- C27, evaluated on the code.  The two averages printed by the simple average
approach are the totals over the first `min(10, numRows)` rows divided by the
constant 10.  With at least 10 rows they are the means of the 10 rows summed;
with fewer they are not: on 5 rows whose numerator and denominator are all 1
the rows summed have mean 1 and the harness prints 1/2 for both. -/
theorem simple_average_divides_by_ten :
    (∀ (gn gd : Nat → ℚ) (num_rows : Nat),
        (simple_average_approach (fun i => Dbl.fin (gn i)) (fun i => Dbl.fin (gd i))
            num_rows).1
          = Dbl.fin (((List.range (min 10 num_rows)).map gn).sum / 10)
        ∧ (simple_average_approach (fun i => Dbl.fin (gn i)) (fun i => Dbl.fin (gd i))
            num_rows).2.1
          = Dbl.fin (((List.range (min 10 num_rows)).map gd).sum / 10))
    ∧ (∀ (gn gd : Nat → ℚ) (num_rows : Nat), 10 ≤ num_rows →
        (simple_average_approach (fun i => Dbl.fin (gn i)) (fun i => Dbl.fin (gd i))
            num_rows).1
          = Dbl.fin (((List.range (min 10 num_rows)).map gn).sum
              / ((min 10 num_rows : Nat) : ℚ))
        ∧ (simple_average_approach (fun i => Dbl.fin (gn i)) (fun i => Dbl.fin (gd i))
            num_rows).2.1
          = Dbl.fin (((List.range (min 10 num_rows)).map gd).sum
              / ((min 10 num_rows : Nat) : ℚ)))
    ∧ simple_average_approach (fun _ => Dbl.fin 1) (fun _ => Dbl.fin 1) 5
        = (Dbl.fin (1/2), Dbl.fin (1/2), Dbl.fin 1)
    ∧ ((List.range (min 10 5)).map fun _ => (1 : ℚ)).sum / ((min 10 5 : Nat) : ℚ) = 1 := by
  have hten : ∀ (gn gd : Nat → ℚ) (num_rows : Nat),
      (simple_average_approach (fun i => Dbl.fin (gn i)) (fun i => Dbl.fin (gd i))
          num_rows).1
        = Dbl.fin (((List.range (min 10 num_rows)).map gn).sum / 10)
      ∧ (simple_average_approach (fun i => Dbl.fin (gn i)) (fun i => Dbl.fin (gd i))
          num_rows).2.1
        = Dbl.fin (((List.range (min 10 num_rows)).map gd).sum / 10) := by
    intro gn gd num_rows
    unfold simple_average_approach
    simp only [simple_average_totals_fin gn gd num_rows]
    exact ⟨Dbl.div_fin_fin _ _ (by norm_num), Dbl.div_fin_fin _ _ (by norm_num)⟩
  refine ⟨hten, ?_, ?_, ?_⟩
  · intro gn gd num_rows hrows
    have hmin : min 10 num_rows = 10 := Nat.min_eq_left hrows
    have h := hten gn gd num_rows
    rw [hmin] at h ⊢
    exact ⟨by rw [h.1]; norm_num, by rw [h.2]; norm_num⟩
  · have h := hten (fun _ => 1) (fun _ => 1) 5
    have hsum : ((List.range (min 10 5)).map fun _ => (1 : ℚ)).sum = 5 := by
      simp
      norm_num
    have h3 : (simple_average_approach (fun _ => Dbl.fin 1) (fun _ => Dbl.fin 1) 5).2.2
        = Dbl.fin 1 := by
      unfold simple_average_approach
      simp only [simple_average_totals_fin (fun _ => 1) (fun _ => 1) 5, hsum]
      rw [Dbl.div_fin_fin _ _ (by norm_num)]
      norm_num
    rw [hsum] at h
    refine Prod.ext ?_ (Prod.ext ?_ h3)
    · rw [h.1]; norm_num
    · rw [h.2]; norm_num
  · simp
    norm_num

/-- C23, evaluated on the code.  `scratch_causal_survival.cpp` and
`scratch_causal_survival_simple.cpp` print the average only when the number of
valid predictions is positive: with zero valid predictions nothing is printed
and nothing is divided.  `scratch_super_simple.cpp` divides `sum` by `count`
unconditionally: on a single prediction whose point estimate is NaN, as on no
prediction at all, `count` is 0 and it prints `0.0 / 0 = NaN`. -/
theorem super_simple_divides_by_zero_count :
    (∀ predictions s, prediction_statistics predictions ⟨Dbl.fin 0, Dbl.fin 0, 0⟩ = some s →
        (causal_survival_average predictions
          = if 0 < s.valid_predictions then
              some (some (s.sum_effects / Dbl.ofNat s.valid_predictions))
            else some none))
    ∧ (∀ predictions s, valid_sum_count predictions (Dbl.fin 0, 0) = some s →
        (causal_survival_simple_average predictions
          = if 0 < s.2 then some (some (s.1 / Dbl.ofNat s.2)) else some none))
    ∧ (∀ predictions s, valid_sum_count predictions (Dbl.fin 0, 0) = some s →
        super_simple_average predictions = some (s.1 / Dbl.ofNat s.2))
    ∧ valid_sum_count [⟨[Dbl.nan], [], []⟩] (Dbl.fin 0, 0) = some (Dbl.fin 0, 0)
    ∧ causal_survival_average [⟨[Dbl.nan], [], []⟩] = some none
    ∧ causal_survival_simple_average [⟨[Dbl.nan], [], []⟩] = some none
    ∧ super_simple_average [⟨[Dbl.nan], [], []⟩] = some Dbl.nan
    ∧ super_simple_average [] = some Dbl.nan := by
  refine ⟨?_, ?_, ?_, ?_, ?_, ?_, ?_, ?_⟩
  · intro predictions s hs
    unfold causal_survival_average
    rw [hs]
    by_cases hpos : 0 < s.valid_predictions <;> simp [hpos]
  · intro predictions s hs
    unfold causal_survival_simple_average
    rw [hs]
    by_cases hpos : 0 < s.2 <;> simp [hpos]
  · intro predictions s hs
    unfold super_simple_average
    rw [hs]
    rfl
  · simp [valid_sum_count, Prediction.get_predictions, Dbl.isnan]
  · simp [causal_survival_average, prediction_statistics, Prediction.get_predictions,
      Dbl.isnan]
  · simp [causal_survival_simple_average, valid_sum_count, Prediction.get_predictions,
      Dbl.isnan]
  · simp [super_simple_average, valid_sum_count, Prediction.get_predictions, Dbl.isnan,
      Dbl.ofNat, Dbl.div_fin_zero]
  · simp [super_simple_average, valid_sum_count, Dbl.ofNat, Dbl.div_fin_zero]

/-- C26: the per-seed vector `pred_values` holds exactly
`min(10, number of predictions)` values.  When each of the five runs yields at
least 10 predictions (each with a point estimate), `all_predictions` holds five
vectors of ten values and every access `all_predictions[seed_idx][sample]` of
the comparison table, for `seed_idx < 5` and `sample < 10`, is within bounds;
this is the case of the predictions of five forests on a dataset with at least
10 rows. -/
theorem comparison_table_in_bounds (runs : List (List Prediction))
    (hruns : runs.length = seeds.length)
    (hrows : ∀ predictions ∈ runs, 10 ≤ predictions.length)
    (hpoint : ∀ predictions ∈ runs, ∀ pred ∈ predictions, pred.get_predictions ≠ []) :
    (∀ predictions values, pred_values predictions = some values →
        values.length = min 10 predictions.length)
    ∧ (∃ all_predictions, collect_pred_values runs = some all_predictions
        ∧ all_predictions.length = 5
        ∧ (∀ values ∈ all_predictions, values.length = 10)
        ∧ ∃ table, comparison_table all_predictions = some table
            ∧ table.length = 10 ∧ ∀ row ∈ table, row.length = 5)
    ∧ (∀ (compute_variance : Nat → List (Dbl × Dbl) → Dbl) (forest_of : Nat → Forest)
        (data : Data), 10 ≤ data.num_rows →
        ∃ all_predictions table,
          collect_pred_values (seeds.map fun seed =>
              ForestPredictor.predict compute_variance (forest_of seed) data data false)
            = some all_predictions
          ∧ comparison_table all_predictions = some table) := by
  have key : ∀ runs : List (List Prediction), runs.length = seeds.length →
      (∀ predictions ∈ runs, 10 ≤ predictions.length) →
      (∀ predictions ∈ runs, ∀ pred ∈ predictions, pred.get_predictions ≠ []) →
      ∃ all_predictions, collect_pred_values runs = some all_predictions
        ∧ all_predictions.length = 5
        ∧ (∀ values ∈ all_predictions, values.length = 10)
        ∧ ∃ table, comparison_table all_predictions = some table
            ∧ table.length = 10 ∧ ∀ row ∈ table, row.length = 5 := by
    intro runs hruns hrows hpoint
    have hlen : (runs.map fun predictions =>
        (List.range (min 10 predictions.length)).map fun i =>
          ((predictions.getD i Prediction.unavailable).get_predictions).headD Dbl.nan).length
        = seeds.length := by
      rw [List.length_map, hruns]
    have hvalues : ∀ values ∈ (runs.map fun predictions =>
        (List.range (min 10 predictions.length)).map fun i =>
          ((predictions.getD i Prediction.unavailable).get_predictions).headD Dbl.nan),
        values.length = 10 := by
      intro values hmem
      obtain ⟨predictions, hpred, rfl⟩ := List.mem_map.mp hmem
      rw [List.length_map, List.length_range, Nat.min_eq_left (hrows predictions hpred)]
    refine ⟨_, collect_pred_values_eq runs hpoint, hlen, hvalues,
      _, comparison_table_eq _ hlen hvalues, by simp, ?_⟩
    intro row hrow
    obtain ⟨sample, _, rfl⟩ := List.mem_map.mp hrow
    rw [List.length_map, List.length_range]
    rfl
  refine ⟨?_, key runs hruns hrows hpoint, ?_⟩
  · intro predictions values hvalues
    have h := mapM_option_length _ _ _ hvalues
    rw [h, List.length_range]
  · intro compute_variance forest_of data hdata
    obtain ⟨all_predictions, hcollect, _, _, table, htable, _⟩ :=
      key (seeds.map fun seed =>
          ForestPredictor.predict compute_variance (forest_of seed) data data false)
        (by simp)
        (by
          intro predictions hmem
          obtain ⟨seed, _, rfl⟩ := List.mem_map.mp hmem
          simpa [ForestPredictor.predict] using hdata)
        (by
          intro predictions hmem pred hpred
          obtain ⟨seed, _, rfl⟩ := List.mem_map.mp hmem
          unfold ForestPredictor.predict at hpred
          obtain ⟨row, _, rfl⟩ := List.mem_map.mp hpred
          rw [predict_row_get_predictions]
          simp)
    exact ⟨all_predictions, table, hcollect, htable⟩

/-- Witness of C26: five runs of ten predictions with point estimate 1. -/
theorem comparison_table_in_bounds_witness :
    (List.replicate 5 (List.replicate 10 (⟨[Dbl.fin 1], [], []⟩ : Prediction))).length
        = seeds.length
    ∧ ∃ all_predictions,
        collect_pred_values
            (List.replicate 5 (List.replicate 10 (⟨[Dbl.fin 1], [], []⟩ : Prediction)))
          = some all_predictions
        ∧ all_predictions.length = 5
        ∧ ∃ table, comparison_table all_predictions = some table ∧ table.length = 10 := by
  have hruns : (List.replicate 5 (List.replicate 10 (⟨[Dbl.fin 1], [], []⟩ : Prediction))).length
      = seeds.length := by decide
  have hrows : ∀ predictions ∈
      List.replicate 5 (List.replicate 10 (⟨[Dbl.fin 1], [], []⟩ : Prediction)),
      10 ≤ predictions.length := by
    intro predictions hmem
    rw [List.eq_of_mem_replicate hmem, List.length_replicate]
  have hpoint : ∀ predictions ∈
      List.replicate 5 (List.replicate 10 (⟨[Dbl.fin 1], [], []⟩ : Prediction)),
      ∀ pred ∈ predictions, pred.get_predictions ≠ [] := by
    intro predictions hmem pred hpred
    rw [List.eq_of_mem_replicate hmem] at hpred
    rw [List.eq_of_mem_replicate hpred]
    simp [Prediction.get_predictions]
  obtain ⟨all_predictions, hcollect, hlen, _, table, htable, htlen, _⟩ :=
    (comparison_table_in_bounds _ hruns hrows hpoint).2.1
  exact ⟨hruns, all_predictions, hcollect, hlen, table, htable, htlen⟩

/-- Counterexample to C25 as stated.  On the equal values `0.1, 0.1, 0.1` the
mean is computed as `0.10000000000000002` and `calculate_std_dev` returns
`1.39e-17`, not 0.  On the unequal values `0` and `1e-200` the squared
deviations underflow to 0 and it returns 0.  On the one value `+inf` it returns
NaN, which is not `>= 0`. -/
theorem std_dev_counterexample :
    Binary64.calculate_std_dev [F64.round (1 / 10), F64.round (1 / 10), F64.round (1 / 10)]
      = F64.fin (1 / 72057594037927936)
    ∧ F64.ne (F64.fin (1 / 72057594037927936)) (F64.fin 0) = true
    ∧ F64.ne (F64.fin 0) (F64.round (1 / 10 ^ 200)) = true
    ∧ Binary64.calculate_std_dev [F64.fin 0, F64.round (1 / 10 ^ 200)] = F64.fin 0
    ∧ Binary64.calculate_std_dev [F64.pinf] = F64.nan
    ∧ F64.le (F64.fin 0) F64.nan = false := by
  decide!

/-- C25, amended: for every non-empty list of finite values, `calculate_std_dev`
returns the square root of the two-pass variance `(1/n) Σ (v_i - mean)²` as the
program computes it, each operation rounded; this variance and the value
returned are `>= 0` and are not NaN; the value returned is 0 when every value
equals the computed mean; the inline computation of the randomness demo returns
the same value as `calculate_std_dev` on every input. -/
theorem calculate_std_dev_population (values : List F64) (hne : values ≠ [])
    (hsize : values.length < 2 ^ 53) (hfin : ∀ v ∈ values, v.isFinite = true) :
    Binary64.calculate_std_dev values
        = F64.sqrt
            (values.foldl
                (fun variance v =>
                  variance + (v - Binary64.mean_of values) * (v - Binary64.mean_of values))
                (F64.fin 0)
              / F64.ofNat values.length)
    ∧ F64.le (F64.fin 0) (Binary64.two_pass_variance values) = true
    ∧ F64.le (F64.fin 0) (Binary64.calculate_std_dev values) = true
    ∧ (Binary64.calculate_std_dev values).isnan = false
    ∧ ((∀ v ∈ values, F64.ne v (Binary64.mean_of values) = false) →
        Binary64.calculate_std_dev values = F64.fin 0)
    ∧ (∀ sample_preds : List F64,
        Binary64.inline_std_dev sample_preds = Binary64.calculate_std_dev sample_preds) := by
  have hvar := Binary64.two_pass_variance_nonneg values hne hsize hfin
  have hstd : F64.le (F64.fin 0) (Binary64.calculate_std_dev values) = true :=
    F64.nonneg_sqrt _ hvar
  refine ⟨rfl, hvar, hstd, F64.isnan_of_le_zero _ hstd, ?_, fun _ => rfl⟩
  intro hall
  obtain ⟨hsz, hsz0, _⟩ :=
    F64.ofNat_ne_zero_of_pos values.length (List.length_pos.mpr hne) hsize
  have hsum : values.foldl
      (fun variance v =>
        variance + (v - Binary64.mean_of values) * (v - Binary64.mean_of values))
      (F64.fin 0) = F64.fin 0 :=
    F64.foldl_add_zero
      (fun v => (v - Binary64.mean_of values) * (v - Binary64.mean_of values)) values
      (fun v hv => F64.square_of_eq v _ (hfin v hv) (hall v hv))
  unfold Binary64.calculate_std_dev Binary64.two_pass_variance
  rw [hsum, hsz, F64.div_zero_fin _ hsz0]
  have hneg : ¬ ((values.length : ℚ) < 0) := not_lt.mpr (Nat.cast_nonneg _)
  simp [hneg, F64.zero, F64.sqrt]

/-- Witness of the amended C25 on five predictions equal to 1.5: the mean is
computed exactly and the standard deviation is 0. -/
theorem calculate_std_dev_population_witness :
    ([F64.fin (3 / 2), F64.fin (3 / 2), F64.fin (3 / 2), F64.fin (3 / 2), F64.fin (3 / 2)]
        ≠ [])
    ∧ Binary64.mean_of
        [F64.fin (3 / 2), F64.fin (3 / 2), F64.fin (3 / 2), F64.fin (3 / 2), F64.fin (3 / 2)]
      = F64.fin (3 / 2)
    ∧ Binary64.calculate_std_dev
        [F64.fin (3 / 2), F64.fin (3 / 2), F64.fin (3 / 2), F64.fin (3 / 2), F64.fin (3 / 2)]
      = F64.fin 0 := by
  have hne : [F64.fin (3 / 2), F64.fin (3 / 2), F64.fin (3 / 2), F64.fin (3 / 2),
      F64.fin (3 / 2)] ≠ [] := by simp
  exact ⟨hne, by decide!,
    (calculate_std_dev_population
      [F64.fin (3 / 2), F64.fin (3 / 2), F64.fin (3 / 2), F64.fin (3 / 2), F64.fin (3 / 2)]
      hne (by norm_num) (by decide!)).2.2.2.2.1 (by decide!)⟩

/-- C22: for every input on which `load_csv` does not raise, it returns
exactly one `DataRow` per input line, in line order, the row parsed from that
line, and every row has at most 5 features.  A blank line yields a row without
features, whereas `load_simple_data` skips it. -/
theorem load_csv_one_row_per_line (stod : List Char → Option Dbl) (indeterminate : Dbl)
    (text : List Char) (data : List DataRow)
    (hload : load_csv stod indeterminate text = some data) :
    data.length = (getlines text).length
    ∧ (∀ row ∈ data, row.features.length ≤ 5)
    ∧ (∀ (i : Nat) (line : List Char), (getlines text)[i]? = some line →
        ∃ row, parse_data_row stod indeterminate line = some row ∧ data[i]? = some row)
    ∧ load_csv stod indeterminate ['\n']
        = some [⟨[], indeterminate, indeterminate, indeterminate, indeterminate⟩]
    ∧ (∀ num_get, load_simple_data num_get ['\n'] = []) := by
  rw [load_csv_eq] at hload
  refine ⟨mapM_option_length _ _ _ hload, ?_, ?_, ?_, ?_⟩
  · intro row hrow
    obtain ⟨line, _, hline⟩ := mapM_option_mem _ _ _ hload row hrow
    exact parse_data_row_features stod indeterminate line row hline
  · intro i line hline
    exact mapM_option_getElem? _ _ _ hload i line hline
  · simp [load_csv, load_csv_lines, getlines, getlines_from, parse_data_row, read_features,
      read_field, getline_space]
  · intro num_get
    simp [load_simple_data, getlines, getlines_from, read_row, read_values]

/-- Witness of C22: the file with the line `1 2` and a blank line gives two
rows, the first with two features and the second with none. -/
theorem load_csv_one_row_per_line_witness :
    ∃ data, load_csv decimal_stod Dbl.nan ['1', ' ', '2', '\n', '\n'] = some data
      ∧ data.length = (getlines ['1', ' ', '2', '\n', '\n']).length
      ∧ data.length = 2
      ∧ ∀ row ∈ data, row.features.length ≤ 5 :=
  ⟨_, load_csv_short_example,
    (load_csv_one_row_per_line decimal_stod Dbl.nan _ _ load_csv_short_example).1, rfl,
    (load_csv_one_row_per_line decimal_stod Dbl.nan _ _ load_csv_short_example).2.1⟩

/-- C21: on well-formed input, where every line consists of exactly nine
numbers separated by single spaces, `load_csv` does not raise and agrees with
`load_simple_data`: both return the same number of rows, one per line, and the
row of `load_simple_data` is the five features of the row of `load_csv`
followed by its treatment, censor, numerator and denominator, so that the
features are cells 0..4, the treatment is cell 5, the censor cell 6, the
numerator cell 7 and the denominator cell 8. -/
theorem loaders_agree (num_get : List Char → Option (Dbl × List Char))
    (stod : List Char → Option Dbl) (indeterminate : Dbl) (text : List Char)
    (hget : consumes_input num_get)
    (hwell : ∀ line ∈ getlines text, ∃ cells, nine_numbers num_get stod line cells) :
    ∃ data, load_csv stod indeterminate text = some data
      ∧ data.length = (load_simple_data num_get text).length
      ∧ data.length = (getlines text).length
      ∧ load_simple_data num_get text
          = data.map (fun row =>
              row.features ++ [row.treatment, row.censor, row.numerator, row.denominator])
      ∧ ∀ row ∈ data, row.features.length = 5 := by
  obtain ⟨data, hdata, hrows, hfeatures⟩ :=
    loaders_agree_lines num_get stod indeterminate hget (getlines text) hwell
  refine ⟨data, ?_, ?_, ?_, ?_, hfeatures⟩
  · rw [load_csv_eq, hdata]
  · rw [load_simple_data_eq, hrows, List.length_map]
  · exact mapM_option_length _ _ _ hdata
  · rw [load_simple_data_eq, hrows]

/-- Witness of C21: the file with the single line `1 2 3 4 5 6 7 8 9` is well
formed for the decimal readers, and both loaders return one row. -/
theorem loaders_agree_witness :
    consumes_input decimal_num_get
      ∧ (∀ line ∈ getlines ['1', ' ', '2', ' ', '3', ' ', '4', ' ', '5', ' ', '6', ' ', '7',
            ' ', '8', ' ', '9', '\n'],
          ∃ cells, nine_numbers decimal_num_get decimal_stod line cells)
      ∧ ∃ data, load_csv decimal_stod Dbl.nan ['1', ' ', '2', ' ', '3', ' ', '4', ' ', '5',
            ' ', '6', ' ', '7', ' ', '8', ' ', '9', '\n'] = some data
          ∧ data.length = (load_simple_data decimal_num_get ['1', ' ', '2', ' ', '3', ' ',
              '4', ' ', '5', ' ', '6', ' ', '7', ' ', '8', ' ', '9', '\n']).length
          ∧ data.length = (getlines ['1', ' ', '2', ' ', '3', ' ', '4', ' ', '5', ' ', '6',
              ' ', '7', ' ', '8', ' ', '9', '\n']).length
          ∧ load_simple_data decimal_num_get ['1', ' ', '2', ' ', '3', ' ', '4', ' ', '5',
              ' ', '6', ' ', '7', ' ', '8', ' ', '9', '\n']
              = data.map (fun row =>
                  row.features
                    ++ [row.treatment, row.censor, row.numerator, row.denominator])
          ∧ ∀ row ∈ data, row.features.length = 5 :=
  ⟨decimal_num_get_consumes, nine_digits_well_formed,
    loaders_agree decimal_num_get decimal_stod Dbl.nan _ decimal_num_get_consumes
      nine_digits_well_formed⟩

/-- Counterexample to C28 as stated.  On scenario 1 of the demo the function
returns `0.6`; with every numerator multiplied by `k = 3` it returns
`1.8000000000000003`, while `3 * 0.6` is `1.7999999999999998`.  On numerators
`{0.7, 0.7}` and denominators `{0.1, 0.3}` it returns `3.4999999999999996`;
with all numerators and all denominators multiplied by `k = 7` it returns
`3.499999999999999`. -/
theorem rescaling_counterexample :
    Binary64.predict_causal_survival_effect
        [F64.round (15 / 100), F64.round (20 / 100), F64.round (18 / 100),
          F64.round (12 / 100), F64.round (25 / 100)]
        [F64.round (30 / 100), F64.round (35 / 100), F64.round (25 / 100),
          F64.round (20 / 100), F64.round (40 / 100)]
      = some [F64.fin (5404319552844595 / 9007199254740992)]
    ∧ Binary64.predict_causal_survival_effect
        ([F64.round (15 / 100), F64.round (20 / 100), F64.round (18 / 100),
          F64.round (12 / 100), F64.round (25 / 100)].map fun n => F64.fin 3 * n)
        [F64.round (30 / 100), F64.round (35 / 100), F64.round (25 / 100),
          F64.round (20 / 100), F64.round (40 / 100)]
      = some [F64.fin (4053239664633447 / 2251799813685248)]
    ∧ F64.fin 3 * F64.fin (5404319552844595 / 9007199254740992)
      = F64.fin (2026619832316723 / 1125899906842624)
    ∧ F64.ne (F64.fin (4053239664633447 / 2251799813685248))
        (F64.fin (2026619832316723 / 1125899906842624)) = true
    ∧ Binary64.predict_causal_survival_effect
        [F64.round (7 / 10), F64.round (7 / 10)] [F64.round (1 / 10), F64.round (3 / 10)]
      = some [F64.fin (7881299347898367 / 2251799813685248)]
    ∧ Binary64.predict_causal_survival_effect
        ([F64.round (7 / 10), F64.round (7 / 10)].map fun n => F64.fin 7 * n)
        ([F64.round (1 / 10), F64.round (3 / 10)].map fun d => F64.fin 7 * d)
      = some [F64.fin (3940649673949183 / 1125899906842624)]
    ∧ F64.ne (F64.fin (7881299347898367 / 2251799813685248))
        (F64.fin (3940649673949183 / 1125899906842624)) = true := by
  decide!

/-- C28, amended: `predict_causal_survival_effect` is invariant under a common
rescaling and homogeneous in the numerators when nothing is rounded.  For every
non-empty input (finite values, equal lengths) whose denominators do not sum to
zero and every `k ≠ 0`, if the exact multiples `k * numerator_i` and
`k * denominator_i` are the scaled inputs and the average numerator, the
average denominator, their scaled counterparts and the effect are computed
without rounding error, then scaling all numerators and all denominators by `k`
returns an equal value, and scaling only the numerators returns a value equal
to `k` times the effect. -/
theorem rescaling_and_homogeneity (numerators denominators : List ℚ) (k : ℚ)
    (hne : numerators ≠ []) (hlen : numerators.length = denominators.length)
    (hsum : denominators.sum ≠ 0) (hk : k ≠ 0)
    (hnum : Binary64.sum (numerators.map F64.fin) / F64.ofNat numerators.length
      = F64.fin (numerators.sum / numerators.length))
    (hden : Binary64.sum (denominators.map F64.fin) / F64.ofNat numerators.length
      = F64.fin (denominators.sum / numerators.length))
    (hknum : Binary64.sum ((numerators.map fun n => k * n).map F64.fin)
        / F64.ofNat numerators.length
      = F64.fin (k * numerators.sum / numerators.length))
    (hkden : Binary64.sum ((denominators.map fun d => k * d).map F64.fin)
        / F64.ofNat numerators.length
      = F64.fin (k * denominators.sum / numerators.length))
    (heffect : F64.fin numerators.sum / F64.fin denominators.sum
      = F64.fin (numerators.sum / denominators.sum)) :
    ∃ effect scaled_both scaled_numerators,
      Binary64.predict_causal_survival_effect (numerators.map F64.fin)
          (denominators.map F64.fin) = some [effect]
      ∧ Binary64.predict_causal_survival_effect
          ((numerators.map fun n => k * n).map F64.fin)
          ((denominators.map fun d => k * d).map F64.fin) = some [scaled_both]
      ∧ Binary64.predict_causal_survival_effect
          ((numerators.map fun n => k * n).map F64.fin)
          (denominators.map F64.fin) = some [scaled_numerators]
      ∧ effect = F64.fin (numerators.sum / denominators.sum)
      ∧ F64.ne scaled_both effect = false
      ∧ F64.ne scaled_numerators (F64.fin k * effect) = false := by
  have hpos : 0 < numerators.length := List.length_pos.mpr hne
  have hksum : k * denominators.sum ≠ 0 := mul_ne_zero hk hsum
  have heq : F64.fin (numerators.sum / numerators.length)
      / F64.fin (denominators.sum / numerators.length)
      = F64.fin (numerators.sum / denominators.sum) := by
    rw [F64.ratio_of_exact_averages _ _ _ hpos hsum, heffect]
  refine ⟨_, _, _,
    Binary64.predict_causal_survival_effect_f64 _ _ (by simpa using hlen),
    Binary64.predict_causal_survival_effect_f64 _ _ (by simpa using hlen),
    Binary64.predict_causal_survival_effect_f64 _ _ (by simpa using hlen), ?_, ?_, ?_⟩
  · rw [List.length_map, hnum, hden, heq]
  · simp only [List.length_map]
    rw [hnum, hden, hknum, hkden, heq, F64.ratio_of_exact_averages _ _ _ hpos hksum]
    by_cases hN : numerators.sum = 0
    · rw [hN, mul_zero, zero_div, F64.div_zero_fin _ hksum]
      exact F64.ne_zero_zero _
    · rw [F64.div_fin_ne_zero _ _ (mul_ne_zero hk hN) hksum, mul_div_mul_left _ _ hk,
        ← F64.div_fin_ne_zero _ _ hN hsum, heffect]
      exact F64.ne_fin_self _
  · simp only [List.length_map]
    rw [hnum, hden, hknum, heq, F64.ratio_of_exact_averages _ _ _ hpos hsum]
    by_cases hN : numerators.sum = 0
    · rw [hN, mul_zero, zero_div, F64.div_zero_fin _ hsum]
      apply F64.ne_zero_left
      show F64.ne (F64.mul (F64.fin k) (F64.fin 0)) (F64.fin 0) = false
      simp [F64.mul, F64.value, F64.ne_zero_zero]
    · rw [F64.div_fin_ne_zero _ _ (mul_ne_zero hk hN) hsum]
      have hmul : F64.fin k * F64.fin (numerators.sum / denominators.sum)
          = F64.round (k * numerators.sum / denominators.sum) := by
        show F64.mul (F64.fin k) (F64.fin (numerators.sum / denominators.sum)) = _
        have hq : numerators.sum / denominators.sum ≠ 0 := div_ne_zero hN hsum
        simp [F64.mul, F64.value, hk, hq, mul_div_assoc]
      rw [hmul]
      exact F64.ne_round_self _

/-- Witness of the amended C28 on numerators `{1, 2, 3}`, denominators
`{2, 4, 6}` and `k = 3`: the effect is 1/2, scaling both leaves it equal,
scaling the numerators gives 3/2. -/
theorem rescaling_and_homogeneity_witness :
    (([1, 2, 3] : List ℚ) ≠ [])
    ∧ (([2, 4, 6] : List ℚ).sum ≠ 0)
    ∧ ((3 : ℚ) ≠ 0)
    ∧ Binary64.predict_causal_survival_effect (([1, 2, 3] : List ℚ).map F64.fin)
        (([2, 4, 6] : List ℚ).map F64.fin) = some [F64.fin (1 / 2)]
    ∧ Binary64.predict_causal_survival_effect
        ((([1, 2, 3] : List ℚ).map fun n => 3 * n).map F64.fin)
        (([2, 4, 6] : List ℚ).map F64.fin) = some [F64.fin (3 / 2)]
    ∧ ∃ effect scaled_both scaled_numerators,
        Binary64.predict_causal_survival_effect (([1, 2, 3] : List ℚ).map F64.fin)
            (([2, 4, 6] : List ℚ).map F64.fin) = some [effect]
        ∧ Binary64.predict_causal_survival_effect
            ((([1, 2, 3] : List ℚ).map fun n => 3 * n).map F64.fin)
            ((([2, 4, 6] : List ℚ).map fun d => 3 * d).map F64.fin) = some [scaled_both]
        ∧ Binary64.predict_causal_survival_effect
            ((([1, 2, 3] : List ℚ).map fun n => 3 * n).map F64.fin)
            (([2, 4, 6] : List ℚ).map F64.fin) = some [scaled_numerators]
        ∧ effect = F64.fin (([1, 2, 3] : List ℚ).sum / ([2, 4, 6] : List ℚ).sum)
        ∧ F64.ne scaled_both effect = false
        ∧ F64.ne scaled_numerators (F64.fin 3 * effect) = false :=
  have h1 : (([1, 2, 3] : List ℚ) ≠ []) := by simp
  have h2 : (([2, 4, 6] : List ℚ).sum ≠ 0) := by norm_num
  have h3 : ((3 : ℚ) ≠ 0) := by norm_num
  ⟨h1, h2, h3, by decide!, by decide!,
    rescaling_and_homogeneity [1, 2, 3] [2, 4, 6] 3 h1 rfl h2 h3 (by decide!) (by decide!)
      (by decide!) (by decide!) (by decide!)⟩

end Grf
